import Mathlib

/-!
COMPAS evolution driver (src/main.cpp)

A shallow embedding of the functions of src/main.cpp: sigHandler,
EvolveSingleStars, EvolveBinaryStars and main.

Conventions of the embedding

* The collaborators (OPTIONS, RAND, LOGGING, AIS) live in headers that are not
  part of the source file; every value the driver obtains from them is a field
  of Env.  A collaborator that is consulted at most once per loop iteration is a
  function of the iteration index.
* The collaborators do not write the two globals of lines 46-47: main.cpp is
  their only writer, so a call into a collaborator leaves them as they are.
* double values are exact rationals.  The quotient of a double division is a
  rational when the divisor is not zero; for a zero divisor it is no finite
  value (an infinity or NaN, with the division-by-zero exception raised) and
  is written none.
* The int counters index and nStarsCreated / nBinariesCreated start at 0 and
  are only ever incremented, so they are natural numbers; the loop target
  (nStars / nBinaries) comes from the options and is an integer.  Signed
  overflow is undefined in C++, so the counters are mathematical integers.
* unsigned long is 64 bits wide: the seed arithmetic is taken modulo 2^64.
* A BinaryStar* / Star* is none for NULL and some i for the object that the
  iteration with index i constructed.
* Every executed statement that matters is recorded as an Entry, carrying the
  values of index, evolutionStatus and the two globals at the moment the
  statement starts.  The state between two statements is therefore the
  snapshot of the later one.
* The while loops are unrolled by a bound on the number of iterations
  (loopSingle, loopBinary); EvolveSingleStars and EvolveBinaryStars return
  none when the bound was too small for the loop to exit.
* The source file holds two copies of the head of EvolveBinaryStars; the first
  one (lines 280-373) breaks off inside the loop body.  The embedding follows
  the complete copy, lines 379-516.
-/

namespace COMPAS

/-- Values of EVOLUTION_STATUS (constants.h) that main.cpp mentions. -/
inductive EVOLUTION_STATUS where
  | CONTINUE
  | DONE
  | STOPPED
  | ERROR
  | AIS_EXPLORATORY
  deriving DecidableEq, Repr

/-- Values of LOGFILE (constants.h) that main.cpp mentions. -/
inductive LOGFILE where
  | SSE_PARAMETERS
  | SSE_SWITCH_LOG
  | BSE_DETAILED_OUTPUT
  | BSE_SWITCH_LOG
  deriving DecidableEq, Repr

/-- The two globals of lines 46-47. -/
structure Globals where
  evolvingBinaryStar : Option Nat
  evolvingBinaryStarValid : Bool
  deriving DecidableEq, Repr

/-- Values of the globals at program start (lines 46-47). -/
def Globals.initial : Globals :=
  { evolvingBinaryStar := none, evolvingBinaryStarValid := false }

/-- Statements of the two sweeps, with the values they pass or receive. -/
inductive Stmt where
  | resetPointer
  | resetValid
  | ApplyNextGridRecord (gridResult : Int)
  | Seed (arg : Nat)
  | deleteStar
  | newStar (randomSeed : Nat) (initialMass : ℚ)
  | starEvolve
  | deleteBinary
  | newBinaryStar (index : Nat)
  | setPointer
  | setValid
  | binaryEvolve
  | countCreated
  | ShouldStopExploratoryPhase (index : Nat) (result : Bool)
  | CloseStandardFile (file : LOGFILE) (closed : Bool)
  | Clean
  | nextIndex
  | deleteAfterLoop
  deriving DecidableEq, Repr

/-- One executed statement with the state in which it starts. -/
structure Entry where
  index : Nat
  stmt : Stmt
  evolutionStatus : EVOLUTION_STATUS
  evolvingBinaryStar : Option Nat
  evolvingBinaryStarValid : Bool
  deriving DecidableEq, Repr

/-- What the driver reads from its collaborators.  ApplyNextGridRecord i is the
result of the grid read made in iteration i (one read per iteration of a grid
sweep); Mass, FixedRandomSeed, RandomSeed and AIS_ExploratoryPhase are the
option values in force in iteration i (a grid record may change them);
CloseStandardFile f i is the result of closing file f in iteration i;
Seed is RAND->Seed and DefaultSeed is RAND->DefaultSeed(). -/
structure Env where
  GridFilename : String
  SingleStarMassMin : ℚ
  SingleStarMassMax : ℚ
  SingleStarMassSteps : Int
  nBinaries : Int
  ApplyNextGridRecord : Nat → Int
  Mass : Nat → ℚ
  FixedRandomSeed : Nat → Bool
  RandomSeed : Nat → Nat
  DefaultSeed : Nat
  Seed : Nat → Nat
  AIS_ExploratoryPhase : Nat → Bool
  ShouldStopExploratoryPhase : Nat → Bool
  CloseStandardFile : LOGFILE → Nat → Bool

/-- Number of values of an unsigned long. -/
def ULONG_MODULUS : Nat := 2 ^ 64

/-- Effects of one run of the signal handler. -/
structure HandlerEffect where
  globals : Globals
  printSwitchLog : List (Option Nat)
  errorsShown : Nat
  deriving DecidableEq, Repr

/-- Lines 88-94.  SIGUSR1 is the constant of csignal, BSESwitchLog the value of
OPTIONS->BSESwitchLog().  printSwitchLog lists the pointers through which
PrintSwitchLog was called; errorsShown counts the errors and warnings the
handler shows itself, and the handler has no statement that shows one. -/
def sigHandler (SIGUSR1 : Int) (BSESwitchLog : Bool) (g : Globals) (p_Sig : Int) :
    HandlerEffect :=
  if p_Sig = SIGUSR1 then
    if g.evolvingBinaryStarValid && BSESwitchLog then
      { globals := g, printSwitchLog := [g.evolvingBinaryStar], errorsShown := 0 }
    else
      { globals := g, printSwitchLog := [], errorsShown := 0 }
  else
    { globals := g, printSwitchLog := [], errorsShown := 0 }

/-- Line 119 / 398: usingGrid. -/
def usingGrid (e : Env) : Bool := !e.GridFilename.isEmpty

/-- Division of two doubles: none stands for the quotient by a zero divisor,
which is no finite value. -/
def divide (x y : ℚ) : Option ℚ := if y = 0 then none else some (x / y)

/-- Line 115: the value given to massInc, a division by SingleStarMassSteps()
that is made once, before the loop, whatever the step count and the sweep mode. -/
def massInc (e : Env) : Option ℚ :=
  divide (e.SingleStarMassMax - e.SingleStarMassMin) (e.SingleStarMassSteps : ℚ)

/-- Variables of EvolveSingleStars that live across iterations. -/
structure SingleVars where
  evolutionStatus : EVOLUTION_STATUS
  massInc : Option ℚ
  nStars : Int
  nStarsCreated : Nat
  index : Nat
  star : Option Nat
  globals : Globals
  deriving DecidableEq, Repr

/-- Snapshot of the single-star state at a statement. -/
def SingleVars.snapshot (v : SingleVars) (s : Stmt) : Entry :=
  { index := v.index, stmt := s, evolutionStatus := v.evolutionStatus,
    evolvingBinaryStar := v.globals.evolvingBinaryStar,
    evolvingBinaryStarValid := v.globals.evolvingBinaryStarValid }

/-- Lines 107-124: state at the first test of the loop condition. -/
def singleInit (e : Env) (g : Globals) : SingleVars :=
  { evolutionStatus := .CONTINUE,
    massInc := massInc e,
    nStars := if usingGrid e then 1 else e.SingleStarMassSteps,
    nStarsCreated := 0,
    index := 0,
    star := none,
    globals := g }

/-- Line 125: the loop condition. -/
def singleCond (v : SingleVars) : Bool :=
  decide (v.evolutionStatus = .CONTINUE) && decide ((v.index : Int) < v.nStars)

/-- Lines 129-145: the grid read or the linear mass computation.  Returns the
state and the value of the initialMass declared on line 127.  Line 144 declares
a second variable of the same name inside the else block. -/
def singleNext (e : Env) (v : SingleVars) : SingleVars × ℚ :=
  let initialMass : ℚ := 0
  if usingGrid e then
    let gridResult := e.ApplyNextGridRecord v.index
    if gridResult = -1 then ({ v with evolutionStatus := .STOPPED }, initialMass)
    else if gridResult = 0 then ({ v with evolutionStatus := .DONE }, initialMass)
    else if gridResult = 1 then ({ v with nStars := v.nStars + 1 }, e.Mass v.index)
    else ({ v with evolutionStatus := .STOPPED }, initialMass)
  else
    let _initialMass : Option ℚ :=
      v.massInc.map fun inc => e.SingleStarMassMin + (v.index : ℚ) * inc
    (v, initialMass)

/-- Lines 164-170: the argument handed to RAND->Seed. -/
def seedArgument (e : Env) (index : Nat) : Nat :=
  if e.FixedRandomSeed index then (e.RandomSeed index + index) % ULONG_MODULUS
  else (e.DefaultSeed + index) % ULONG_MODULUS

/-- Lines 147-212: seed, construct, evolve and count one star. -/
def singleCreate (e : Env) (v : SingleVars) (initialMass : ℚ) : SingleVars × List Entry :=
  if v.evolutionStatus = .CONTINUE then
    let randomSeed := e.Seed (seedArgument e v.index)
    let v1 : SingleVars := { v with star := some v.index }
    let v2 : SingleVars := { v1 with nStarsCreated := v1.nStarsCreated + 1 }
    (v2, [v.snapshot (.Seed (seedArgument e v.index)), v.snapshot .deleteStar,
          v.snapshot (.newStar randomSeed initialMass), v1.snapshot .starEvolve, v1.snapshot .countCreated])
  else (v, [])

/-- Lines 214-225: the two file closes, the catalog clean and index++. -/
def singleClose (e : Env) (v : SingleVars) : SingleVars × List Entry :=
  let closedParameters := e.CloseStandardFile .SSE_PARAMETERS v.index
  let v1 : SingleVars :=
    if !closedParameters then { v with evolutionStatus := .STOPPED } else v
  let closedSwitchLog := e.CloseStandardFile .SSE_SWITCH_LOG v.index
  let v2 : SingleVars :=
    if !closedSwitchLog then { v1 with evolutionStatus := .STOPPED } else v1
  let v3 : SingleVars := { v2 with index := v2.index + 1 }
  (v3, [v.snapshot (.CloseStandardFile .SSE_PARAMETERS closedParameters),
        v1.snapshot (.CloseStandardFile .SSE_SWITCH_LOG closedSwitchLog),
        v2.snapshot .Clean, v2.snapshot .nextIndex])

/-- Lines 127-225: one iteration of the single-star loop. -/
def singleBody (e : Env) (v : SingleVars) : SingleVars × List Entry :=
  let next := singleNext e v
  let read : List Entry :=
    if usingGrid e then [v.snapshot (.ApplyNextGridRecord (e.ApplyNextGridRecord v.index))] else []
  let made := singleCreate e next.1 next.2
  let closed := singleClose e made.1
  (closed.1, read ++ made.2 ++ closed.2)

/-- Lines 125-226: state and trace after at most k iterations. -/
def loopSingle (e : Env) (g : Globals) : Nat → SingleVars × List Entry
  | 0 => (singleInit e g, [])
  | k + 1 =>
    let p := loopSingle e g k
    if singleCond p.1 then ((singleBody e p.1).1, p.2 ++ (singleBody e p.1).2) else p

/-- What a sweep hands back: the returned tuple (requested, created), the status
that is announced, the number of loop iterations, the globals at return and the
trace. -/
structure Outcome where
  requested : Int
  created : Int
  evolutionStatus : EVOLUTION_STATUS
  iterations : Nat
  globals : Globals
  trace : List Entry
  deriving DecidableEq, Repr

/-- Lines 228-268: what EvolveSingleStars does once the loop has exited, from
the state and trace at loop exit. -/
def singleExit (e : Env) (p : SingleVars × List Entry) : Outcome :=
  let v := p.1
  let evolutionStatus : EVOLUTION_STATUS :=
    if v.evolutionStatus = .CONTINUE ∧ (v.index : Int) ≥ v.nStars then .DONE
    else v.evolutionStatus
  let nStarsRequested : Int :=
    if !usingGrid e then e.SingleStarMassSteps
    else (if evolutionStatus = .DONE then (v.nStarsCreated : Int) else -1)
  { requested := nStarsRequested,
    created := (v.nStarsCreated : Int),
    evolutionStatus := evolutionStatus,
    iterations := v.index,
    globals := v.globals,
    trace := p.2 ++ [v.snapshot .deleteAfterLoop] }

/-- Lines 105-269.  g holds the globals at the call; the result is none when
the loop has not exited within fuel iterations. -/
def EvolveSingleStars (e : Env) (g : Globals) (fuel : Nat) : Option Outcome :=
  let p := loopSingle e g fuel
  if singleCond p.1 then none else some (singleExit e p)

/-- Variables of EvolveBinaryStars that live across iterations, with the two
globals it writes. -/
structure BinaryVars where
  evolutionStatus : EVOLUTION_STATUS
  nBinaries : Int
  nBinariesCreated : Nat
  index : Nat
  binary : Option Nat
  globals : Globals
  deriving DecidableEq, Repr

/-- Snapshot of the binary-star state at a statement. -/
def BinaryVars.snapshot (v : BinaryVars) (s : Stmt) : Entry :=
  { index := v.index, stmt := s, evolutionStatus := v.evolutionStatus,
    evolvingBinaryStar := v.globals.evolvingBinaryStar,
    evolvingBinaryStarValid := v.globals.evolvingBinaryStarValid }

/-- Lines 379-402: state at the first test of the loop condition. -/
def binaryInit (e : Env) (g : Globals) : BinaryVars :=
  { evolutionStatus := .CONTINUE,
    nBinaries := if usingGrid e then 1 else e.nBinaries,
    nBinariesCreated := 0,
    index := 0,
    binary := none,
    globals := g }

/-- Line 403: the loop condition. -/
def binaryCond (v : BinaryVars) : Bool :=
  decide (v.evolutionStatus = .CONTINUE) && decide ((v.index : Int) < v.nBinaries)

/-- Lines 405-406: the two assignments that clear the globals. -/
def binaryReset (v : BinaryVars) : BinaryVars × List Entry :=
  let v1 : BinaryVars := { v with globals := { v.globals with evolvingBinaryStar := none } }
  let v2 : BinaryVars :=
    { v1 with globals := { v1.globals with evolvingBinaryStarValid := false } }
  (v2, [v.snapshot .resetPointer, v1.snapshot .resetValid])

/-- Lines 408-416: the grid read. -/
def binaryNext (e : Env) (v : BinaryVars) : BinaryVars × List Entry :=
  if usingGrid e then
    let gridResult := e.ApplyNextGridRecord v.index
    let v1 : BinaryVars :=
      if gridResult = -1 then { v with evolutionStatus := .STOPPED }
      else if gridResult = 0 then { v with evolutionStatus := .DONE }
      else if gridResult = 1 then { v with nBinaries := v.nBinaries + 1 }
      else { v with evolutionStatus := .STOPPED }
    (v1, [v.snapshot (.ApplyNextGridRecord gridResult)])
  else (v, [])

/-- Lines 418-463: construct, publish, evolve and count one binary, ask the
sampler, close the two files. -/
def binaryCreate (e : Env) (v : BinaryVars) : BinaryVars × List Entry :=
  if v.evolutionStatus = .CONTINUE then
    let v1 : BinaryVars := { v with binary := some v.index }
    let v2 : BinaryVars :=
      { v1 with globals := { v1.globals with evolvingBinaryStar := v1.binary } }
    let v3 : BinaryVars :=
      { v2 with globals := { v2.globals with evolvingBinaryStarValid := true } }
    let v4 : BinaryVars := { v3 with nBinariesCreated := v3.nBinariesCreated + 1 }
    let asked : List Entry :=
      if e.AIS_ExploratoryPhase v.index then
        [v4.snapshot (.ShouldStopExploratoryPhase v.index (e.ShouldStopExploratoryPhase v.index))]
      else []
    let v5 : BinaryVars :=
      if e.AIS_ExploratoryPhase v.index && e.ShouldStopExploratoryPhase v.index then
        { v4 with evolutionStatus := .AIS_EXPLORATORY }
      else v4
    let closedDetailed := e.CloseStandardFile .BSE_DETAILED_OUTPUT v.index
    let v6 : BinaryVars :=
      if !closedDetailed then { v5 with evolutionStatus := .STOPPED } else v5
    let closedSwitchLog := e.CloseStandardFile .BSE_SWITCH_LOG v.index
    let v7 : BinaryVars :=
      if !closedSwitchLog then { v6 with evolutionStatus := .STOPPED } else v6
    (v7, [v.snapshot .deleteBinary, v.snapshot (.newBinaryStar v.index), v1.snapshot .setPointer,
          v2.snapshot .setValid, v3.snapshot .binaryEvolve, v3.snapshot .countCreated] ++ asked ++
         [v5.snapshot (.CloseStandardFile .BSE_DETAILED_OUTPUT closedDetailed),
          v6.snapshot (.CloseStandardFile .BSE_SWITCH_LOG closedSwitchLog)])
  else (v, [])

/-- Lines 465-467: the catalog clean and index++. -/
def binaryAdvance (v : BinaryVars) : BinaryVars × List Entry :=
  ({ v with index := v.index + 1 }, [v.snapshot .Clean, v.snapshot .nextIndex])

/-- Lines 405-467: one iteration of the binary-star loop. -/
def binaryBody (e : Env) (v : BinaryVars) : BinaryVars × List Entry :=
  let cleared := binaryReset v
  let next := binaryNext e cleared.1
  let made := binaryCreate e next.1
  let advanced := binaryAdvance made.1
  (advanced.1, cleared.2 ++ next.2 ++ made.2 ++ advanced.2)

/-- Lines 403-468: state and trace after at most k iterations. -/
def loopBinary (e : Env) (g : Globals) : Nat → BinaryVars × List Entry
  | 0 => (binaryInit e g, [])
  | k + 1 =>
    let p := loopBinary e g k
    if binaryCond p.1 then ((binaryBody e p.1).1, p.2 ++ (binaryBody e p.1).2) else p

/-- Lines 469-515: what EvolveBinaryStars does once the loop has exited, from
the state and trace at loop exit.  The requested count (line 473) is computed
before AIS_EXPLORATORY is replaced by DONE (lines 477-480). -/
def binaryExit (e : Env) (p : BinaryVars × List Entry) : Outcome :=
  let v := p.1
  let statusSet : EVOLUTION_STATUS :=
    if v.evolutionStatus = .CONTINUE ∧ (v.index : Int) ≥ v.nBinaries then .DONE
    else v.evolutionStatus
  let nBinariesRequested : Int :=
    if usingGrid e then (if statusSet = .DONE then (v.nBinariesCreated : Int) else -1)
    else e.nBinaries
  let evolutionStatus : EVOLUTION_STATUS :=
    if statusSet = .AIS_EXPLORATORY then .DONE else statusSet
  { requested := nBinariesRequested,
    created := (v.nBinariesCreated : Int),
    evolutionStatus := evolutionStatus,
    iterations := v.index,
    globals := v.globals,
    trace := p.2 ++ [v.snapshot .deleteAfterLoop] }

/-- Lines 379-516 (with the handler installation of line 282, which changes
none of the modelled state).  g holds the globals at the call; the result is
none when the loop has not exited within fuel iterations. -/
def EvolveBinaryStars (e : Env) (g : Globals) (fuel : Nat) : Option Outcome :=
  let p := loopBinary e g fuel
  if binaryCond p.1 then none else some (binaryExit e p)

/-- Seeds handed to the Star constructor, in order of construction. -/
def starSeeds (tr : List Entry) : List Nat :=
  tr.filterMap fun en =>
    match en.stmt with
    | .newStar randomSeed _ => some randomSeed
    | _ => none

/-- Initial masses handed to the Star constructor, in order of construction. -/
def starMasses (tr : List Entry) : List ℚ :=
  tr.filterMap fun en =>
    match en.stmt with
    | .newStar _ initialMass => some initialMass
    | _ => none

/-- Arguments handed to RAND->Seed, in order. -/
def seedArguments (tr : List Entry) : List Nat :=
  tr.filterMap fun en =>
    match en.stmt with
    | .Seed arg => some arg
    | _ => none

/-- Number of objects constructed (Star or BinaryStar). -/
def constructions (tr : List Entry) : Nat :=
  tr.countP fun en =>
    match en.stmt with
    | .newStar _ _ => true
    | .newBinaryStar _ => true
    | _ => false

/-- Number of grid reads. -/
def gridReads (tr : List Entry) : Nat :=
  tr.countP fun en =>
    match en.stmt with
    | .ApplyNextGridRecord _ => true
    | _ => false

/-- The seed of the specification: baseSeed + index in unsigned long arithmetic. -/
def seedSpec (baseSeed index : Nat) : Nat := (baseSeed + index) % 2 ^ 64

/-- The base seed of the specification in iteration i. -/
def baseSeed (e : Env) (i : Nat) : Nat :=
  if e.FixedRandomSeed i then e.RandomSeed i else e.DefaultSeed

/-- The linear-sweep mass of the specification. -/
def linearMassSpec (massMin massMax : ℚ) (steps : Int) (i : Nat) : ℚ :=
  massMin + (i : ℚ) * (massMax - massMin) / (steps : ℚ)

/-! ## Concrete sweeps -/

/-- A linear sweep: masses from 1 to 5 in 4 steps, 2 binaries, user seed 7,
every file close succeeding, no sampler. -/
def linearSweep : Env :=
  { GridFilename := "",
    SingleStarMassMin := 1,
    SingleStarMassMax := 5,
    SingleStarMassSteps := 4,
    nBinaries := 2,
    ApplyNextGridRecord := fun _ => 0,
    Mass := fun _ => 0,
    FixedRandomSeed := fun _ => true,
    RandomSeed := fun _ => 7,
    DefaultSeed := 99,
    Seed := fun x => x,
    AIS_ExploratoryPhase := fun _ => false,
    ShouldStopExploratoryPhase := fun _ => false,
    CloseStandardFile := fun _ _ => true }

/-- The same linear sweep started at another time of day. -/
def linearSweepLater : Env := { linearSweep with DefaultSeed := 123456789 }

/-- The linear sweep with a step count of zero. -/
def zeroStepSweep : Env := { linearSweep with SingleStarMassSteps := 0 }

/-- A grid sweep whose reader returns 1 for the first n reads and last after. -/
def gridSweep (n : Nat) (last : Int) : Env :=
  { linearSweep with
    GridFilename := "grid.txt",
    ApplyNextGridRecord := fun i => if i < n then 1 else last,
    Mass := fun i => (i : ℚ) + 10 }

/-- The entry of the third star of linearSweep. -/
def thirdStar : Entry :=
  { index := 2, stmt := .newStar 9 0, evolutionStatus := .CONTINUE,
    evolvingBinaryStar := none, evolvingBinaryStarValid := false }

/-- The linear sweep in which both closes of the iteration with index 1 fail. -/
def closeFailSweep : Env :=
  { linearSweep with CloseStandardFile := fun _ i => decide (i ≠ 1) }

/-- The failed close of SSE_PARAMETERS in closeFailSweep. -/
def failedSingleClose : Entry :=
  { index := 1, stmt := .CloseStandardFile .SSE_PARAMETERS false,
    evolutionStatus := .CONTINUE, evolvingBinaryStar := none,
    evolvingBinaryStarValid := false }

/-- The failed close of BSE_DETAILED_OUTPUT in closeFailSweep. -/
def failedBinaryClose : Entry :=
  { index := 1, stmt := .CloseStandardFile .BSE_DETAILED_OUTPUT false,
    evolutionStatus := .CONTINUE, evolvingBinaryStar := some 1,
    evolvingBinaryStarValid := true }

/-- A linear sweep of four binaries in the AIS exploratory phase, whose sampler
asks to stop from index 1 on. -/
def samplerSweep : Env :=
  { linearSweep with
    nBinaries := 4,
    AIS_ExploratoryPhase := fun _ => true,
    ShouldStopExploratoryPhase := fun i => decide (1 ≤ i) }

/-- The second iteration of the binary linearSweep at line 406: the pointer has
been cleared, the flag not yet. -/
def betweenResets : Entry :=
  { index := 1, stmt := .resetValid, evolutionStatus := .CONTINUE,
    evolvingBinaryStar := none, evolvingBinaryStarValid := true }

/-- The second iteration of the binary linearSweep at its call of Evolve. -/
def secondEvolve : Entry :=
  { index := 1, stmt := .binaryEvolve, evolutionStatus := .CONTINUE,
    evolvingBinaryStar := some 1, evolvingBinaryStarValid := true }

/-! ## The program -/

/-- Values of PROGRAM_STATUS (constants.h) that main.cpp mentions. -/
inductive PROGRAM_STATUS where
  | SUCCESS
  | CONTINUE
  | LOGGING_FAILED
  deriving DecidableEq, Repr

/-- What main reads from its collaborators outside the sweeps: the result of
OPTIONS->Initialise, of RequestedHelp(), RequestedVersion() and SingleStar(),
and the value of LOGGING->Enabled() after LOGGING->Start. -/
structure Startup where
  Initialise : Bool
  RequestedHelp : Bool
  RequestedVersion : Bool
  Enabled : Bool
  SingleStar : Bool
  deriving DecidableEq, Repr

/-- Calls made by main, in order; a sweep is recorded with what it returned. -/
inductive MainCall where
  | SplashScreen
  | sayVersion
  | LoggingStart
  | RandInitialise
  | EvolveSingleStars (returned : Outcome)
  | EvolveBinaryStars (returned : Outcome)
  | RandFree
  | LoggingStop (objectsRequested objectsCreated : Int)
  deriving DecidableEq, Repr

/-- What main hands back: the status it returns and the calls it made. -/
structure MainOutcome where
  programStatus : PROGRAM_STATUS
  calls : List MainCall
  deriving DecidableEq, Repr

/-- Lines 537-548: the status and the calls after the option handling. -/
def mainOptions (s : Startup) : PROGRAM_STATUS × List MainCall :=
  let programStatus : PROGRAM_STATUS := .CONTINUE
  let ok := s.Initialise
  if ok then
    if s.RequestedHelp then (.SUCCESS, [.SplashScreen])
    else if s.RequestedVersion then (.SUCCESS, [.sayVersion])
    else (programStatus, [])
  else (programStatus, [])

/-- Lines 531-594.  The sweeps start from the globals of lines 46-47; the
result is none when the sweep has not finished within fuel iterations. -/
def main (s : Startup) (e : Env) (fuel : Nat) : Option MainOutcome :=
  let opts := mainOptions s
  if opts.1 = .CONTINUE then
    if !s.Enabled then
      some { programStatus := .LOGGING_FAILED,
             calls := opts.2 ++ [.LoggingStart, .SplashScreen] }
    else if s.SingleStar then
      (EvolveSingleStars e Globals.initial fuel).map fun o =>
        { programStatus := .SUCCESS,
          calls := opts.2 ++ [.LoggingStart, .SplashScreen, .RandInitialise,
            .EvolveSingleStars o, .RandFree, .LoggingStop o.requested o.created] }
    else
      (EvolveBinaryStars e Globals.initial fuel).map fun o =>
        { programStatus := .SUCCESS,
          calls := opts.2 ++ [.LoggingStart, .SplashScreen, .RandInitialise,
            .EvolveBinaryStars o, .RandFree, .LoggingStop o.requested o.created] }
  else some { programStatus := opts.1, calls := opts.2 }

/-- Number of sweeps among the calls of main. -/
def sweepsRun (calls : List MainCall) : Nat :=
  calls.countP fun c =>
    match c with
    | .EvolveSingleStars _ => true
    | .EvolveBinaryStars _ => true
    | _ => false

/-- The values the status holds along a piece of trace that ends in the status
final. -/
def statusTrail (tr : List Entry) (final : EVOLUTION_STATUS) : List EVOLUTION_STATUS :=
  tr.map (fun en => en.evolutionStatus) ++ [final]

/-- The distinct values of a trail that differ from start. -/
def otherValues (start : EVOLUTION_STATUS) (trail : List EVOLUTION_STATUS) :
    List EVOLUTION_STATUS :=
  (trail.filter fun s => decide (s ≠ start)).dedup

/-- The delete binary of line 469 after the linear sweep of two binaries. -/
def lastDelete : Entry :=
  { index := 2, stmt := .deleteAfterLoop, evolutionStatus := .CONTINUE,
    evolvingBinaryStar := some 1, evolvingBinaryStarValid := true }

/-- A start in which logging comes up and single stars are asked for. -/
def plainStart : Startup :=
  { Initialise := true, RequestedHelp := false, RequestedVersion := false,
    Enabled := true, SingleStar := true }

/-- A start in which OPTIONS->Initialise fails and logging comes up. -/
def failedInitialise : Startup := { plainStart with Initialise := false }

/-- A grid sweep of binaries in the AIS exploratory phase: the grid holds three
records and the sampler asks to stop from index 1 on. -/
def gridSamplerSweep : Env :=
  { gridSweep 3 0 with
    AIS_ExploratoryPhase := fun _ => true,
    ShouldStopExploratoryPhase := fun i => decide (1 ≤ i) }

/-- An empty grid whose files fail to close. -/
def emptyGridCloseFail : Env :=
  { gridSweep 0 0 with CloseStandardFile := fun _ _ => false }

/-- A linear sweep of binaries whose sampler asks to stop at once and whose
files fail to close. -/
def samplerCloseFail : Env :=
  { samplerSweep with
    ShouldStopExploratoryPhase := fun _ => true,
    CloseStandardFile := fun _ _ => false }

/-- A grid of two records whose files fail to close once the grid is exhausted. -/
def lateCloseFail : Env :=
  { gridSweep 2 0 with CloseStandardFile := fun _ i => decide (i < 2) }

/-! ## The single-star loop: general facts -/

theorem singleCond_iff (v : SingleVars) :
    singleCond v = true ↔ v.evolutionStatus = .CONTINUE ∧ (v.index : Int) < v.nStars := by
  simp [singleCond]

theorem loopSingle_succ_of_cond (e : Env) (g : Globals) (k : Nat)
    (h : singleCond (loopSingle e g k).1 = true) :
    loopSingle e g (k + 1) =
      ((singleBody e (loopSingle e g k).1).1,
        (loopSingle e g k).2 ++ (singleBody e (loopSingle e g k).1).2) := by
  simp [loopSingle, h]

theorem loopSingle_succ_of_not_cond (e : Env) (g : Globals) (k : Nat)
    (h : singleCond (loopSingle e g k).1 = false) :
    loopSingle e g (k + 1) = loopSingle e g k := by
  simp [loopSingle, h]

theorem loopSingle_stable (e : Env) (g : Globals) (k : Nat)
    (h : singleCond (loopSingle e g k).1 = false) (m : Nat) :
    loopSingle e g (k + m) = loopSingle e g k := by
  induction m with
  | zero => rfl
  | succ m ih =>
    have h2 : singleCond (loopSingle e g (k + m)).1 = false := by rw [ih]; exact h
    rw [← Nat.add_assoc, loopSingle_succ_of_not_cond e g (k + m) h2, ih]

theorem loopSingle_stable_le (e : Env) (g : Globals) (k fuel : Nat)
    (h : singleCond (loopSingle e g k).1 = false) (hle : k ≤ fuel) :
    loopSingle e g fuel = loopSingle e g k := by
  obtain ⟨m, rfl⟩ := Nat.exists_eq_add_of_le hle
  exact loopSingle_stable e g k h m

theorem singleNext_index (e : Env) (v : SingleVars) : (singleNext e v).1.index = v.index := by
  unfold singleNext
  dsimp only
  split_ifs <;> rfl

theorem singleBody_index (e : Env) (v : SingleVars) :
    (singleBody e v).1.index = v.index + 1 := by
  have h := singleNext_index e v
  unfold singleBody singleClose singleCreate
  dsimp only
  split_ifs <;> simp [h]

theorem loopSingle_index (e : Env) (g : Globals) (k : Nat) :
    (loopSingle e g k).1.index ≤ k ∧
      (singleCond (loopSingle e g k).1 = true → (loopSingle e g k).1.index = k) := by
  induction k with
  | zero => simp [loopSingle, singleInit]
  | succ k ih =>
    by_cases h : singleCond (loopSingle e g k).1 = true
    · rw [loopSingle_succ_of_cond e g k h]
      simp [singleBody_index, ih.2 h]
    · have h2 : singleCond (loopSingle e g k).1 = false := by simpa using h
      rw [loopSingle_succ_of_not_cond e g k h2]
      exact ⟨Nat.le_succ_of_le ih.1, fun hc => absurd hc h⟩

/-- Every entry of the trace was written by one iteration of the loop. -/
theorem loopSingle_origin (e : Env) (g : Globals) (k : Nat) (en : Entry)
    (hen : en ∈ (loopSingle e g k).2) :
    ∃ i, i < k ∧ singleCond (loopSingle e g i).1 = true ∧ (loopSingle e g i).1.index = i ∧
      en ∈ (singleBody e (loopSingle e g i).1).2 := by
  induction k with
  | zero => simp [loopSingle] at hen
  | succ k ih =>
    by_cases h : singleCond (loopSingle e g k).1 = true
    · rw [loopSingle_succ_of_cond e g k h] at hen
      rcases List.mem_append.1 hen with h1 | h1
      · obtain ⟨i, hi, hc⟩ := ih h1
        exact ⟨i, Nat.lt_succ_of_lt hi, hc⟩
      · exact ⟨k, Nat.lt_succ_self k, h, (loopSingle_index e g k).2 h, h1⟩
    · have h2 : singleCond (loopSingle e g k).1 = false := by simpa using h
      rw [loopSingle_succ_of_not_cond e g k h2] at hen
      obtain ⟨i, hi, hc⟩ := ih hen
      exact ⟨i, Nat.lt_succ_of_lt hi, hc⟩

theorem seedArgument_eq_spec (e : Env) (i : Nat) :
    seedArgument e i = seedSpec (baseSeed e i) i := by
  unfold seedArgument seedSpec baseSeed ULONG_MODULUS
  split_ifs <;> rfl

theorem singleCreate_index (e : Env) (v : SingleVars) (m : ℚ) :
    (singleCreate e v m).1.index = v.index := by
  unfold singleCreate
  split_ifs <;> rfl

theorem mem_singleBody (e : Env) (v : SingleVars) (en : Entry) :
    en ∈ (singleBody e v).2 ↔
      (usingGrid e = true ∧
          en = v.snapshot (.ApplyNextGridRecord (e.ApplyNextGridRecord v.index))) ∨
        en ∈ (singleCreate e (singleNext e v).1 (singleNext e v).2).2 ∨
        en ∈ (singleClose e (singleCreate e (singleNext e v).1 (singleNext e v).2).1).2 := by
  unfold singleBody
  by_cases h : usingGrid e = true <;> simp [h, or_assoc]

theorem mem_singleCreate (e : Env) (v : SingleVars) (m : ℚ) (en : Entry)
    (hen : en ∈ (singleCreate e v m).2) :
    v.evolutionStatus = .CONTINUE ∧ en.index = v.index ∧
      (en.stmt = .Seed (seedArgument e v.index) ∨ en.stmt = .deleteStar ∨
        en.stmt = .newStar (e.Seed (seedArgument e v.index)) m ∨ en.stmt = .starEvolve ∨
        en.stmt = .countCreated) := by
  unfold singleCreate at hen
  split_ifs at hen with h
  · simp only [List.mem_cons, List.mem_singleton, List.not_mem_nil, or_false] at hen
    rcases hen with h1 | h1 | h1 | h1 | h1 <;> subst h1 <;> simp [SingleVars.snapshot, h]
  · simp at hen

theorem mem_singleClose (e : Env) (v : SingleVars) (en : Entry)
    (hen : en ∈ (singleClose e v).2) :
    en.index = v.index ∧
      (en.stmt = .CloseStandardFile .SSE_PARAMETERS (e.CloseStandardFile .SSE_PARAMETERS v.index) ∨
        en.stmt = .CloseStandardFile .SSE_SWITCH_LOG (e.CloseStandardFile .SSE_SWITCH_LOG v.index) ∨
        en.stmt = .Clean ∨ en.stmt = .nextIndex) := by
  unfold singleClose at hen
  simp only [List.mem_cons, List.mem_singleton, List.not_mem_nil, or_false] at hen
  rcases hen with h1 | h1 | h1 | h1 <;> subst h1 <;>
    (simp only [SingleVars.snapshot]; (try split_ifs) <;> simp)

/-- What one iteration of the single-star loop records about seeds. -/
theorem singleBody_seed (e : Env) (v : SingleVars) (en : Entry)
    (hen : en ∈ (singleBody e v).2) :
    en.index = v.index ∧
      (∀ arg, en.stmt = .Seed arg → arg = seedArgument e v.index) ∧
      (∀ randomSeed initialMass, en.stmt = .newStar randomSeed initialMass →
        randomSeed = e.Seed (seedArgument e v.index) ∧
        ∃ en2 ∈ (singleBody e v).2,
          en2.index = v.index ∧ en2.stmt = .Seed (seedArgument e v.index)) := by
  have hi := singleNext_index e v
  rcases (mem_singleBody e v en).1 hen with ⟨_, h⟩ | h | h
  · subst h
    simp [SingleVars.snapshot]
  · obtain ⟨hc, h1, h2⟩ := mem_singleCreate e _ _ en h
    rw [hi] at h1 h2
    refine ⟨h1, ?_, ?_⟩
    · intro arg ha
      rcases h2 with h2 | h2 | h2 | h2 | h2 <;> rw [h2] at ha <;> simp at ha
      exact ha.symm
    · intro rs im ha
      refine ⟨?_, ?_⟩
      · rcases h2 with h2 | h2 | h2 | h2 | h2 <;> rw [h2] at ha <;> simp at ha
        exact ha.1.symm
      · refine ⟨(singleNext e v).1.snapshot (.Seed (seedArgument e (singleNext e v).1.index)),
          ?_, ?_, ?_⟩
        · refine (mem_singleBody e v _).2 (Or.inr (Or.inl ?_))
          unfold singleCreate
          simp [hc]
        · simp [SingleVars.snapshot, hi]
        · simp [SingleVars.snapshot, hi]
  · obtain ⟨h1, h2⟩ := mem_singleClose e _ en h
    rw [singleCreate_index, hi] at h1
    refine ⟨h1, ?_, ?_⟩
    · intro arg ha
      rcases h2 with h2 | h2 | h2 | h2 <;> rw [h2] at ha <;> simp at ha
    · intro rs im ha
      rcases h2 with h2 | h2 | h2 | h2 <;> rw [h2] at ha <;> simp at ha

/-! ## The single-star loop: counting along the trace -/

theorem starSeeds_append (a b : List Entry) : starSeeds (a ++ b) = starSeeds a ++ starSeeds b := by
  simp [starSeeds]

theorem seedArguments_append (a b : List Entry) :
    seedArguments (a ++ b) = seedArguments a ++ seedArguments b := by
  simp [seedArguments]

theorem constructions_append (a b : List Entry) :
    constructions (a ++ b) = constructions a + constructions b := by
  simp [constructions]

theorem gridReads_append (a b : List Entry) : gridReads (a ++ b) = gridReads a + gridReads b := by
  simp [gridReads]

theorem singleClose_trace (e : Env) (v : SingleVars) :
    starSeeds (singleClose e v).2 = [] ∧ seedArguments (singleClose e v).2 = [] ∧
      constructions (singleClose e v).2 = 0 ∧ gridReads (singleClose e v).2 = 0 := by
  simp [singleClose, starSeeds, seedArguments, constructions, gridReads, SingleVars.snapshot]

theorem singleClose_fields (e : Env) (v : SingleVars) :
    (singleClose e v).1.nStarsCreated = v.nStarsCreated ∧
      (singleClose e v).1.nStars = v.nStars ∧
      (singleClose e v).1.index = v.index + 1 ∧
      (singleClose e v).1.globals = v.globals ∧
      (singleClose e v).1.evolutionStatus =
        (if e.CloseStandardFile .SSE_PARAMETERS v.index = true ∧
            e.CloseStandardFile .SSE_SWITCH_LOG v.index = true then v.evolutionStatus
          else .STOPPED) := by
  unfold singleClose
  dsimp only
  cases e.CloseStandardFile .SSE_PARAMETERS v.index <;>
    cases e.CloseStandardFile .SSE_SWITCH_LOG v.index <;> simp

theorem singleCreate_of_continue (e : Env) (v : SingleVars) (m : ℚ)
    (h : v.evolutionStatus = .CONTINUE) :
    (singleCreate e v m).1.nStarsCreated = v.nStarsCreated + 1 ∧
      (singleCreate e v m).1.nStars = v.nStars ∧
      (singleCreate e v m).1.evolutionStatus = .CONTINUE ∧
      (singleCreate e v m).1.globals = v.globals ∧
      starSeeds (singleCreate e v m).2 = [e.Seed (seedArgument e v.index)] ∧
      seedArguments (singleCreate e v m).2 = [seedArgument e v.index] ∧
      starMasses (singleCreate e v m).2 = [m] ∧
      constructions (singleCreate e v m).2 = 1 ∧ gridReads (singleCreate e v m).2 = 0 := by
  simp [singleCreate, h, starSeeds, seedArguments, starMasses, constructions, gridReads,
    SingleVars.snapshot]

theorem singleCreate_of_not_continue (e : Env) (v : SingleVars) (m : ℚ)
    (h : v.evolutionStatus ≠ .CONTINUE) :
    (singleCreate e v m).1 = v ∧ (singleCreate e v m).2 = [] := by
  simp [singleCreate, h]

theorem singleNext_fields (e : Env) (v : SingleVars) :
    (singleNext e v).1.nStarsCreated = v.nStarsCreated ∧
      (singleNext e v).1.index = v.index ∧
      (singleNext e v).1.globals = v.globals := by
  unfold singleNext
  dsimp only
  split_ifs <;> simp

/-- One iteration either constructs exactly one star, seeded from its index, or
constructs none and leaves the loop. -/
theorem singleBody_created (e : Env) (v : SingleVars) :
    ((singleBody e v).1.nStarsCreated = v.nStarsCreated + 1 ∧
        starSeeds (singleBody e v).2 = [e.Seed (seedArgument e v.index)] ∧
        seedArguments (singleBody e v).2 = [seedArgument e v.index] ∧
        constructions (singleBody e v).2 = 1) ∨
      ((singleBody e v).1.nStarsCreated = v.nStarsCreated ∧
        starSeeds (singleBody e v).2 = [] ∧ seedArguments (singleBody e v).2 = [] ∧
        constructions (singleBody e v).2 = 0 ∧
        (singleBody e v).1.evolutionStatus ≠ .CONTINUE) := by
  obtain ⟨hn1, hn2, _⟩ := singleNext_fields e v
  have hread : ∀ l : List Entry,
      l = (if usingGrid e = true then
            [v.snapshot (.ApplyNextGridRecord (e.ApplyNextGridRecord v.index))] else []) →
      starSeeds l = [] ∧ seedArguments l = [] ∧ constructions l = 0 := by
    intro l hl
    subst hl
    split_ifs <;> simp [starSeeds, seedArguments, constructions, SingleVars.snapshot]
  obtain ⟨hr1, hr2, hr3⟩ := hread _ rfl
  obtain ⟨hc1, hc2, hc3, _⟩ := singleClose_trace e
    (singleCreate e (singleNext e v).1 (singleNext e v).2).1
  obtain ⟨hf1, _, _, _, hf5⟩ := singleClose_fields e
    (singleCreate e (singleNext e v).1 (singleNext e v).2).1
  by_cases h : (singleNext e v).1.evolutionStatus = .CONTINUE
  · left
    obtain ⟨hm1, _, _, _, hm5, hm6, _, hm8, _⟩ :=
      singleCreate_of_continue e (singleNext e v).1 (singleNext e v).2 h
    unfold singleBody
    dsimp only
    rw [starSeeds_append, starSeeds_append, seedArguments_append, seedArguments_append,
      constructions_append, constructions_append, hr1, hr2, hr3, hc1, hc2, hc3, hm5, hm6, hm8,
      hf1, hm1, hn1, hn2]
    simp
  · right
    obtain ⟨hm1, hm2⟩ := singleCreate_of_not_continue e (singleNext e v).1 (singleNext e v).2 h
    unfold singleBody
    dsimp only
    rw [starSeeds_append, starSeeds_append, seedArguments_append, seedArguments_append,
      constructions_append, constructions_append, hr1, hr2, hr3, hc1, hc2, hc3, hf1, hf5]
    rw [hm1, hm2, hn1]
    refine ⟨rfl, rfl, rfl, rfl, ?_⟩
    split_ifs
    · exact h
    · simp

/-- Along the single-star loop the stars are created at the indices 0, 1, 2, ...
in turn, each seeded from its own index. -/
theorem loopSingle_seeds (e : Env) (g : Globals) (k : Nat) :
    starSeeds (loopSingle e g k).2 =
        (List.range (loopSingle e g k).1.nStarsCreated).map
          (fun i => e.Seed (seedArgument e i)) ∧
      seedArguments (loopSingle e g k).2 =
        (List.range (loopSingle e g k).1.nStarsCreated).map (fun i => seedArgument e i) ∧
      constructions (loopSingle e g k).2 = (loopSingle e g k).1.nStarsCreated ∧
      ((loopSingle e g k).1.evolutionStatus = .CONTINUE →
        (loopSingle e g k).1.nStarsCreated = (loopSingle e g k).1.index) := by
  induction k with
  | zero => simp [loopSingle, singleInit, starSeeds, seedArguments, constructions]
  | succ k ih =>
    by_cases h : singleCond (loopSingle e g k).1 = true
    · rw [loopSingle_succ_of_cond e g k h]
      obtain ⟨ih1, ih2, ih3, ih4⟩ := ih
      have hidx := ih4 ((singleCond_iff _).1 h).1
      dsimp only
      rw [starSeeds_append, seedArguments_append, constructions_append, ih1, ih2, ih3,
        singleBody_index]
      rcases singleBody_created e (loopSingle e g k).1 with ⟨h1, h2, h3, h4⟩ | ⟨h1, h2, h3, h4, h5⟩
      · rw [h1, h2, h3, h4, List.range_succ, List.map_append, List.map_append, hidx]
        simp
      · rw [h1, h2, h3, h4]
        simp [h5]
    · have h2 : singleCond (loopSingle e g k).1 = false := by simpa using h
      rw [loopSingle_succ_of_not_cond e g k h2]
      exact ih

/-- The trace only grows with the number of iterations. -/
theorem loopSingle_trace_mono (e : Env) (g : Globals) (k m : Nat) (hkm : k ≤ m) (en : Entry)
    (hen : en ∈ (loopSingle e g k).2) : en ∈ (loopSingle e g m).2 := by
  induction m with
  | zero =>
    have hk : k = 0 := Nat.le_zero.1 hkm
    subst hk
    exact hen
  | succ m ih =>
    rcases Nat.lt_or_ge m k with hlt | hge
    · have hk : k = m + 1 := Nat.le_antisymm hkm hlt
      subst hk
      exact hen
    · by_cases h : singleCond (loopSingle e g m).1 = true
      · rw [loopSingle_succ_of_cond e g m h]
        exact List.mem_append.2 (Or.inl (ih hge))
      · have h2 : singleCond (loopSingle e g m).1 = false := by simpa using h
        rw [loopSingle_succ_of_not_cond e g m h2]
        exact ih hge

theorem EvolveSingleStars_of_exit (e : Env) (g : Globals) (fuel : Nat)
    (h : singleCond (loopSingle e g fuel).1 = false) :
    EvolveSingleStars e g fuel = some (singleExit e (loopSingle e g fuel)) := by
  simp [EvolveSingleStars, h]

theorem EvolveSingleStars_some (e : Env) (g : Globals) (fuel : Nat) (r : Outcome)
    (h : EvolveSingleStars e g fuel = some r) :
    singleCond (loopSingle e g fuel).1 = false ∧ r = singleExit e (loopSingle e g fuel) := by
  by_cases hc : singleCond (loopSingle e g fuel).1 = true
  · simp [EvolveSingleStars, hc] at h
  · have hc2 : singleCond (loopSingle e g fuel).1 = false := by simpa using hc
    rw [EvolveSingleStars_of_exit e g fuel hc2] at h
    exact ⟨hc2, (Option.some.inj h).symm⟩

theorem singleExit_trace (e : Env) (p : SingleVars × List Entry) :
    starSeeds (singleExit e p).trace = starSeeds p.2 ∧
      seedArguments (singleExit e p).trace = seedArguments p.2 ∧
      starMasses (singleExit e p).trace = starMasses p.2 ∧
      constructions (singleExit e p).trace = constructions p.2 ∧
      gridReads (singleExit e p).trace = gridReads p.2 := by
  simp [singleExit, starSeeds, seedArguments, starMasses, constructions, gridReads,
    SingleVars.snapshot]

/-! ## Seeds -/

/-- C1: in every iteration of EvolveSingleStars that constructs a star, the
value handed to RAND->Seed is baseSeed + index modulo 2^64, with baseSeed the
user seed when FixedRandomSeed() holds and the default seed otherwise; the star
receives RAND->Seed of that value, hence that value itself when RAND->Seed
returns its argument.  The seed is the function seedSpec of (baseSeed, index). -/
theorem seed_is_baseSeed_plus_index (e : Env) (g : Globals) (fuel : Nat) (en : Entry)
    (hen : en ∈ (loopSingle e g fuel).2) :
    (∀ arg, en.stmt = .Seed arg → arg = seedSpec (baseSeed e en.index) en.index) ∧
      (∀ randomSeed initialMass, en.stmt = .newStar randomSeed initialMass →
        randomSeed = e.Seed (seedSpec (baseSeed e en.index) en.index) ∧
        ((∀ x, e.Seed x = x) → randomSeed = seedSpec (baseSeed e en.index) en.index) ∧
        ∃ en2 ∈ (loopSingle e g fuel).2,
          en2.index = en.index ∧
            en2.stmt = .Seed (seedSpec (baseSeed e en.index) en.index)) := by
  obtain ⟨i, hik, hc, hidx, hb⟩ := loopSingle_origin e g fuel en hen
  obtain ⟨h1, h2, h3⟩ := singleBody_seed e _ en hb
  rw [hidx] at h1 h2 h3
  rw [h1, ← seedArgument_eq_spec]
  refine ⟨h2, ?_⟩
  intro rs im hs
  obtain ⟨h4, en2, hm, h5, h6⟩ := h3 rs im hs
  refine ⟨h4, fun hid => by rw [h4, hid], en2, ?_, h5, h6⟩
  have hmem : en2 ∈ (loopSingle e g (i + 1)).2 := by
    rw [loopSingle_succ_of_cond e g i hc]
    exact List.mem_append.2 (Or.inr hm)
  exact loopSingle_trace_mono e g (i + 1) fuel hik en2 hmem

/-- Witness of C1: the third star of the linear sweep with user seed 7. -/
theorem seed_is_baseSeed_plus_index_witness :
    thirdStar ∈ (loopSingle linearSweep Globals.initial 4).2 ∧
      (∀ arg, thirdStar.stmt = .Seed arg →
        arg = seedSpec (baseSeed linearSweep thirdStar.index) thirdStar.index) ∧
      (∀ randomSeed initialMass, thirdStar.stmt = .newStar randomSeed initialMass →
        randomSeed =
            linearSweep.Seed (seedSpec (baseSeed linearSweep thirdStar.index) thirdStar.index) ∧
        ((∀ x, linearSweep.Seed x = x) →
          randomSeed = seedSpec (baseSeed linearSweep thirdStar.index) thirdStar.index) ∧
        ∃ en2 ∈ (loopSingle linearSweep Globals.initial 4).2,
          en2.index = thirdStar.index ∧
            en2.stmt =
              .Seed (seedSpec (baseSeed linearSweep thirdStar.index) thirdStar.index)) :=
  ⟨by decide, seed_is_baseSeed_plus_index linearSweep Globals.initial 4 thirdStar (by decide)⟩

/-- C2: two runs of EvolveSingleStars with FixedRandomSeed() true, the same
RandomSeed() and the same number of stars created hand the same sequence of
values to RAND->Seed and, RAND->Seed being the same function in both, give the
same sequence of seeds to their stars, whatever the two default seeds are.
This holds at every stage of the two loops and for the two finished runs. -/
theorem fixed_seed_runs_agree (e1 e2 : Env) (g1 g2 : Globals) (fuel1 fuel2 : Nat)
    (hfixed1 : ∀ i, e1.FixedRandomSeed i = true) (hfixed2 : ∀ i, e2.FixedRandomSeed i = true)
    (hseed : ∀ i, e1.RandomSeed i = e2.RandomSeed i)
    (hcount : (loopSingle e1 g1 fuel1).1.nStarsCreated =
      (loopSingle e2 g2 fuel2).1.nStarsCreated) :
    seedArguments (loopSingle e1 g1 fuel1).2 = seedArguments (loopSingle e2 g2 fuel2).2 ∧
      ((∀ x, e1.Seed x = e2.Seed x) →
        starSeeds (loopSingle e1 g1 fuel1).2 = starSeeds (loopSingle e2 g2 fuel2).2) ∧
      (∀ r1 r2, EvolveSingleStars e1 g1 fuel1 = some r1 →
        EvolveSingleStars e2 g2 fuel2 = some r2 →
        r1.created = r2.created ∧ seedArguments r1.trace = seedArguments r2.trace ∧
          ((∀ x, e1.Seed x = e2.Seed x) → starSeeds r1.trace = starSeeds r2.trace)) := by
  obtain ⟨ha1, hb1, _, _⟩ := loopSingle_seeds e1 g1 fuel1
  obtain ⟨ha2, hb2, _, _⟩ := loopSingle_seeds e2 g2 fuel2
  have harg : ∀ i, seedArgument e1 i = seedArgument e2 i := by
    intro i
    simp [seedArgument, hfixed1, hfixed2, hseed]
  have hA : seedArguments (loopSingle e1 g1 fuel1).2 =
      seedArguments (loopSingle e2 g2 fuel2).2 := by
    rw [hb1, hb2, hcount]
    exact List.map_congr_left (fun i _ => harg i)
  have hS : (∀ x, e1.Seed x = e2.Seed x) →
      starSeeds (loopSingle e1 g1 fuel1).2 = starSeeds (loopSingle e2 g2 fuel2).2 := by
    intro hx
    rw [ha1, ha2, hcount]
    exact List.map_congr_left (fun i _ => by rw [harg i, hx])
  refine ⟨hA, hS, ?_⟩
  intro r1 r2 hr1 hr2
  obtain ⟨_, hr1⟩ := EvolveSingleStars_some e1 g1 fuel1 r1 hr1
  obtain ⟨_, hr2⟩ := EvolveSingleStars_some e2 g2 fuel2 r2 hr2
  obtain ⟨ht1, ht2, _⟩ := singleExit_trace e1 (loopSingle e1 g1 fuel1)
  obtain ⟨hu1, hu2, _⟩ := singleExit_trace e2 (loopSingle e2 g2 fuel2)
  subst hr1
  subst hr2
  refine ⟨?_, ?_, ?_⟩
  · simp [singleExit, hcount]
  · rw [ht2, hu2, hA]
  · intro hx
    rw [ht1, hu1, hS hx]

/-- Witness of C2: the linear sweep with user seed 7 run with two different
default seeds. -/
theorem fixed_seed_runs_agree_witness :
    seedArguments (loopSingle linearSweep Globals.initial 4).2 =
        seedArguments (loopSingle linearSweepLater Globals.initial 4).2 ∧
      ((∀ x, linearSweep.Seed x = linearSweepLater.Seed x) →
        starSeeds (loopSingle linearSweep Globals.initial 4).2 =
          starSeeds (loopSingle linearSweepLater Globals.initial 4).2) ∧
      (∀ r1 r2, EvolveSingleStars linearSweep Globals.initial 4 = some r1 →
        EvolveSingleStars linearSweepLater Globals.initial 4 = some r2 →
        r1.created = r2.created ∧ seedArguments r1.trace = seedArguments r2.trace ∧
          ((∀ x, linearSweep.Seed x = linearSweepLater.Seed x) →
            starSeeds r1.trace = starSeeds r2.trace)) :=
  fixed_seed_runs_agree linearSweep linearSweepLater Globals.initial Globals.initial 4 4
    (fun _ => rfl) (fun _ => rfl) (fun _ => rfl) (by decide)

/-! ## Linear sweeps of single stars -/

/-- A linear sweep whose step count is not positive never enters the loop. -/
theorem loopSingle_no_steps (e : Env) (g : Globals) (hlinear : usingGrid e = false)
    (hsteps : e.SingleStarMassSteps ≤ 0) (fuel : Nat) :
    loopSingle e g fuel = (singleInit e g, []) := by
  have h0 : singleCond (loopSingle e g 0).1 = false := by
    simp [loopSingle, singleCond, singleInit, hlinear]
    exact hsteps
  have h := loopSingle_stable_le e g 0 fuel h0 (Nat.zero_le fuel)
  rw [h]
  rfl

/-- C3 (defect of the code): for the linear sweep with min = 1, max = 5 and
steps = 4 the specification asks for the masses 1, 2, 3, 4, and the four stars
are constructed with initial mass 0: the sum of line 144 goes to a variable
local to the else block, not to the initialMass of line 127 that reaches the
Star constructor on line 194. -/
theorem linear_sweep_masses_are_zero :
    (EvolveSingleStars linearSweep Globals.initial 4).map (fun r => starMasses r.trace) =
        some [0, 0, 0, 0] ∧
      (List.range 4).map (linearMassSpec linearSweep.SingleStarMassMin
        linearSweep.SingleStarMassMax linearSweep.SingleStarMassSteps) = [1, 2, 3, 4] := by
  refine ⟨by decide, ?_⟩
  simp only [List.range, List.range.loop, List.map, linearMassSpec, linearSweep]
  norm_num

/-- The division of line 115 has a zero divisor exactly when the step count is
zero; otherwise massInc is the quotient of the range by the step count. -/
theorem massInc_eq_none_iff (e : Env) :
    (massInc e = none ↔ e.SingleStarMassSteps = 0) ∧
      (e.SingleStarMassSteps ≠ 0 →
        massInc e =
          some ((e.SingleStarMassMax - e.SingleStarMassMin) / (e.SingleStarMassSteps : ℚ))) := by
  unfold massInc divide
  by_cases h : e.SingleStarMassSteps = 0
  · simp [h]
  · have hq : (e.SingleStarMassSteps : ℚ) ≠ 0 := by exact_mod_cast h
    simp [h, hq]

/-- The loop never assigns massInc: it keeps the value of line 115. -/
theorem loopSingle_massInc (e : Env) (g : Globals) (k : Nat) :
    (loopSingle e g k).1.massInc = massInc e := by
  have hbody : ∀ v : SingleVars, (singleBody e v).1.massInc = v.massInc := by
    intro v
    have hn : (singleNext e v).1.massInc = v.massInc := by
      unfold singleNext
      dsimp only
      split_ifs <;> rfl
    have hc : ∀ (w : SingleVars) (m : ℚ), (singleCreate e w m).1.massInc = w.massInc := by
      intro w m
      unfold singleCreate
      split_ifs <;> rfl
    have hcl : ∀ w : SingleVars, (singleClose e w).1.massInc = w.massInc := by
      intro w
      unfold singleClose
      dsimp only
      split_ifs <;> rfl
    unfold singleBody
    dsimp only
    rw [hcl, hc, hn]
  induction k with
  | zero => rfl
  | succ k ih =>
    by_cases h : singleCond (loopSingle e g k).1 = true
    · rw [loopSingle_succ_of_cond e g k h]
      dsimp only
      rw [hbody, ih]
    · have h2 : singleCond (loopSingle e g k).1 = false := by simpa using h
      rw [loopSingle_succ_of_not_cond e g k h2]
      exact ih

/-- C4 as stated fails in both halves: with a step count of zero the division
of line 115, made before the loop, has the divisor zero, so massInc holds no
finite value; and the linear single-star sweep runs no iteration and creates no
star, where the claim has one of each. -/
theorem zero_steps_runs_no_iteration :
    (zeroStepSweep.SingleStarMassSteps : ℚ) = 0 ∧
      (singleInit zeroStepSweep Globals.initial).massInc = none ∧
      (EvolveSingleStars zeroStepSweep Globals.initial 1).map
        (fun r => (r.iterations, r.created, constructions r.trace)) = some (0, 0, 0) ∧
      (¬ ∃ r, EvolveSingleStars zeroStepSweep Globals.initial 1 = some r ∧
        r.iterations = 1 ∧ r.created = 1) := by
  refine ⟨by decide, by decide, by decide, ?_⟩
  rintro ⟨r, hr, hit, _⟩
  obtain ⟨_, hr2⟩ := EvolveSingleStars_some _ _ _ r hr
  rw [loopSingle_no_steps zeroStepSweep Globals.initial (by decide) (by decide) 1] at hr2
  subst hr2
  simp [singleExit, singleInit] at hit

/-- C4 amended: in a linear single-star sweep with SingleStarMassSteps = 0 the
mass increment of line 115 is computed, before the loop, by a division whose
divisor is zero: massInc holds no finite value, from the first test of the loop
condition to the return.  The sweep then exits before its first iteration, so
that value is never used; no star is constructed, the status is DONE and the
function returns (requested = 0, created = 0). -/
theorem zero_steps_creates_nothing (e : Env) (g : Globals) (fuel : Nat)
    (hlinear : usingGrid e = false) (hsteps : e.SingleStarMassSteps = 0) :
    (e.SingleStarMassSteps : ℚ) = 0 ∧ massInc e = none ∧
      (singleInit e g).massInc = none ∧ (loopSingle e g fuel).1.massInc = none ∧
      ∃ r, EvolveSingleStars e g fuel = some r ∧ r.iterations = 0 ∧ r.created = 0 ∧
        constructions r.trace = 0 ∧ r.requested = 0 ∧ r.evolutionStatus = .DONE ∧
        r.trace = [(singleInit e g).snapshot .deleteAfterLoop] := by
  have hnone : massInc e = none := (massInc_eq_none_iff e).1.2 hsteps
  have hloop := loopSingle_no_steps e g hlinear (le_of_eq hsteps) fuel
  have hexit : singleCond (loopSingle e g fuel).1 = false := by
    rw [hloop]
    simp [singleCond, singleInit, hlinear, hsteps]
  refine ⟨by rw [hsteps]; simp, hnone, hnone, by rw [loopSingle_massInc, hnone], _,
    EvolveSingleStars_of_exit e g fuel hexit, ?_⟩
  rw [hloop]
  simp [singleExit, singleInit, hlinear, hsteps, constructions, SingleVars.snapshot]

/-- Witness of C4 amended: the sweep from 1 to 5 in zero steps. -/
theorem zero_steps_creates_nothing_witness :
    usingGrid zeroStepSweep = false ∧ zeroStepSweep.SingleStarMassSteps = 0 ∧
      ((zeroStepSweep.SingleStarMassSteps : ℚ) = 0 ∧ massInc zeroStepSweep = none ∧
        (singleInit zeroStepSweep Globals.initial).massInc = none ∧
        (loopSingle zeroStepSweep Globals.initial 5).1.massInc = none ∧
        ∃ r, EvolveSingleStars zeroStepSweep Globals.initial 5 = some r ∧ r.iterations = 0 ∧
          r.created = 0 ∧ constructions r.trace = 0 ∧ r.requested = 0 ∧
          r.evolutionStatus = .DONE ∧
          r.trace = [(singleInit zeroStepSweep Globals.initial).snapshot .deleteAfterLoop]) :=
  ⟨by decide, by decide,
    zero_steps_creates_nothing zeroStepSweep Globals.initial 5 (by decide) (by decide)⟩

/-! ## The binary-star loop: general facts -/

theorem binaryCond_iff (v : BinaryVars) :
    binaryCond v = true ↔ v.evolutionStatus = .CONTINUE ∧ (v.index : Int) < v.nBinaries := by
  simp [binaryCond]

theorem loopBinary_succ_of_cond (e : Env) (g : Globals) (k : Nat)
    (h : binaryCond (loopBinary e g k).1 = true) :
    loopBinary e g (k + 1) =
      ((binaryBody e (loopBinary e g k).1).1,
        (loopBinary e g k).2 ++ (binaryBody e (loopBinary e g k).1).2) := by
  simp [loopBinary, h]

theorem loopBinary_succ_of_not_cond (e : Env) (g : Globals) (k : Nat)
    (h : binaryCond (loopBinary e g k).1 = false) :
    loopBinary e g (k + 1) = loopBinary e g k := by
  simp [loopBinary, h]

theorem loopBinary_stable (e : Env) (g : Globals) (k : Nat)
    (h : binaryCond (loopBinary e g k).1 = false) (m : Nat) :
    loopBinary e g (k + m) = loopBinary e g k := by
  induction m with
  | zero => rfl
  | succ m ih =>
    have h2 : binaryCond (loopBinary e g (k + m)).1 = false := by rw [ih]; exact h
    rw [← Nat.add_assoc, loopBinary_succ_of_not_cond e g (k + m) h2, ih]

theorem loopBinary_stable_le (e : Env) (g : Globals) (k fuel : Nat)
    (h : binaryCond (loopBinary e g k).1 = false) (hle : k ≤ fuel) :
    loopBinary e g fuel = loopBinary e g k := by
  obtain ⟨m, rfl⟩ := Nat.exists_eq_add_of_le hle
  exact loopBinary_stable e g k h m

theorem binaryReset_fields (v : BinaryVars) :
    (binaryReset v).1.evolutionStatus = v.evolutionStatus ∧
      (binaryReset v).1.nBinaries = v.nBinaries ∧
      (binaryReset v).1.nBinariesCreated = v.nBinariesCreated ∧
      (binaryReset v).1.index = v.index ∧
      (binaryReset v).1.globals = ⟨none, false⟩ := by
  simp [binaryReset]

theorem binaryNext_fields (e : Env) (v : BinaryVars) :
    (binaryNext e v).1.nBinariesCreated = v.nBinariesCreated ∧
      (binaryNext e v).1.index = v.index ∧
      (binaryNext e v).1.globals = v.globals := by
  unfold binaryNext
  dsimp only
  split_ifs <;> simp

theorem binaryCreate_of_continue (e : Env) (v : BinaryVars)
    (h : v.evolutionStatus = .CONTINUE) :
    (binaryCreate e v).1.nBinariesCreated = v.nBinariesCreated + 1 ∧
      (binaryCreate e v).1.nBinaries = v.nBinaries ∧
      (binaryCreate e v).1.index = v.index ∧
      (binaryCreate e v).1.globals = ⟨some v.index, true⟩ ∧
      (binaryCreate e v).1.evolutionStatus =
        (if e.CloseStandardFile .BSE_DETAILED_OUTPUT v.index = true ∧
            e.CloseStandardFile .BSE_SWITCH_LOG v.index = true then
          (if (e.AIS_ExploratoryPhase v.index && e.ShouldStopExploratoryPhase v.index) = true
            then .AIS_EXPLORATORY else .CONTINUE)
        else .STOPPED) ∧
      constructions (binaryCreate e v).2 = 1 ∧ gridReads (binaryCreate e v).2 = 0 := by
  unfold binaryCreate
  rw [if_pos h]
  dsimp only
  cases e.CloseStandardFile .BSE_DETAILED_OUTPUT v.index <;>
    cases e.CloseStandardFile .BSE_SWITCH_LOG v.index <;>
    cases e.AIS_ExploratoryPhase v.index <;>
    cases e.ShouldStopExploratoryPhase v.index <;>
    simp [h, constructions, gridReads, BinaryVars.snapshot]

theorem binaryCreate_of_not_continue (e : Env) (v : BinaryVars)
    (h : v.evolutionStatus ≠ .CONTINUE) :
    (binaryCreate e v).1 = v ∧ (binaryCreate e v).2 = [] := by
  simp [binaryCreate, h]

theorem binaryCreate_index (e : Env) (v : BinaryVars) : (binaryCreate e v).1.index = v.index := by
  by_cases h : v.evolutionStatus = .CONTINUE
  · exact (binaryCreate_of_continue e v h).2.2.1
  · rw [(binaryCreate_of_not_continue e v h).1]

theorem binaryBody_index (e : Env) (v : BinaryVars) :
    (binaryBody e v).1.index = v.index + 1 := by
  unfold binaryBody binaryAdvance
  dsimp only
  rw [binaryCreate_index, (binaryNext_fields e _).2.1, (binaryReset_fields v).2.2.2.1]

theorem loopBinary_index (e : Env) (g : Globals) (k : Nat) :
    (loopBinary e g k).1.index ≤ k ∧
      (binaryCond (loopBinary e g k).1 = true → (loopBinary e g k).1.index = k) := by
  induction k with
  | zero => simp [loopBinary, binaryInit]
  | succ k ih =>
    by_cases h : binaryCond (loopBinary e g k).1 = true
    · rw [loopBinary_succ_of_cond e g k h]
      simp [binaryBody_index, ih.2 h]
    · have h2 : binaryCond (loopBinary e g k).1 = false := by simpa using h
      rw [loopBinary_succ_of_not_cond e g k h2]
      exact ⟨Nat.le_succ_of_le ih.1, fun hc => absurd hc h⟩

/-- Every entry of the trace was written by one iteration of the loop. -/
theorem loopBinary_origin (e : Env) (g : Globals) (k : Nat) (en : Entry)
    (hen : en ∈ (loopBinary e g k).2) :
    ∃ i, i < k ∧ binaryCond (loopBinary e g i).1 = true ∧ (loopBinary e g i).1.index = i ∧
      en ∈ (binaryBody e (loopBinary e g i).1).2 := by
  induction k with
  | zero => simp [loopBinary] at hen
  | succ k ih =>
    by_cases h : binaryCond (loopBinary e g k).1 = true
    · rw [loopBinary_succ_of_cond e g k h] at hen
      rcases List.mem_append.1 hen with h1 | h1
      · obtain ⟨i, hi, hc⟩ := ih h1
        exact ⟨i, Nat.lt_succ_of_lt hi, hc⟩
      · exact ⟨k, Nat.lt_succ_self k, h, (loopBinary_index e g k).2 h, h1⟩
    · have h2 : binaryCond (loopBinary e g k).1 = false := by simpa using h
      rw [loopBinary_succ_of_not_cond e g k h2] at hen
      obtain ⟨i, hi, hc⟩ := ih hen
      exact ⟨i, Nat.lt_succ_of_lt hi, hc⟩

theorem EvolveBinaryStars_of_exit (e : Env) (g : Globals) (fuel : Nat)
    (h : binaryCond (loopBinary e g fuel).1 = false) :
    EvolveBinaryStars e g fuel = some (binaryExit e (loopBinary e g fuel)) := by
  simp [EvolveBinaryStars, h]

theorem binaryExit_trace (e : Env) (p : BinaryVars × List Entry) :
    constructions (binaryExit e p).trace = constructions p.2 ∧
      gridReads (binaryExit e p).trace = gridReads p.2 := by
  simp [binaryExit, constructions, gridReads, BinaryVars.snapshot]

/-! ## One iteration, field by field -/

theorem singleNext_grid (e : Env) (v : SingleVars) (hgrid : usingGrid e = true)
    (hv : v.evolutionStatus = .CONTINUE) :
    (singleNext e v).1.evolutionStatus =
        (if e.ApplyNextGridRecord v.index = 1 then .CONTINUE
          else if e.ApplyNextGridRecord v.index = 0 then .DONE else .STOPPED) ∧
      (singleNext e v).1.nStars =
        (if e.ApplyNextGridRecord v.index = 1 then v.nStars + 1 else v.nStars) := by
  unfold singleNext
  simp only [hgrid, if_true]
  by_cases h1 : e.ApplyNextGridRecord v.index = -1
  · simp [h1]
  · by_cases h2 : e.ApplyNextGridRecord v.index = 0
    · simp [h2]
    · by_cases h3 : e.ApplyNextGridRecord v.index = 1
      · simp [h3, hv]
      · simp [h1, h2, h3]

theorem singleNext_linear (e : Env) (v : SingleVars) (hlinear : usingGrid e = false) :
    (singleNext e v).1 = v ∧ (singleNext e v).2 = 0 := by
  simp [singleNext, hlinear]

theorem singleBody_fields (e : Env) (v : SingleVars) :
    (singleBody e v).1.nStars = (singleNext e v).1.nStars ∧
      (singleBody e v).1.evolutionStatus =
        (if e.CloseStandardFile .SSE_PARAMETERS v.index = true ∧
            e.CloseStandardFile .SSE_SWITCH_LOG v.index = true
          then (singleNext e v).1.evolutionStatus else .STOPPED) ∧
      (singleBody e v).1.globals = v.globals ∧
      (singleBody e v).1.nStarsCreated =
        (if (singleNext e v).1.evolutionStatus = .CONTINUE then v.nStarsCreated + 1
          else v.nStarsCreated) ∧
      constructions (singleBody e v).2 =
        (if (singleNext e v).1.evolutionStatus = .CONTINUE then 1 else 0) ∧
      gridReads (singleBody e v).2 = (if usingGrid e = true then 1 else 0) := by
  obtain ⟨hn1, hn2, hn3⟩ := singleNext_fields e v
  obtain ⟨_, _, hc3, hc4⟩ := singleClose_trace e
    (singleCreate e (singleNext e v).1 (singleNext e v).2).1
  obtain ⟨hf1, hf2, _, hf4, hf5⟩ := singleClose_fields e
    (singleCreate e (singleNext e v).1 (singleNext e v).2).1
  have hread : ∀ l : List Entry,
      l = (if usingGrid e = true then
            [v.snapshot (.ApplyNextGridRecord (e.ApplyNextGridRecord v.index))] else []) →
      constructions l = 0 ∧ gridReads l = (if usingGrid e = true then 1 else 0) := by
    intro l hl
    subst hl
    split_ifs <;> simp [constructions, gridReads, SingleVars.snapshot]
  obtain ⟨hr1, hr2⟩ := hread _ rfl
  rw [singleCreate_index, hn2] at hf5
  unfold singleBody
  dsimp only
  rw [constructions_append, constructions_append, gridReads_append, gridReads_append,
    hf1, hf2, hf4, hf5, hc3, hc4, hr1, hr2]
  by_cases h : (singleNext e v).1.evolutionStatus = .CONTINUE
  · obtain ⟨hm1, hm2, hm3, hm4, _, _, _, hm8, hm9⟩ :=
      singleCreate_of_continue e (singleNext e v).1 (singleNext e v).2 h
    rw [hm1, hm2, hm3, hm4, hm8, hm9, hn1, hn3]
    simp [h]
  · obtain ⟨hm1, hm2⟩ := singleCreate_of_not_continue e (singleNext e v).1 (singleNext e v).2 h
    rw [hm1, hm2, hn1, hn3]
    simp [h, constructions, gridReads]

theorem binaryNext_grid (e : Env) (v : BinaryVars) (hgrid : usingGrid e = true)
    (hv : v.evolutionStatus = .CONTINUE) :
    (binaryNext e v).1.evolutionStatus =
        (if e.ApplyNextGridRecord v.index = 1 then .CONTINUE
          else if e.ApplyNextGridRecord v.index = 0 then .DONE else .STOPPED) ∧
      (binaryNext e v).1.nBinaries =
        (if e.ApplyNextGridRecord v.index = 1 then v.nBinaries + 1 else v.nBinaries) := by
  unfold binaryNext
  simp only [hgrid, if_true]
  by_cases h1 : e.ApplyNextGridRecord v.index = -1
  · simp [h1]
  · by_cases h2 : e.ApplyNextGridRecord v.index = 0
    · simp [h2]
    · by_cases h3 : e.ApplyNextGridRecord v.index = 1
      · simp [h3, hv]
      · simp [h1, h2, h3]

theorem binaryNext_linear (e : Env) (v : BinaryVars) (hlinear : usingGrid e = false) :
    binaryNext e v = (v, []) := by
  simp [binaryNext, hlinear]

theorem binaryNext_trace (e : Env) (v : BinaryVars) :
    constructions (binaryNext e v).2 = 0 ∧
      gridReads (binaryNext e v).2 = (if usingGrid e = true then 1 else 0) := by
  unfold binaryNext
  split_ifs <;> simp [constructions, gridReads, BinaryVars.snapshot]

theorem binaryBody_fields (e : Env) (v : BinaryVars) :
    (binaryBody e v).1.nBinaries = (binaryNext e (binaryReset v).1).1.nBinaries ∧
      (binaryBody e v).1.evolutionStatus =
        (if (binaryNext e (binaryReset v).1).1.evolutionStatus = .CONTINUE then
          (if e.CloseStandardFile .BSE_DETAILED_OUTPUT v.index = true ∧
              e.CloseStandardFile .BSE_SWITCH_LOG v.index = true then
            (if (e.AIS_ExploratoryPhase v.index && e.ShouldStopExploratoryPhase v.index) = true
              then .AIS_EXPLORATORY else .CONTINUE)
          else .STOPPED)
        else (binaryNext e (binaryReset v).1).1.evolutionStatus) ∧
      (binaryBody e v).1.globals =
        (if (binaryNext e (binaryReset v).1).1.evolutionStatus = .CONTINUE
          then ⟨some v.index, true⟩ else ⟨none, false⟩) ∧
      (binaryBody e v).1.nBinariesCreated =
        (if (binaryNext e (binaryReset v).1).1.evolutionStatus = .CONTINUE
          then v.nBinariesCreated + 1 else v.nBinariesCreated) ∧
      constructions (binaryBody e v).2 =
        (if (binaryNext e (binaryReset v).1).1.evolutionStatus = .CONTINUE then 1 else 0) ∧
      gridReads (binaryBody e v).2 = (if usingGrid e = true then 1 else 0) := by
  obtain ⟨_, _, hr3, hr4, hr5⟩ := binaryReset_fields v
  obtain ⟨hn1, hn2, hn3⟩ := binaryNext_fields e (binaryReset v).1
  obtain ⟨ht1, ht2⟩ := binaryNext_trace e (binaryReset v).1
  have hreset : constructions (binaryReset v).2 = 0 ∧ gridReads (binaryReset v).2 = 0 := by
    simp [binaryReset, constructions, gridReads, BinaryVars.snapshot]
  have hadv : ∀ w : BinaryVars,
      constructions (binaryAdvance w).2 = 0 ∧ gridReads (binaryAdvance w).2 = 0 := by
    intro w
    simp [binaryAdvance, constructions, gridReads, BinaryVars.snapshot]
  unfold binaryBody
  dsimp only
  rw [constructions_append, constructions_append, constructions_append, gridReads_append,
    gridReads_append, gridReads_append, hreset.1, hreset.2, ht1, ht2, (hadv _).1, (hadv _).2]
  by_cases h : (binaryNext e (binaryReset v).1).1.evolutionStatus = .CONTINUE
  · obtain ⟨hm1, hm2, hm3, hm4, hm5, hm6, hm7⟩ :=
      binaryCreate_of_continue e (binaryNext e (binaryReset v).1).1 h
    rw [hn2, hr4] at hm4 hm5
    simp only [binaryAdvance]
    rw [hm1, hm2, hm4, hm5, hm6, hm7, hn1, hr3]
    simp [h]
  · obtain ⟨hm1, hm2⟩ := binaryCreate_of_not_continue e (binaryNext e (binaryReset v).1).1 h
    simp only [binaryAdvance]
    rw [hm1, hm2, hn1, hn3, hr3, hr5]
    simp [h, constructions, gridReads]

/-! ## Counting along the two loops -/

theorem loopSingle_gridReads (e : Env) (g : Globals) (k : Nat) :
    gridReads (loopSingle e g k).2 =
      (if usingGrid e = true then (loopSingle e g k).1.index else 0) := by
  induction k with
  | zero => simp [loopSingle, singleInit, gridReads]
  | succ k ih =>
    by_cases h : singleCond (loopSingle e g k).1 = true
    · rw [loopSingle_succ_of_cond e g k h]
      dsimp only
      rw [gridReads_append, ih, (singleBody_fields e _).2.2.2.2.2, singleBody_index]
      split_ifs <;> rfl
    · have h2 : singleCond (loopSingle e g k).1 = false := by simpa using h
      rw [loopSingle_succ_of_not_cond e g k h2]
      exact ih

theorem loopBinary_counts (e : Env) (g : Globals) (k : Nat) :
    constructions (loopBinary e g k).2 = (loopBinary e g k).1.nBinariesCreated ∧
      gridReads (loopBinary e g k).2 =
        (if usingGrid e = true then (loopBinary e g k).1.index else 0) := by
  induction k with
  | zero => simp [loopBinary, binaryInit, gridReads, constructions]
  | succ k ih =>
    by_cases h : binaryCond (loopBinary e g k).1 = true
    · rw [loopBinary_succ_of_cond e g k h]
      obtain ⟨_, _, _, hb4, hb5, hb6⟩ := binaryBody_fields e (loopBinary e g k).1
      dsimp only
      rw [gridReads_append, constructions_append, ih.1, ih.2, hb4, hb5, hb6, binaryBody_index]
      constructor
      · split_ifs <;> rfl
      · split_ifs <;> rfl
    · have h2 : binaryCond (loopBinary e g k).1 = false := by simpa using h
      rw [loopBinary_succ_of_not_cond e g k h2]
      exact ih

/-! ## Grid sweeps -/

/-- While the grid reader returns 1 and the files close, the single-star loop
goes on, one star per record. -/
theorem loopSingle_grid_prefix (e : Env) (g : Globals) (n : Nat) (hgrid : usingGrid e = true)
    (hread : ∀ i, i < n → e.ApplyNextGridRecord i = 1)
    (hclose : ∀ f i, e.CloseStandardFile f i = true) (k : Nat) (hk : k ≤ n) :
    (loopSingle e g k).1.evolutionStatus = .CONTINUE ∧
      (loopSingle e g k).1.nStars = (k : Int) + 1 ∧
      (loopSingle e g k).1.index = k ∧ (loopSingle e g k).1.nStarsCreated = k := by
  induction k with
  | zero => simp [loopSingle, singleInit, hgrid]
  | succ k ih =>
    obtain ⟨h1, h2, h3, h4⟩ := ih (Nat.le_of_succ_le hk)
    have hc : singleCond (loopSingle e g k).1 = true := by
      rw [singleCond_iff, h1, h2, h3]
      exact ⟨rfl, by omega⟩
    obtain ⟨hb1, hb2, _, hb4, _⟩ := singleBody_fields e (loopSingle e g k).1
    obtain ⟨hn1, hn2⟩ := singleNext_grid e (loopSingle e g k).1 hgrid h1
    rw [h3, hread k (Nat.lt_of_succ_le hk)] at hn1 hn2
    rw [loopSingle_succ_of_cond e g k hc]
    dsimp only
    rw [hb1, hb2, hb4, singleBody_index, hn1, hn2, h2, h3, h4]
    simp [hclose]

/-- The single-star grid sweep whose reader returns 1 for n reads and something
else on the next one: state when the loop exits. -/
theorem loopSingle_grid_run (e : Env) (g : Globals) (n : Nat) (hgrid : usingGrid e = true)
    (hread : ∀ i, i < n → e.ApplyNextGridRecord i = 1)
    (hlast : e.ApplyNextGridRecord n ≠ 1)
    (hclose : ∀ f i, e.CloseStandardFile f i = true) (fuel : Nat) (hfuel : n + 1 ≤ fuel) :
    (loopSingle e g fuel).1.evolutionStatus =
        (if e.ApplyNextGridRecord n = 0 then .DONE else .STOPPED) ∧
      (loopSingle e g fuel).1.nStarsCreated = n ∧ (loopSingle e g fuel).1.index = n + 1 ∧
      singleCond (loopSingle e g fuel).1 = false := by
  obtain ⟨h1, h2, h3, h4⟩ := loopSingle_grid_prefix e g n hgrid hread hclose n (Nat.le_refl n)
  have hc : singleCond (loopSingle e g n).1 = true := by
    rw [singleCond_iff, h1, h2, h3]
    exact ⟨rfl, by omega⟩
  obtain ⟨_, hb2, _, hb4, _⟩ := singleBody_fields e (loopSingle e g n).1
  obtain ⟨hn1, _⟩ := singleNext_grid e (loopSingle e g n).1 hgrid h1
  rw [h3, if_neg hlast] at hn1
  have hne : (singleNext e (loopSingle e g n).1).1.evolutionStatus ≠ .CONTINUE := by
    rw [hn1]
    split_ifs <;> simp
  have hstep : (loopSingle e g (n + 1)).1.evolutionStatus =
        (if e.ApplyNextGridRecord n = 0 then .DONE else .STOPPED) ∧
      (loopSingle e g (n + 1)).1.nStarsCreated = n ∧
      (loopSingle e g (n + 1)).1.index = n + 1 := by
    rw [loopSingle_succ_of_cond e g n hc]
    dsimp only
    rw [hb2, hb4, singleBody_index, if_neg hne, hn1, h3, h4]
    simp [hclose]
  have hexit : singleCond (loopSingle e g (n + 1)).1 = false := by
    have hs := hstep.1
    by_contra hcon
    have hcon2 : singleCond (loopSingle e g (n + 1)).1 = true := by simpa using hcon
    rw [singleCond_iff, hs] at hcon2
    revert hcon2
    split_ifs <;> simp
  rw [loopSingle_stable_le e g (n + 1) fuel hexit hfuel]
  exact ⟨hstep.1, hstep.2.1, hstep.2.2, hexit⟩

/-- While the grid reader returns 1, the files close and the sampler does not
stop the sweep, the binary-star loop goes on, one binary per record. -/
theorem loopBinary_grid_prefix (e : Env) (g : Globals) (n : Nat) (hgrid : usingGrid e = true)
    (hread : ∀ i, i < n → e.ApplyNextGridRecord i = 1)
    (hclose : ∀ f i, e.CloseStandardFile f i = true)
    (hais : ∀ i, i < n →
      (e.AIS_ExploratoryPhase i && e.ShouldStopExploratoryPhase i) = false)
    (k : Nat) (hk : k ≤ n) :
    (loopBinary e g k).1.evolutionStatus = .CONTINUE ∧
      (loopBinary e g k).1.nBinaries = (k : Int) + 1 ∧
      (loopBinary e g k).1.index = k ∧ (loopBinary e g k).1.nBinariesCreated = k := by
  induction k with
  | zero => simp [loopBinary, binaryInit, hgrid]
  | succ k ih =>
    obtain ⟨h1, h2, h3, h4⟩ := ih (Nat.le_of_succ_le hk)
    have hc : binaryCond (loopBinary e g k).1 = true := by
      rw [binaryCond_iff, h1, h2, h3]
      exact ⟨rfl, by omega⟩
    obtain ⟨hr1, hr2, _, hr4, _⟩ := binaryReset_fields (loopBinary e g k).1
    obtain ⟨hb1, hb2, _, hb4, _⟩ := binaryBody_fields e (loopBinary e g k).1
    obtain ⟨hn1, hn2⟩ := binaryNext_grid e (binaryReset (loopBinary e g k).1).1 hgrid
      (by rw [hr1, h1])
    rw [hr4, h3, hread k (Nat.lt_of_succ_le hk)] at hn1 hn2
    rw [loopBinary_succ_of_cond e g k hc]
    dsimp only
    rw [hb1, hb2, hb4, binaryBody_index, hn1, hn2, hr2, h2, h3, h4]
    simp [hclose, hais k (Nat.lt_of_succ_le hk)]

/-- The binary-star grid sweep whose reader returns 1 for n reads and something
else on the next one: state when the loop exits. -/
theorem loopBinary_grid_run (e : Env) (g : Globals) (n : Nat) (hgrid : usingGrid e = true)
    (hread : ∀ i, i < n → e.ApplyNextGridRecord i = 1)
    (hlast : e.ApplyNextGridRecord n ≠ 1)
    (hclose : ∀ f i, e.CloseStandardFile f i = true)
    (hais : ∀ i, i < n →
      (e.AIS_ExploratoryPhase i && e.ShouldStopExploratoryPhase i) = false)
    (fuel : Nat) (hfuel : n + 1 ≤ fuel) :
    (loopBinary e g fuel).1.evolutionStatus =
        (if e.ApplyNextGridRecord n = 0 then .DONE else .STOPPED) ∧
      (loopBinary e g fuel).1.nBinariesCreated = n ∧ (loopBinary e g fuel).1.index = n + 1 ∧
      binaryCond (loopBinary e g fuel).1 = false := by
  obtain ⟨h1, h2, h3, h4⟩ :=
    loopBinary_grid_prefix e g n hgrid hread hclose hais n (Nat.le_refl n)
  have hc : binaryCond (loopBinary e g n).1 = true := by
    rw [binaryCond_iff, h1, h2, h3]
    exact ⟨rfl, by omega⟩
  obtain ⟨hr1, _, _, hr4, _⟩ := binaryReset_fields (loopBinary e g n).1
  obtain ⟨_, hb2, _, hb4, _⟩ := binaryBody_fields e (loopBinary e g n).1
  obtain ⟨hn1, _⟩ := binaryNext_grid e (binaryReset (loopBinary e g n).1).1 hgrid
    (by rw [hr1, h1])
  rw [hr4, h3, if_neg hlast] at hn1
  have hne : (binaryNext e (binaryReset (loopBinary e g n).1).1).1.evolutionStatus ≠
      .CONTINUE := by
    rw [hn1]
    split_ifs <;> simp
  have hstep : (loopBinary e g (n + 1)).1.evolutionStatus =
        (if e.ApplyNextGridRecord n = 0 then .DONE else .STOPPED) ∧
      (loopBinary e g (n + 1)).1.nBinariesCreated = n ∧
      (loopBinary e g (n + 1)).1.index = n + 1 := by
    rw [loopBinary_succ_of_cond e g n hc]
    dsimp only
    rw [hb2, hb4, binaryBody_index, if_neg hne, if_neg hne, hn1, h3, h4]
    simp
  have hexit : binaryCond (loopBinary e g (n + 1)).1 = false := by
    have hs := hstep.1
    by_contra hcon
    have hcon2 : binaryCond (loopBinary e g (n + 1)).1 = true := by simpa using hcon
    rw [binaryCond_iff, hs] at hcon2
    revert hcon2
    split_ifs <;> simp
  rw [loopBinary_stable_le e g (n + 1) fuel hexit hfuel]
  exact ⟨hstep.1, hstep.2.1, hstep.2.2, hexit⟩

/-- C5: a grid sweep, of single stars or of binaries, whose reader returns 1 for
the first n reads and a value other than 0 and 1 on the next one, with every
file close succeeding and no early stop by the sampler, exits the loop within
n + 1 iterations with status STOPPED, n objects constructed, n + 1 grid reads
in all, and returns (requested = -1, created = n). -/
theorem grid_error_stops_sweep (e : Env) (g : Globals) (n fuel : Nat)
    (hgrid : usingGrid e = true)
    (hread : ∀ i, i < n → e.ApplyNextGridRecord i = 1)
    (herror : e.ApplyNextGridRecord n ≠ 0 ∧ e.ApplyNextGridRecord n ≠ 1)
    (hclose : ∀ f i, e.CloseStandardFile f i = true)
    (hais : ∀ i, (e.AIS_ExploratoryPhase i && e.ShouldStopExploratoryPhase i) = false)
    (hfuel : n + 1 ≤ fuel) :
    (∃ r, EvolveSingleStars e g fuel = some r ∧ r.evolutionStatus = .STOPPED ∧
        r.requested = -1 ∧ r.created = (n : Int) ∧ constructions r.trace = n ∧
        gridReads r.trace = n + 1 ∧ r.iterations = n + 1) ∧
      (∃ r, EvolveBinaryStars e g fuel = some r ∧ r.evolutionStatus = .STOPPED ∧
        r.requested = -1 ∧ r.created = (n : Int) ∧ constructions r.trace = n ∧
        gridReads r.trace = n + 1 ∧ r.iterations = n + 1) := by
  constructor
  · obtain ⟨h1, h2, h3, h4⟩ :=
      loopSingle_grid_run e g n hgrid hread herror.2 hclose fuel hfuel
    rw [if_neg herror.1] at h1
    obtain ⟨_, _, ht3, ht4, ht5⟩ := singleExit_trace e (loopSingle e g fuel)
    refine ⟨_, EvolveSingleStars_of_exit e g fuel h4, ?_, ?_, ?_, ?_, ?_, ?_⟩
    · simp [singleExit, h1]
    · simp [singleExit, h1, hgrid]
    · simp [singleExit, h2]
    · rw [ht4, (loopSingle_seeds e g fuel).2.2.1, h2]
    · rw [ht5, loopSingle_gridReads, if_pos hgrid, h3]
    · simp [singleExit, h3]
  · obtain ⟨h1, h2, h3, h4⟩ :=
      loopBinary_grid_run e g n hgrid hread herror.2 hclose (fun i _ => hais i) fuel hfuel
    rw [if_neg herror.1] at h1
    obtain ⟨ht4, ht5⟩ := binaryExit_trace e (loopBinary e g fuel)
    refine ⟨_, EvolveBinaryStars_of_exit e g fuel h4, ?_, ?_, ?_, ?_, ?_, ?_⟩
    · simp [binaryExit, h1]
    · simp [binaryExit, h1, hgrid]
    · simp [binaryExit, h2]
    · rw [ht4, (loopBinary_counts e g fuel).1, h2]
    · rw [ht5, (loopBinary_counts e g fuel).2, if_pos hgrid, h3]
    · simp [binaryExit, h3]

/-- Witness of C5: three records, then a read error. -/
theorem grid_error_stops_sweep_witness :
    (gridSweep 3 (-1)).ApplyNextGridRecord 3 = -1 ∧
      (∃ r, EvolveSingleStars (gridSweep 3 (-1)) Globals.initial 4 = some r ∧
        r.evolutionStatus = .STOPPED ∧ r.requested = -1 ∧ r.created = ((3 : Nat) : Int) ∧
        constructions r.trace = 3 ∧ gridReads r.trace = 3 + 1 ∧ r.iterations = 3 + 1) ∧
      (∃ r, EvolveBinaryStars (gridSweep 3 (-1)) Globals.initial 4 = some r ∧
        r.evolutionStatus = .STOPPED ∧ r.requested = -1 ∧ r.created = ((3 : Nat) : Int) ∧
        constructions r.trace = 3 ∧ gridReads r.trace = 3 + 1 ∧ r.iterations = 3 + 1) :=
  ⟨by decide,
    grid_error_stops_sweep (gridSweep 3 (-1)) Globals.initial 3 4 (by decide)
      (fun i hi => by simp [gridSweep, hi]) (by decide) (fun _ _ => rfl) (fun _ => rfl)
      (by decide)⟩

/-- C6: a grid sweep, of single stars or of binaries, whose reader returns 1 for
the first n reads and 0 on the next one, with every file close succeeding and
no early stop by the sampler, exits the loop within n + 1 iterations with
status DONE and returns (requested = n, created = n). -/
theorem grid_exhausted_is_done (e : Env) (g : Globals) (n fuel : Nat)
    (hgrid : usingGrid e = true)
    (hread : ∀ i, i < n → e.ApplyNextGridRecord i = 1)
    (hend : e.ApplyNextGridRecord n = 0)
    (hclose : ∀ f i, e.CloseStandardFile f i = true)
    (hais : ∀ i, (e.AIS_ExploratoryPhase i && e.ShouldStopExploratoryPhase i) = false)
    (hfuel : n + 1 ≤ fuel) :
    (∃ r, EvolveSingleStars e g fuel = some r ∧ r.evolutionStatus = .DONE ∧
        r.requested = (n : Int) ∧ r.created = (n : Int) ∧ constructions r.trace = n) ∧
      (∃ r, EvolveBinaryStars e g fuel = some r ∧ r.evolutionStatus = .DONE ∧
        r.requested = (n : Int) ∧ r.created = (n : Int) ∧ constructions r.trace = n) := by
  have hlast : e.ApplyNextGridRecord n ≠ 1 := by rw [hend]; decide
  constructor
  · obtain ⟨h1, h2, h3, h4⟩ := loopSingle_grid_run e g n hgrid hread hlast hclose fuel hfuel
    rw [if_pos hend] at h1
    obtain ⟨_, _, _, ht4, _⟩ := singleExit_trace e (loopSingle e g fuel)
    refine ⟨_, EvolveSingleStars_of_exit e g fuel h4, ?_, ?_, ?_, ?_⟩
    · simp [singleExit, h1]
    · simp [singleExit, h1, h2, hgrid]
    · simp [singleExit, h2]
    · rw [ht4, (loopSingle_seeds e g fuel).2.2.1, h2]
  · obtain ⟨h1, h2, h3, h4⟩ :=
      loopBinary_grid_run e g n hgrid hread hlast hclose (fun i _ => hais i) fuel hfuel
    rw [if_pos hend] at h1
    obtain ⟨ht4, _⟩ := binaryExit_trace e (loopBinary e g fuel)
    refine ⟨_, EvolveBinaryStars_of_exit e g fuel h4, ?_, ?_, ?_, ?_⟩
    · simp [binaryExit, h1]
    · simp [binaryExit, h1, h2, hgrid]
    · simp [binaryExit, h2]
    · rw [ht4, (loopBinary_counts e g fuel).1, h2]

/-- Witness of C6: three records, then the end of the grid. -/
theorem grid_exhausted_is_done_witness :
    (gridSweep 3 0).ApplyNextGridRecord 3 = 0 ∧
      (∃ r, EvolveSingleStars (gridSweep 3 0) Globals.initial 4 = some r ∧
        r.evolutionStatus = .DONE ∧ r.requested = ((3 : Nat) : Int) ∧
        r.created = ((3 : Nat) : Int) ∧ constructions r.trace = 3) ∧
      (∃ r, EvolveBinaryStars (gridSweep 3 0) Globals.initial 4 = some r ∧
        r.evolutionStatus = .DONE ∧ r.requested = ((3 : Nat) : Int) ∧
        r.created = ((3 : Nat) : Int) ∧ constructions r.trace = 3) :=
  ⟨by decide,
    grid_exhausted_is_done (gridSweep 3 0) Globals.initial 3 4 (by decide)
      (fun i hi => by simp [gridSweep, hi]) (by decide) (fun _ _ => rfl) (fun _ => rfl)
      (by decide)⟩

/-! ## Entries of one iteration of the binary-star loop -/

theorem mem_binaryBody (e : Env) (v : BinaryVars) (en : Entry) :
    en ∈ (binaryBody e v).2 ↔
      en ∈ (binaryReset v).2 ∨ en ∈ (binaryNext e (binaryReset v).1).2 ∨
        en ∈ (binaryCreate e (binaryNext e (binaryReset v).1).1).2 ∨
        en ∈ (binaryAdvance (binaryCreate e (binaryNext e (binaryReset v).1).1).1).2 := by
  unfold binaryBody
  simp [or_assoc]

theorem mem_binaryReset (v : BinaryVars) (en : Entry) (hen : en ∈ (binaryReset v).2) :
    en.index = v.index ∧ (en.stmt = .resetPointer ∨ en.stmt = .resetValid) ∧
      (en.stmt = .resetValid → en.evolvingBinaryStar = none) := by
  unfold binaryReset at hen
  simp only [List.mem_cons, List.mem_singleton, List.not_mem_nil, or_false] at hen
  rcases hen with h | h <;> subst h <;> simp [BinaryVars.snapshot]

theorem mem_binaryNext (e : Env) (v : BinaryVars) (en : Entry)
    (hen : en ∈ (binaryNext e v).2) :
    usingGrid e = true ∧
      en = v.snapshot (.ApplyNextGridRecord (e.ApplyNextGridRecord v.index)) := by
  unfold binaryNext at hen
  split_ifs at hen with h
  · simp only [List.mem_singleton] at hen
    exact ⟨h, hen⟩
  · simp at hen

theorem mem_binaryCreate (e : Env) (v : BinaryVars) (en : Entry)
    (hen : en ∈ (binaryCreate e v).2) :
    v.evolutionStatus = .CONTINUE ∧ en.index = v.index ∧
      (((en.stmt = .deleteBinary ∨ en.stmt = .newBinaryStar v.index ∨ en.stmt = .setPointer) ∧
          en.evolvingBinaryStar = v.globals.evolvingBinaryStar ∧
          en.evolvingBinaryStarValid = v.globals.evolvingBinaryStarValid) ∨
        (en.stmt = .setValid ∧ en.evolvingBinaryStar = some v.index ∧
          en.evolvingBinaryStarValid = v.globals.evolvingBinaryStarValid) ∨
        ((en.stmt = .binaryEvolve ∨ en.stmt = .countCreated ∨
            en.stmt =
              .ShouldStopExploratoryPhase v.index (e.ShouldStopExploratoryPhase v.index) ∨
            en.stmt = .CloseStandardFile .BSE_DETAILED_OUTPUT
              (e.CloseStandardFile .BSE_DETAILED_OUTPUT v.index) ∨
            en.stmt = .CloseStandardFile .BSE_SWITCH_LOG
              (e.CloseStandardFile .BSE_SWITCH_LOG v.index)) ∧
          en.evolvingBinaryStar = some v.index ∧ en.evolvingBinaryStarValid = true)) := by
  by_cases h : v.evolutionStatus = .CONTINUE
  · refine ⟨h, ?_⟩
    unfold binaryCreate at hen
    rw [if_pos h] at hen
    dsimp only at hen
    simp only [List.mem_append, List.mem_cons, List.mem_singleton, List.not_mem_nil,
      or_false] at hen
    rcases hen with ((h1 | h1 | h1 | h1 | h1 | h1) | h1) | h1 | h1
    · subst h1; simp [BinaryVars.snapshot]
    · subst h1; simp [BinaryVars.snapshot]
    · subst h1; simp [BinaryVars.snapshot]
    · subst h1; simp [BinaryVars.snapshot]
    · subst h1; simp [BinaryVars.snapshot]
    · subst h1; simp [BinaryVars.snapshot]
    · split_ifs at h1
      · simp only [List.mem_singleton] at h1
        subst h1
        simp [BinaryVars.snapshot]
      · simp at h1
    · subst h1
      simp only [BinaryVars.snapshot]
      split_ifs <;> simp
    · subst h1
      simp only [BinaryVars.snapshot]
      split_ifs <;> simp
  · rw [(binaryCreate_of_not_continue e v h).2] at hen
    simp at hen

theorem mem_binaryAdvance (v : BinaryVars) (en : Entry) (hen : en ∈ (binaryAdvance v).2) :
    en.index = v.index ∧ (en.stmt = .Clean ∨ en.stmt = .nextIndex) ∧
      en.evolvingBinaryStar = v.globals.evolvingBinaryStar ∧
      en.evolvingBinaryStarValid = v.globals.evolvingBinaryStarValid := by
  unfold binaryAdvance at hen
  simp only [List.mem_cons, List.mem_singleton, List.not_mem_nil, or_false] at hen
  rcases hen with h | h <;> subst h <;> simp [BinaryVars.snapshot]

/-- Every entry of an iteration carries the index of that iteration. -/
theorem binaryBody_entry_index (e : Env) (v : BinaryVars) (en : Entry)
    (hen : en ∈ (binaryBody e v).2) : en.index = v.index := by
  obtain ⟨_, _, _, hr4, _⟩ := binaryReset_fields v
  obtain ⟨_, hn2, _⟩ := binaryNext_fields e (binaryReset v).1
  rcases (mem_binaryBody e v en).1 hen with h | h | h | h
  · exact (mem_binaryReset v en h).1
  · rw [(mem_binaryNext e _ en h).2]
    simp [BinaryVars.snapshot, hr4]
  · rw [(mem_binaryCreate e _ en h).2.1, hn2, hr4]
  · rw [(mem_binaryAdvance _ en h).1, binaryCreate_index, hn2, hr4]

/-- An iteration of the binary-star loop in which a close fails ends STOPPED. -/
theorem binaryBody_close_failed (e : Env) (v : BinaryVars) (en : Entry) (file : LOGFILE)
    (hen : en ∈ (binaryBody e v).2) (hs : en.stmt = .CloseStandardFile file false) :
    (binaryBody e v).1.evolutionStatus = .STOPPED := by
  obtain ⟨_, _, _, hr4, _⟩ := binaryReset_fields v
  obtain ⟨_, hn2, _⟩ := binaryNext_fields e (binaryReset v).1
  rcases (mem_binaryBody e v en).1 hen with h | h | h | h
  · rcases (mem_binaryReset v en h).2.1 with h2 | h2 <;> rw [h2] at hs <;> simp at hs
  · rw [(mem_binaryNext e _ en h).2] at hs
    simp [BinaryVars.snapshot] at hs
  · obtain ⟨hc, _, h2⟩ := mem_binaryCreate e _ en h
    rw [hn2, hr4] at h2
    rw [(binaryBody_fields e v).2.1, if_pos hc]
    rcases h2 with ⟨h3 | h3 | h3, _⟩ | ⟨h3, _⟩ | ⟨h3 | h3 | h3 | h3 | h3, _⟩ <;>
      rw [h3] at hs <;> simp at hs
    · simp [← hs.2]
    · simp [← hs.2]
  · rcases (mem_binaryAdvance _ en h).2.1 with h2 | h2 <;> rw [h2] at hs <;> simp at hs

/-- An iteration of the single-star loop in which a close fails ends STOPPED. -/
theorem singleBody_close_failed (e : Env) (v : SingleVars) (en : Entry) (file : LOGFILE)
    (hen : en ∈ (singleBody e v).2) (hs : en.stmt = .CloseStandardFile file false) :
    (singleBody e v).1.evolutionStatus = .STOPPED := by
  rcases (mem_singleBody e v en).1 hen with ⟨_, h⟩ | h | h
  · rw [h] at hs
    simp [SingleVars.snapshot] at hs
  · obtain ⟨_, _, h2⟩ := mem_singleCreate e _ _ en h
    rcases h2 with h2 | h2 | h2 | h2 | h2 <;> rw [h2] at hs <;> simp at hs
  · obtain ⟨_, h2⟩ := mem_singleClose e _ en h
    rw [singleCreate_index, singleNext_index] at h2
    rw [(singleBody_fields e v).2.1]
    rcases h2 with h2 | h2 | h2 | h2 <;> rw [h2] at hs <;> simp at hs
    · simp [← hs.2]
    · simp [← hs.2]

/-! ## Failed closes -/

/-- The single-star sweep after a close failed in the iteration with index j. -/
theorem loopSingle_close_failed (e : Env) (g : Globals) (fuel j : Nat) (file : LOGFILE)
    (en : Entry) (hen : en ∈ (loopSingle e g fuel).2) (hj : en.index = j)
    (hs : en.stmt = .CloseStandardFile file false) (fuel2 : Nat) (hfuel : j + 1 ≤ fuel2) :
    loopSingle e g fuel2 = loopSingle e g (j + 1) ∧
      singleCond (loopSingle e g (j + 1)).1 = false ∧
      (loopSingle e g (j + 1)).1.evolutionStatus = .STOPPED ∧
      (loopSingle e g (j + 1)).1.index = j + 1 := by
  obtain ⟨i, _, hc, hidx, hb⟩ := loopSingle_origin e g fuel en hen
  have hij : i = j := by rw [← hj, (singleBody_seed e _ en hb).1, hidx]
  subst hij
  have hstop := singleBody_close_failed e _ en file hb hs
  have hstep := loopSingle_succ_of_cond e g i hc
  have hst : (loopSingle e g (i + 1)).1.evolutionStatus = .STOPPED := by rw [hstep]; exact hstop
  have hix : (loopSingle e g (i + 1)).1.index = i + 1 := by
    rw [hstep]
    dsimp only
    rw [singleBody_index, hidx]
  have hexit : singleCond (loopSingle e g (i + 1)).1 = false := by
    by_contra hcon
    have hcon2 : singleCond (loopSingle e g (i + 1)).1 = true := by simpa using hcon
    rw [singleCond_iff, hst] at hcon2
    simp at hcon2
  exact ⟨loopSingle_stable_le e g (i + 1) fuel2 hexit hfuel, hexit, hst, hix⟩

/-- The binary-star sweep after a close failed in the iteration with index j. -/
theorem loopBinary_close_failed (e : Env) (g : Globals) (fuel j : Nat) (file : LOGFILE)
    (en : Entry) (hen : en ∈ (loopBinary e g fuel).2) (hj : en.index = j)
    (hs : en.stmt = .CloseStandardFile file false) (fuel2 : Nat) (hfuel : j + 1 ≤ fuel2) :
    loopBinary e g fuel2 = loopBinary e g (j + 1) ∧
      binaryCond (loopBinary e g (j + 1)).1 = false ∧
      (loopBinary e g (j + 1)).1.evolutionStatus = .STOPPED ∧
      (loopBinary e g (j + 1)).1.index = j + 1 := by
  obtain ⟨i, _, hc, hidx, hb⟩ := loopBinary_origin e g fuel en hen
  have hij : i = j := by rw [← hj, binaryBody_entry_index e _ en hb, hidx]
  subst hij
  have hstop := binaryBody_close_failed e _ en file hb hs
  have hstep := loopBinary_succ_of_cond e g i hc
  have hst : (loopBinary e g (i + 1)).1.evolutionStatus = .STOPPED := by rw [hstep]; exact hstop
  have hix : (loopBinary e g (i + 1)).1.index = i + 1 := by
    rw [hstep]
    dsimp only
    rw [binaryBody_index, hidx]
  have hexit : binaryCond (loopBinary e g (i + 1)).1 = false := by
    by_contra hcon
    have hcon2 : binaryCond (loopBinary e g (i + 1)).1 = true := by simpa using hcon
    rw [binaryCond_iff, hst] at hcon2
    simp at hcon2
  exact ⟨loopBinary_stable_le e g (i + 1) fuel2 hexit hfuel, hexit, hst, hix⟩

/-- Entries of the loop trace carry an index below the number of iterations. -/
theorem loopSingle_entry_index_lt (e : Env) (g : Globals) (k : Nat) (en : Entry)
    (hen : en ∈ (loopSingle e g k).2) : en.index < k := by
  obtain ⟨i, hik, _, hidx, hb⟩ := loopSingle_origin e g k en hen
  rw [(singleBody_seed e _ en hb).1, hidx]
  exact hik

theorem loopBinary_entry_index_lt (e : Env) (g : Globals) (k : Nat) (en : Entry)
    (hen : en ∈ (loopBinary e g k).2) : en.index < k := by
  obtain ⟨i, hik, _, hidx, hb⟩ := loopBinary_origin e g k en hen
  rw [binaryBody_entry_index e _ en hb, hidx]
  exact hik

/-- C7: when a CloseStandardFile call of the iteration with index j returns
false, in either sweep, the loop exits after that iteration: with any bound of
at least j + 1 iterations the sweep returns, j + 1 iterations were run, every
statement of the loop (so every construction) belongs to an iteration of index
at most j, the status is STOPPED, and the created count is the number of objects
constructed, all of them in iterations 0..j. -/
theorem close_failure_stops_sweep (e : Env) (g : Globals) (fuel j : Nat) (file : LOGFILE)
    (en : Entry) (hj : en.index = j) (hs : en.stmt = .CloseStandardFile file false) :
    (en ∈ (loopSingle e g fuel).2 →
        ∃ r, (∀ fuel2, j + 1 ≤ fuel2 → EvolveSingleStars e g fuel2 = some r) ∧
          r.iterations = j + 1 ∧ r.evolutionStatus = .STOPPED ∧
          (∀ en2 ∈ r.trace, en2.index ≤ j ∨ en2.stmt = .deleteAfterLoop) ∧
          r.created = (constructions r.trace : Int)) ∧
      (en ∈ (loopBinary e g fuel).2 →
        ∃ r, (∀ fuel2, j + 1 ≤ fuel2 → EvolveBinaryStars e g fuel2 = some r) ∧
          r.iterations = j + 1 ∧ r.evolutionStatus = .STOPPED ∧
          (∀ en2 ∈ r.trace, en2.index ≤ j ∨ en2.stmt = .deleteAfterLoop) ∧
          r.created = (constructions r.trace : Int)) := by
  constructor
  · intro hen
    have hall := loopSingle_close_failed e g fuel j file en hen hj hs
    obtain ⟨_, hexit, hst, hix⟩ := hall (j + 1) (Nat.le_refl _)
    refine ⟨singleExit e (loopSingle e g (j + 1)), ?_, ?_, ?_, ?_, ?_⟩
    · intro fuel2 hf
      obtain ⟨heq, _⟩ := hall fuel2 hf
      rw [EvolveSingleStars_of_exit e g fuel2 (by rw [heq]; exact hexit), heq]
    · simp [singleExit, hix]
    · simp [singleExit, hst]
    · intro en2 hen2
      simp only [singleExit, List.mem_append, List.mem_singleton] at hen2
      rcases hen2 with h | h
      · exact Or.inl (Nat.le_of_lt_succ (loopSingle_entry_index_lt e g (j + 1) en2 h))
      · right
        rw [h]
        rfl
    · rw [(singleExit_trace e _).2.2.2.1, (loopSingle_seeds e g (j + 1)).2.2.1]
      rfl
  · intro hen
    have hall := loopBinary_close_failed e g fuel j file en hen hj hs
    obtain ⟨_, hexit, hst, hix⟩ := hall (j + 1) (Nat.le_refl _)
    refine ⟨binaryExit e (loopBinary e g (j + 1)), ?_, ?_, ?_, ?_, ?_⟩
    · intro fuel2 hf
      obtain ⟨heq, _⟩ := hall fuel2 hf
      rw [EvolveBinaryStars_of_exit e g fuel2 (by rw [heq]; exact hexit), heq]
    · simp [binaryExit, hix]
    · simp [binaryExit, hst]
    · intro en2 hen2
      simp only [binaryExit, List.mem_append, List.mem_singleton] at hen2
      rcases hen2 with h | h
      · exact Or.inl (Nat.le_of_lt_succ (loopBinary_entry_index_lt e g (j + 1) en2 h))
      · right
        rw [h]
        rfl
    · rw [(binaryExit_trace e _).1, (loopBinary_counts e g (j + 1)).1]
      rfl

/-- Witness of C7: in a sweep of four stars, and in a sweep of two binaries,
a close fails in the iteration with index 1. -/
theorem close_failure_stops_sweep_witness :
    (failedSingleClose ∈ (loopSingle closeFailSweep Globals.initial 4).2 ∧
      ∃ r, (∀ fuel2, 1 + 1 ≤ fuel2 →
          EvolveSingleStars closeFailSweep Globals.initial fuel2 = some r) ∧
        r.iterations = 1 + 1 ∧ r.evolutionStatus = .STOPPED ∧
        (∀ en2 ∈ r.trace, en2.index ≤ 1 ∨ en2.stmt = .deleteAfterLoop) ∧
        r.created = (constructions r.trace : Int)) ∧
      (failedBinaryClose ∈ (loopBinary closeFailSweep Globals.initial 2).2 ∧
        ∃ r, (∀ fuel2, 1 + 1 ≤ fuel2 →
            EvolveBinaryStars closeFailSweep Globals.initial fuel2 = some r) ∧
          r.iterations = 1 + 1 ∧ r.evolutionStatus = .STOPPED ∧
          (∀ en2 ∈ r.trace, en2.index ≤ 1 ∨ en2.stmt = .deleteAfterLoop) ∧
          r.created = (constructions r.trace : Int)) :=
  ⟨⟨by decide,
      (close_failure_stops_sweep closeFailSweep Globals.initial 4 1 .SSE_PARAMETERS
        failedSingleClose rfl rfl).1 (by decide)⟩,
    ⟨by decide,
      (close_failure_stops_sweep closeFailSweep Globals.initial 2 1 .BSE_DETAILED_OUTPUT
        failedBinaryClose rfl rfl).2 (by decide)⟩⟩

/-! ## Early stop by the sampler -/

/-- While the files close and the sampler does not stop the sweep, the linear
binary-star loop goes on up to its target. -/
theorem loopBinary_linear_prefix (e : Env) (g : Globals) (n : Nat)
    (hlinear : usingGrid e = false) (hn : (n : Int) ≤ e.nBinaries)
    (hclose : ∀ f i, e.CloseStandardFile f i = true)
    (hais : ∀ i, i < n →
      (e.AIS_ExploratoryPhase i && e.ShouldStopExploratoryPhase i) = false)
    (k : Nat) (hk : k ≤ n) :
    (loopBinary e g k).1.evolutionStatus = .CONTINUE ∧
      (loopBinary e g k).1.nBinaries = e.nBinaries ∧
      (loopBinary e g k).1.index = k ∧ (loopBinary e g k).1.nBinariesCreated = k := by
  induction k with
  | zero => simp [loopBinary, binaryInit, hlinear]
  | succ k ih =>
    obtain ⟨h1, h2, h3, h4⟩ := ih (Nat.le_of_succ_le hk)
    have hc : binaryCond (loopBinary e g k).1 = true := by
      rw [binaryCond_iff, h1, h2, h3]
      exact ⟨rfl, by omega⟩
    obtain ⟨hr1, hr2, _, _, _⟩ := binaryReset_fields (loopBinary e g k).1
    obtain ⟨hb1, hb2, _, hb4, _⟩ := binaryBody_fields e (loopBinary e g k).1
    rw [binaryNext_linear e _ hlinear] at hb1 hb2 hb4
    rw [loopBinary_succ_of_cond e g k hc]
    dsimp only at hb1 hb2 hb4 ⊢
    rw [hb1, hb2, hb4, binaryBody_index, hr1, hr2, h1, h2, h3, h4]
    simp [hclose, hais k (Nat.lt_of_succ_le hk)]

/-- The binary constructed in an iteration is numbered by that iteration. -/
theorem binaryBody_newBinaryStar (e : Env) (v : BinaryVars) (en : Entry) (j : Nat)
    (hen : en ∈ (binaryBody e v).2) (hs : en.stmt = .newBinaryStar j) : j = v.index := by
  obtain ⟨_, _, _, hr4, _⟩ := binaryReset_fields v
  obtain ⟨_, hn2, _⟩ := binaryNext_fields e (binaryReset v).1
  rcases (mem_binaryBody e v en).1 hen with h | h | h | h
  · rcases (mem_binaryReset v en h).2.1 with h2 | h2 <;> rw [h2] at hs <;> simp at hs
  · rw [(mem_binaryNext e _ en h).2] at hs
    simp [BinaryVars.snapshot] at hs
  · obtain ⟨_, _, h2⟩ := mem_binaryCreate e _ en h
    rw [hn2, hr4] at h2
    rcases h2 with ⟨h3 | h3 | h3, _⟩ | ⟨h3, _⟩ | ⟨h3 | h3 | h3 | h3 | h3, _⟩ <;>
      rw [h3] at hs <;> simp at hs
    exact hs.symm
  · rcases (mem_binaryAdvance _ en h).2.1 with h2 | h2 <;> rw [h2] at hs <;> simp at hs

/-- C8: in a binary sweep with the AIS exploratory phase enabled and every file
close succeeding, let ShouldStopExploratoryPhase return true for the first time
at index k, the binary of index k being reached (the grid reader returns 1 up to
read k, or k is below nBinaries in a linear sweep).  Then with any bound of at
least k + 1 iterations the sweep returns after k + 1 iterations, no binary of
index above k is constructed, the created count is k + 1 and the status
announced is DONE. -/
theorem sampler_stop_is_done (e : Env) (g : Globals) (k fuel : Nat)
    (hphase : ∀ i, e.AIS_ExploratoryPhase i = true)
    (hfirst : ∀ i, i < k → e.ShouldStopExploratoryPhase i = false)
    (hstop : e.ShouldStopExploratoryPhase k = true)
    (hclose : ∀ f i, e.CloseStandardFile f i = true)
    (hreach : if usingGrid e = true then ∀ i, i ≤ k → e.ApplyNextGridRecord i = 1
      else (k : Int) < e.nBinaries)
    (hfuel : k + 1 ≤ fuel) :
    ∃ r, EvolveBinaryStars e g fuel = some r ∧ r.created = (k : Int) + 1 ∧
      r.evolutionStatus = .DONE ∧ r.iterations = k + 1 ∧ constructions r.trace = k + 1 ∧
      (∀ en ∈ r.trace, ∀ j, en.stmt = .newBinaryStar j → j ≤ k ∧ en.index ≤ k) := by
  have hais : ∀ i, i < k →
      (e.AIS_ExploratoryPhase i && e.ShouldStopExploratoryPhase i) = false := by
    intro i hi
    simp [hfirst i hi]
  have hpre : (loopBinary e g k).1.evolutionStatus = .CONTINUE ∧
      ((k : Int) < (loopBinary e g k).1.nBinaries) ∧
      (loopBinary e g k).1.index = k ∧ (loopBinary e g k).1.nBinariesCreated = k ∧
      (binaryNext e (binaryReset (loopBinary e g k).1).1).1.evolutionStatus = .CONTINUE := by
    by_cases hgrid : usingGrid e = true
    · rw [if_pos hgrid] at hreach
      obtain ⟨h1, h2, h3, h4⟩ := loopBinary_grid_prefix e g k hgrid
        (fun i hi => hreach i (Nat.le_of_lt hi)) hclose hais k (Nat.le_refl k)
      obtain ⟨hr1, _, _, hr4, _⟩ := binaryReset_fields (loopBinary e g k).1
      obtain ⟨hn1, _⟩ := binaryNext_grid e (binaryReset (loopBinary e g k).1).1 hgrid
        (by rw [hr1, h1])
      rw [hr4, h3, hreach k (Nat.le_refl k)] at hn1
      refine ⟨h1, by rw [h2]; omega, h3, h4, ?_⟩
      rw [hn1]
      simp
    · have hlinear : usingGrid e = false := by simpa using hgrid
      rw [if_neg hgrid] at hreach
      obtain ⟨h1, h2, h3, h4⟩ := loopBinary_linear_prefix e g k hlinear (le_of_lt hreach)
        hclose hais k (Nat.le_refl k)
      obtain ⟨hr1, _, _, _, _⟩ := binaryReset_fields (loopBinary e g k).1
      refine ⟨h1, by rw [h2]; exact hreach, h3, h4, ?_⟩
      rw [binaryNext_linear e _ hlinear]
      dsimp only
      rw [hr1, h1]
  obtain ⟨h1, h2, h3, h4, h5⟩ := hpre
  have hc : binaryCond (loopBinary e g k).1 = true := by
    rw [binaryCond_iff, h1, h3]
    exact ⟨rfl, h2⟩
  obtain ⟨_, hb2, _, hb4, _⟩ := binaryBody_fields e (loopBinary e g k).1
  have hstep : (loopBinary e g (k + 1)).1.evolutionStatus = .AIS_EXPLORATORY ∧
      (loopBinary e g (k + 1)).1.nBinariesCreated = k + 1 ∧
      (loopBinary e g (k + 1)).1.index = k + 1 := by
    rw [loopBinary_succ_of_cond e g k hc]
    dsimp only
    rw [hb2, hb4, binaryBody_index, if_pos h5, if_pos h5, h3, h4]
    simp [hclose, hphase, hstop]
  obtain ⟨hs1, hs2, hs3⟩ := hstep
  have hexit : binaryCond (loopBinary e g (k + 1)).1 = false := by
    by_contra hcon
    have hcon2 : binaryCond (loopBinary e g (k + 1)).1 = true := by simpa using hcon
    rw [binaryCond_iff, hs1] at hcon2
    simp at hcon2
  have heq := loopBinary_stable_le e g (k + 1) fuel hexit hfuel
  refine ⟨binaryExit e (loopBinary e g (k + 1)), ?_, ?_, ?_, ?_, ?_, ?_⟩
  · rw [EvolveBinaryStars_of_exit e g fuel (by rw [heq]; exact hexit), heq]
  · simp [binaryExit, hs2]
  · simp [binaryExit, hs1]
  · simp [binaryExit, hs3]
  · rw [(binaryExit_trace e _).1, (loopBinary_counts e g (k + 1)).1, hs2]
  · intro en hen j hj
    simp only [binaryExit, List.mem_append, List.mem_singleton] at hen
    rcases hen with h | h
    · obtain ⟨i, hik, _, hidx, hb⟩ := loopBinary_origin e g (k + 1) en h
      have hji := binaryBody_newBinaryStar e _ en j hb hj
      have hei := binaryBody_entry_index e _ en hb
      rw [hidx] at hji hei
      omega
    · rw [h] at hj
      simp [BinaryVars.snapshot] at hj

/-- Witness of C8: the sampler asks to stop at index 1 of a sweep of four. -/
theorem sampler_stop_is_done_witness :
    samplerSweep.ShouldStopExploratoryPhase 0 = false ∧
      samplerSweep.ShouldStopExploratoryPhase 1 = true ∧
      ∃ r, EvolveBinaryStars samplerSweep Globals.initial 2 = some r ∧
        r.created = ((1 : Nat) : Int) + 1 ∧ r.evolutionStatus = .DONE ∧
        r.iterations = 1 + 1 ∧ constructions r.trace = 1 + 1 ∧
        (∀ en ∈ r.trace, ∀ j, en.stmt = .newBinaryStar j → j ≤ 1 ∧ en.index ≤ 1) :=
  ⟨by decide, by decide,
    sampler_stop_is_done samplerSweep Globals.initial 1 2 (fun _ => rfl)
      (fun i hi => by simp [samplerSweep]; omega) (by decide) (fun _ _ => rfl)
      (by rw [if_neg (by decide)]; decide) (by decide)⟩

/-! ## The signal handler -/

/-- C9: sigHandler calls PrintSwitchLog, once and through evolvingBinaryStar,
exactly when the signal is SIGUSR1, evolvingBinaryStarValid is true and
BSESwitchLog() is true; otherwise it makes no call.  In every case it shows no
error and leaves both globals as they were. -/
theorem sigHandler_logs_iff (SIGUSR1 : Int) (BSESwitchLog : Bool) (g : Globals) (p_Sig : Int) :
    ((sigHandler SIGUSR1 BSESwitchLog g p_Sig).printSwitchLog = [g.evolvingBinaryStar] ↔
        (p_Sig = SIGUSR1 ∧ g.evolvingBinaryStarValid = true ∧ BSESwitchLog = true)) ∧
      ((sigHandler SIGUSR1 BSESwitchLog g p_Sig).printSwitchLog = [] ↔
        ¬ (p_Sig = SIGUSR1 ∧ g.evolvingBinaryStarValid = true ∧ BSESwitchLog = true)) ∧
      (sigHandler SIGUSR1 BSESwitchLog g p_Sig).errorsShown = 0 ∧
      (sigHandler SIGUSR1 BSESwitchLog g p_Sig).globals = g := by
  unfold sigHandler
  by_cases h1 : p_Sig = SIGUSR1
  · cases hv : g.evolvingBinaryStarValid <;> cases hb : BSESwitchLog <;> simp [h1]
  · simp [h1]

/-! ## The published handle -/

/-- What the entries of one iteration of the binary-star loop say about the
two globals. -/
theorem binaryBody_handle (e : Env) (v : BinaryVars) (en : Entry)
    (hen : en ∈ (binaryBody e v).2) :
    (((∃ r, en.stmt = .ApplyNextGridRecord r) ∨ en.stmt = .deleteBinary ∨
          (∃ j, en.stmt = .newBinaryStar j) ∨ en.stmt = .setPointer) →
        en.evolvingBinaryStar = none ∧ en.evolvingBinaryStarValid = false) ∧
      (en.stmt = .setValid →
        en.evolvingBinaryStar = some v.index ∧ en.evolvingBinaryStarValid = false) ∧
      (en.stmt = .binaryEvolve →
        en.evolvingBinaryStar = some v.index ∧ en.evolvingBinaryStarValid = true) ∧
      (en.stmt = .resetValid → en.evolvingBinaryStar = none) ∧
      (en.stmt ≠ .resetPointer → en.stmt ≠ .resetValid →
        en.evolvingBinaryStarValid = true → en.evolvingBinaryStar = some v.index) := by
  obtain ⟨_, _, _, hr4, hr5⟩ := binaryReset_fields v
  obtain ⟨_, hn2, hn3⟩ := binaryNext_fields e (binaryReset v).1
  rcases (mem_binaryBody e v en).1 hen with h | h | h | h
  · obtain ⟨_, h2, h3⟩ := mem_binaryReset v en h
    rcases h2 with h2 | h2
    · simp [h2]
    · simp only [h2]
      simp
      exact h3 h2
  · rw [(mem_binaryNext e _ en h).2]
    simp [BinaryVars.snapshot, hr5]
  · obtain ⟨_, _, h2⟩ := mem_binaryCreate e _ en h
    rw [hn2, hr4, hn3, hr5] at h2
    rcases h2 with ⟨h3 | h3 | h3, h4, h5⟩ | ⟨h3, h4, h5⟩ | ⟨h3 | h3 | h3 | h3 | h3, h4, h5⟩ <;>
      simp [h3, h4, h5]
  · obtain ⟨_, h2, h3, h4⟩ := mem_binaryAdvance _ en h
    by_cases hc : (binaryNext e (binaryReset v).1).1.evolutionStatus = .CONTINUE
    · have hg := (binaryCreate_of_continue e _ hc).2.2.2.1
      rw [hn2, hr4] at hg
      rw [hg] at h3 h4
      rcases h2 with h2 | h2 <;> simp [h2, h3, h4]
    · have hg := (binaryCreate_of_not_continue e _ hc).1
      rw [hg, hn3, hr5] at h3 h4
      rcases h2 with h2 | h2 <;> simp [h2, h3, h4]

/-- C10 as stated fails: in the second iteration of a linear sweep of two
binaries, between line 405 and line 406, evolvingBinaryStarValid is still true
while evolvingBinaryStar is NULL, so the flag is true although the pointer is not
the binary of the current iteration. -/
theorem flag_true_with_null_pointer :
    betweenResets ∈ (loopBinary linearSweep Globals.initial 2).2 ∧
      ¬ (∀ en ∈ (loopBinary linearSweep Globals.initial 2).2,
        en.evolvingBinaryStarValid = true → en.evolvingBinaryStar = some en.index) := by
  refine ⟨by decide, ?_⟩
  intro hall
  have h := hall betweenResets (by decide) rfl
  simp [betweenResets] at h

/-- C10 amended: in every iteration of the binary sweep loop, once lines 405-406
have both run, evolvingBinaryStar is NULL and evolvingBinaryStarValid is false
at the grid read, at delete binary, during the BinaryStar constructor call and
until line 423; line 423 sets the pointer to the binary of this iteration while
the flag is still false, and at the call of Evolve the pointer is that binary
and the flag is true; at every statement after line 406 the flag is true only
if the pointer is the binary constructed in the current iteration.  At line 406
itself the pointer is already NULL. -/
theorem handle_valid_only_after_construction (e : Env) (g : Globals) (fuel : Nat)
    (en : Entry) (hen : en ∈ (loopBinary e g fuel).2) :
    (((∃ r, en.stmt = .ApplyNextGridRecord r) ∨ en.stmt = .deleteBinary ∨
          (∃ j, en.stmt = .newBinaryStar j) ∨ en.stmt = .setPointer) →
        en.evolvingBinaryStar = none ∧ en.evolvingBinaryStarValid = false) ∧
      (∀ j, en.stmt = .newBinaryStar j → j = en.index) ∧
      (en.stmt = .setValid →
        en.evolvingBinaryStar = some en.index ∧ en.evolvingBinaryStarValid = false) ∧
      (en.stmt = .binaryEvolve →
        en.evolvingBinaryStar = some en.index ∧ en.evolvingBinaryStarValid = true) ∧
      (en.stmt = .resetValid → en.evolvingBinaryStar = none) ∧
      (en.stmt ≠ .resetPointer → en.stmt ≠ .resetValid →
        en.evolvingBinaryStarValid = true → en.evolvingBinaryStar = some en.index) := by
  obtain ⟨i, _, _, _, hb⟩ := loopBinary_origin e g fuel en hen
  have hidx := binaryBody_entry_index e _ en hb
  obtain ⟨h1, h2, h3, h4, h5⟩ := binaryBody_handle e _ en hb
  rw [← hidx] at h2 h3 h5
  refine ⟨h1, ?_, h2, h3, h4, h5⟩
  intro j hj
  rw [hidx]
  exact binaryBody_newBinaryStar e _ en j hb hj

/-- Witness of C10 amended: the call of Evolve in the second iteration of a
linear sweep of two binaries. -/
theorem handle_valid_only_after_construction_witness :
    secondEvolve ∈ (loopBinary linearSweep Globals.initial 2).2 ∧
      (secondEvolve.stmt = .binaryEvolve →
        secondEvolve.evolvingBinaryStar = some secondEvolve.index ∧
          secondEvolve.evolvingBinaryStarValid = true) :=
  ⟨by decide,
    (handle_valid_only_after_construction linearSweep Globals.initial 2 secondEvolve
      (by decide)).2.2.2.1⟩

/-! ## The handle in the two sweeps -/

theorem mem_singleCreate_globals (e : Env) (v : SingleVars) (m : ℚ) (en : Entry)
    (hen : en ∈ (singleCreate e v m).2) :
    en.evolvingBinaryStar = v.globals.evolvingBinaryStar ∧
      en.evolvingBinaryStarValid = v.globals.evolvingBinaryStarValid ∧
      en.evolutionStatus = v.evolutionStatus := by
  unfold singleCreate at hen
  split_ifs at hen with h
  · simp only [List.mem_cons, List.mem_singleton, List.not_mem_nil, or_false] at hen
    rcases hen with h1 | h1 | h1 | h1 | h1 <;> subst h1 <;> simp [SingleVars.snapshot]
  · simp at hen

theorem mem_singleClose_globals (e : Env) (v : SingleVars) (en : Entry)
    (hen : en ∈ (singleClose e v).2) :
    en.evolvingBinaryStar = v.globals.evolvingBinaryStar ∧
      en.evolvingBinaryStarValid = v.globals.evolvingBinaryStarValid ∧
      (en.evolutionStatus = v.evolutionStatus ∨ en.evolutionStatus = .STOPPED) ∧
      (e.CloseStandardFile .SSE_PARAMETERS v.index = true →
        e.CloseStandardFile .SSE_SWITCH_LOG v.index = true →
        en.evolutionStatus = v.evolutionStatus) := by
  unfold singleClose at hen
  simp only [List.mem_cons, List.mem_singleton, List.not_mem_nil, or_false] at hen
  rcases hen with h1 | h1 | h1 | h1 <;> subst h1 <;>
    cases e.CloseStandardFile .SSE_PARAMETERS v.index <;>
    cases e.CloseStandardFile .SSE_SWITCH_LOG v.index <;> simp [SingleVars.snapshot]

/-- Every entry of an iteration of the single-star loop shows the globals the
iteration started with. -/
theorem singleBody_entry_globals (e : Env) (v : SingleVars) (en : Entry)
    (hen : en ∈ (singleBody e v).2) :
    en.evolvingBinaryStar = v.globals.evolvingBinaryStar ∧
      en.evolvingBinaryStarValid = v.globals.evolvingBinaryStarValid := by
  obtain ⟨_, _, hn3⟩ := singleNext_fields e v
  rcases (mem_singleBody e v en).1 hen with ⟨_, h⟩ | h | h
  · subst h
    simp [SingleVars.snapshot]
  · obtain ⟨h1, h2, _⟩ := mem_singleCreate_globals e _ _ en h
    rw [hn3] at h1 h2
    exact ⟨h1, h2⟩
  · obtain ⟨h1, h2, _⟩ := mem_singleClose_globals e _ en h
    have hg : (singleCreate e (singleNext e v).1 (singleNext e v).2).1.globals = v.globals := by
      by_cases hc : (singleNext e v).1.evolutionStatus = .CONTINUE
      · rw [(singleCreate_of_continue e _ _ hc).2.2.2.1, hn3]
      · rw [(singleCreate_of_not_continue e _ _ hc).1, hn3]
    rw [hg] at h1 h2
    exact ⟨h1, h2⟩

theorem loopSingle_globals (e : Env) (g : Globals) (k : Nat) :
    (loopSingle e g k).1.globals = g := by
  induction k with
  | zero => rfl
  | succ k ih =>
    by_cases h : singleCond (loopSingle e g k).1 = true
    · rw [loopSingle_succ_of_cond e g k h]
      dsimp only
      rw [(singleBody_fields e _).2.2.1, ih]
    · have h2 : singleCond (loopSingle e g k).1 = false := by simpa using h
      rw [loopSingle_succ_of_not_cond e g k h2]
      exact ih

theorem loopSingle_entry_globals (e : Env) (g : Globals) (k : Nat) (en : Entry)
    (hen : en ∈ (loopSingle e g k).2) :
    en.evolvingBinaryStar = g.evolvingBinaryStar ∧
      en.evolvingBinaryStarValid = g.evolvingBinaryStarValid := by
  obtain ⟨i, _, _, _, hb⟩ := loopSingle_origin e g k en hen
  have h := singleBody_entry_globals e _ en hb
  rw [loopSingle_globals] at h
  exact h

/-- C11: EvolveSingleStars does not write the two globals: started with any
values of the pair, every statement of the sweep sees those values and the
sweep returns with them.  Started from the initial state (NULL, false), the
flag is false at every statement of every iteration, at the final delete and
at return, and a signal delivered to sigHandler at any of these points makes
no PrintSwitchLog call. -/
theorem single_sweep_leaves_handle (e : Env) (g : Globals) (fuel : Nat) :
    (loopSingle e g fuel).1.globals = g ∧
      (∀ en ∈ (loopSingle e g fuel).2,
        en.evolvingBinaryStar = g.evolvingBinaryStar ∧
          en.evolvingBinaryStarValid = g.evolvingBinaryStarValid) ∧
      (∀ en ∈ (loopSingle e Globals.initial fuel).2,
        en.evolvingBinaryStarValid = false ∧
          ∀ (SIGUSR1 p_Sig : Int) (BSESwitchLog : Bool),
            (sigHandler SIGUSR1 BSESwitchLog
              ⟨en.evolvingBinaryStar, en.evolvingBinaryStarValid⟩ p_Sig).printSwitchLog = []) ∧
      (∀ r, EvolveSingleStars e Globals.initial fuel = some r →
        r.globals = Globals.initial ∧
          (∀ en ∈ r.trace, en.evolvingBinaryStarValid = false) ∧
          ∀ (SIGUSR1 p_Sig : Int) (BSESwitchLog : Bool),
            (sigHandler SIGUSR1 BSESwitchLog r.globals p_Sig).printSwitchLog = []) := by
  refine ⟨loopSingle_globals e g fuel, fun en hen => loopSingle_entry_globals e g fuel en hen,
    ?_, ?_⟩
  · intro en hen
    obtain ⟨_, h2⟩ := loopSingle_entry_globals e Globals.initial fuel en hen
    have h3 : en.evolvingBinaryStarValid = false := h2
    refine ⟨h3, ?_⟩
    intro s p b
    simp [sigHandler, h3]
  · intro r hr
    obtain ⟨_, hr2⟩ := EvolveSingleStars_some e Globals.initial fuel r hr
    subst hr2
    have hg := loopSingle_globals e Globals.initial fuel
    have hv : (loopSingle e Globals.initial fuel).1.globals.evolvingBinaryStarValid = false := by
      rw [hg]
      rfl
    refine ⟨?_, ?_, ?_⟩
    · simp [singleExit, hg]
    · intro en hen
      simp only [singleExit, List.mem_append, List.mem_singleton] at hen
      rcases hen with h | h
      · exact (loopSingle_entry_globals e Globals.initial fuel en h).2
      · rw [h]
        exact hv
    · intro s p b
      simp [sigHandler, singleExit, hv]

/-- Witness of C11: the third star of the linear sweep is constructed with the
flag false. -/
theorem single_sweep_leaves_handle_witness :
    thirdStar ∈ (loopSingle linearSweep Globals.initial 4).2 ∧
      thirdStar.evolvingBinaryStarValid = false ∧
      ∀ (SIGUSR1 p_Sig : Int) (BSESwitchLog : Bool),
        (sigHandler SIGUSR1 BSESwitchLog
          ⟨thirdStar.evolvingBinaryStar, thirdStar.evolvingBinaryStarValid⟩
          p_Sig).printSwitchLog = [] :=
  ⟨by decide,
    (single_sweep_leaves_handle linearSweep Globals.initial 4).2.2.1 thirdStar (by decide)⟩

/-- C12 (defect of the code): after the linear sweep of two binaries the loop
exits with evolvingBinaryStar pointing to the binary of index 1 and
evolvingBinaryStarValid true; delete binary on line 469 destroys that binary
with the flag still true, and EvolveBinaryStars returns with the flag true and
the pointer to the destroyed binary.  Inside the loop the delete of line 420
runs after lines 405-406 have cleared the pair. -/
theorem flag_true_at_final_delete :
    (loopBinary linearSweep Globals.initial 2).1.binary = some 1 ∧
      (EvolveBinaryStars linearSweep Globals.initial 2).map
          (fun r => (r.globals, decide (lastDelete ∈ r.trace))) =
        some (⟨some 1, true⟩, true) := by
  decide

/-! ## The program -/

theorem sweepsRun_single (o : Outcome) (pre : List MainCall) (hpre : sweepsRun pre = 0) :
    sweepsRun (pre ++ [.LoggingStart, .SplashScreen, .RandInitialise, .EvolveSingleStars o,
      .RandFree, .LoggingStop o.requested o.created]) = 1 := by
  unfold sweepsRun at hpre ⊢
  rw [List.countP_append, hpre]
  simp [List.countP_cons]

theorem sweepsRun_binary (o : Outcome) (pre : List MainCall) (hpre : sweepsRun pre = 0) :
    sweepsRun (pre ++ [.LoggingStart, .SplashScreen, .RandInitialise, .EvolveBinaryStars o,
      .RandFree, .LoggingStop o.requested o.created]) = 1 := by
  unfold sweepsRun at hpre ⊢
  rw [List.countP_append, hpre]
  simp [List.countP_cons]

/-- The calls and the status of main when the options ask for neither help nor
version, or could not be initialised. -/
theorem main_of_continue (s : Startup) (e : Env) (fuel : Nat)
    (h : ¬ (s.Initialise = true ∧ (s.RequestedHelp = true ∨ s.RequestedVersion = true))) :
    main s e fuel =
      if s.Enabled = false then
        some { programStatus := .LOGGING_FAILED, calls := [.LoggingStart, .SplashScreen] }
      else if s.SingleStar = true then
        (EvolveSingleStars e Globals.initial fuel).map fun o =>
          { programStatus := .SUCCESS,
            calls := [.LoggingStart, .SplashScreen, .RandInitialise, .EvolveSingleStars o,
              .RandFree, .LoggingStop o.requested o.created] }
      else
        (EvolveBinaryStars e Globals.initial fuel).map fun o =>
          { programStatus := .SUCCESS,
            calls := [.LoggingStart, .SplashScreen, .RandInitialise, .EvolveBinaryStars o,
              .RandFree, .LoggingStop o.requested o.created] } := by
  have hopts : mainOptions s = (.CONTINUE, []) := by
    unfold mainOptions
    cases hi : s.Initialise <;> cases hh : s.RequestedHelp <;>
      cases hv : s.RequestedVersion <;> simp_all
  unfold main
  rw [hopts]
  cases s.Enabled <;> cases s.SingleStar <;> simp

/-- The calls and the status of main when the options were initialised and ask
for help or for the version. -/
theorem main_of_help_or_version (s : Startup) (e : Env) (fuel : Nat)
    (h : s.Initialise = true ∧ (s.RequestedHelp = true ∨ s.RequestedVersion = true)) :
    main s e fuel =
      some { programStatus := .SUCCESS,
             calls := if s.RequestedHelp = true then [.SplashScreen] else [.sayVersion] } := by
  obtain ⟨hi, hhv⟩ := h
  unfold main mainOptions
  cases hh : s.RequestedHelp <;> cases hv : s.RequestedVersion <;> simp_all

/-- C13: when neither help nor the version is requested, main returns
LOGGING_FAILED exactly when LOGGING->Enabled() is false after LOGGING->Start,
and then calls no sweep; when logging is enabled it calls exactly one sweep,
EvolveSingleStars if SingleStar() holds and EvolveBinaryStars otherwise, and
returns SUCCESS as soon as the sweep returns, whatever the sweep returned. -/
theorem main_return_value (s : Startup) (e : Env) (fuel : Nat)
    (hhelp : s.RequestedHelp = false) (hversion : s.RequestedVersion = false) :
    (s.Enabled = false →
        main s e fuel =
          some { programStatus := .LOGGING_FAILED, calls := [.LoggingStart, .SplashScreen] }) ∧
      (s.Enabled = true → s.SingleStar = true →
        main s e fuel =
          (EvolveSingleStars e Globals.initial fuel).map fun o =>
            { programStatus := .SUCCESS,
              calls := [.LoggingStart, .SplashScreen, .RandInitialise, .EvolveSingleStars o,
                .RandFree, .LoggingStop o.requested o.created] }) ∧
      (s.Enabled = true → s.SingleStar = false →
        main s e fuel =
          (EvolveBinaryStars e Globals.initial fuel).map fun o =>
            { programStatus := .SUCCESS,
              calls := [.LoggingStart, .SplashScreen, .RandInitialise, .EvolveBinaryStars o,
                .RandFree, .LoggingStop o.requested o.created] }) ∧
      (∀ r, main s e fuel = some r →
        (r.programStatus = .LOGGING_FAILED ↔ s.Enabled = false) ∧
          (s.Enabled = false → sweepsRun r.calls = 0) ∧
          (s.Enabled = true → sweepsRun r.calls = 1 ∧ r.programStatus = .SUCCESS)) := by
  have hmain := main_of_continue s e fuel (by simp [hhelp, hversion])
  refine ⟨?_, ?_, ?_, ?_⟩
  · intro h
    rw [hmain, if_pos h]
  · intro h1 h2
    rw [hmain, if_neg (by simp [h1]), if_pos h2]
  · intro h1 h2
    rw [hmain, if_neg (by simp [h1]), if_neg (by simp [h2])]
  · intro r hr
    rw [hmain] at hr
    cases hE : s.Enabled
    · rw [if_pos hE] at hr
      have hr2 := (Option.some.inj hr).symm
      subst hr2
      simp [sweepsRun]
    · rw [if_neg (by simp [hE])] at hr
      cases hS : s.SingleStar
      · rw [if_neg (by simp [hS])] at hr
        obtain ⟨o, _, ho⟩ := Option.map_eq_some'.1 hr
        subst ho
        have h1 := sweepsRun_binary o [] rfl
        simp only [List.nil_append] at h1
        simp [h1]
      · rw [if_pos hS] at hr
        obtain ⟨o, _, ho⟩ := Option.map_eq_some'.1 hr
        subst ho
        have h1 := sweepsRun_single o [] rfl
        simp only [List.nil_append] at h1
        simp [h1]

/-- Witness of C13: a plain start with the linear sweep of four single stars. -/
theorem main_return_value_witness :
    (main plainStart linearSweep 4).map (fun r => (r.programStatus, sweepsRun r.calls)) =
        some (.SUCCESS, 1) ∧
      main plainStart linearSweep 4 =
        (EvolveSingleStars linearSweep Globals.initial 4).map fun o =>
          { programStatus := .SUCCESS,
            calls := [.LoggingStart, .SplashScreen, .RandInitialise, .EvolveSingleStars o,
              .RandFree, .LoggingStop o.requested o.created] } :=
  ⟨by decide, (main_return_value plainStart linearSweep 4 rfl rfl).2.1 rfl rfl⟩

/-- C20: a failed OPTIONS->Initialise does not stop main: the status stays
CONTINUE, logging is started, and with logging enabled a sweep is run and
SUCCESS returned.  main calls no sweep exactly when the options were
initialised and ask for help or the version (it returns SUCCESS without
starting logging) or when logging is not enabled after its start (it returns
LOGGING_FAILED); it never returns CONTINUE. -/
theorem main_ignores_failed_initialise (s : Startup) (e : Env) (fuel : Nat) :
    (s.Initialise = false → (mainOptions s).1 = .CONTINUE ∧
        main s e fuel =
          if s.Enabled = false then
            some { programStatus := .LOGGING_FAILED, calls := [.LoggingStart, .SplashScreen] }
          else if s.SingleStar = true then
            (EvolveSingleStars e Globals.initial fuel).map fun o =>
              { programStatus := .SUCCESS,
                calls := [.LoggingStart, .SplashScreen, .RandInitialise, .EvolveSingleStars o,
                  .RandFree, .LoggingStop o.requested o.created] }
          else
            (EvolveBinaryStars e Globals.initial fuel).map fun o =>
              { programStatus := .SUCCESS,
                calls := [.LoggingStart, .SplashScreen, .RandInitialise, .EvolveBinaryStars o,
                  .RandFree, .LoggingStop o.requested o.created] }) ∧
      (s.Initialise = true ∧ (s.RequestedHelp = true ∨ s.RequestedVersion = true) →
        ∃ r, main s e fuel = some r ∧ r.programStatus = .SUCCESS ∧ sweepsRun r.calls = 0 ∧
          MainCall.LoggingStart ∉ r.calls) ∧
      (∀ r, main s e fuel = some r →
        r.programStatus ≠ .CONTINUE ∧
          (sweepsRun r.calls = 0 ↔
            ((s.Initialise = true ∧ (s.RequestedHelp = true ∨ s.RequestedVersion = true)) ∨
              s.Enabled = false)) ∧
          (¬ (s.Initialise = true ∧ (s.RequestedHelp = true ∨ s.RequestedVersion = true)) →
            MainCall.LoggingStart ∈ r.calls ∧
              (s.Enabled = false → r.programStatus = .LOGGING_FAILED) ∧
              (s.Enabled = true → r.programStatus = .SUCCESS ∧ sweepsRun r.calls = 1))) := by
  refine ⟨?_, ?_, ?_⟩
  · intro hi
    refine ⟨by simp [mainOptions, hi], main_of_continue s e fuel (by simp [hi])⟩
  · intro h
    refine ⟨_, main_of_help_or_version s e fuel h, rfl, ?_, ?_⟩
    · dsimp only
      split_ifs <;> simp [sweepsRun]
    · dsimp only
      split_ifs <;> simp
  · intro r hr
    by_cases h : s.Initialise = true ∧ (s.RequestedHelp = true ∨ s.RequestedVersion = true)
    · rw [main_of_help_or_version s e fuel h] at hr
      have hr2 := (Option.some.inj hr).symm
      subst hr2
      refine ⟨by simp, ?_, fun hn => absurd h hn⟩
      dsimp only
      split_ifs <;> simp [sweepsRun, h]
    · rw [main_of_continue s e fuel h] at hr
      cases hE : s.Enabled
      · rw [if_pos hE] at hr
        have hr2 := (Option.some.inj hr).symm
        subst hr2
        simp [sweepsRun]
      · rw [if_neg (by simp [hE])] at hr
        cases hS : s.SingleStar
        · rw [if_neg (by simp [hS])] at hr
          obtain ⟨o, _, ho⟩ := Option.map_eq_some'.1 hr
          subst ho
          have h1 := sweepsRun_binary o [] rfl
          simp only [List.nil_append] at h1
          simp [h1, h]
        · rw [if_pos hS] at hr
          obtain ⟨o, _, ho⟩ := Option.map_eq_some'.1 hr
          subst ho
          have h1 := sweepsRun_single o [] rfl
          simp only [List.nil_append] at h1
          simp [h1, h]

/-- Witness of C20: OPTIONS->Initialise fails, logging comes up, and the linear
sweep of four single stars is run. -/
theorem main_ignores_failed_initialise_witness :
    (main failedInitialise linearSweep 4).map (fun r => (r.programStatus, sweepsRun r.calls)) =
        some (.SUCCESS, 1) ∧
      (mainOptions failedInitialise).1 = .CONTINUE ∧
      main failedInitialise linearSweep 4 =
        if failedInitialise.Enabled = false then
          some { programStatus := .LOGGING_FAILED, calls := [.LoggingStart, .SplashScreen] }
        else if failedInitialise.SingleStar = true then
          (EvolveSingleStars linearSweep Globals.initial 4).map fun o =>
            { programStatus := .SUCCESS,
              calls := [.LoggingStart, .SplashScreen, .RandInitialise, .EvolveSingleStars o,
                .RandFree, .LoggingStop o.requested o.created] }
        else
          (EvolveBinaryStars linearSweep Globals.initial 4).map fun o =>
            { programStatus := .SUCCESS,
              calls := [.LoggingStart, .SplashScreen, .RandInitialise, .EvolveBinaryStars o,
                .RandFree, .LoggingStop o.requested o.created] } :=
  ⟨by decide, (main_ignores_failed_initialise failedInitialise linearSweep 4).1 rfl⟩

/-! ## Status and target along the loops -/

theorem singleNext_status (e : Env) (v : SingleVars) :
    (singleNext e v).1.evolutionStatus = v.evolutionStatus ∨
      (singleNext e v).1.evolutionStatus = .DONE ∨
      (singleNext e v).1.evolutionStatus = .STOPPED := by
  unfold singleNext
  dsimp only
  split_ifs <;> simp

theorem binaryNext_status (e : Env) (v : BinaryVars) :
    (binaryNext e v).1.evolutionStatus = v.evolutionStatus ∨
      (binaryNext e v).1.evolutionStatus = .DONE ∨
      (binaryNext e v).1.evolutionStatus = .STOPPED := by
  unfold binaryNext
  dsimp only
  split_ifs <;> simp

/-- The single-star loop only ever holds CONTINUE, DONE or STOPPED. -/
theorem loopSingle_status (e : Env) (g : Globals) (k : Nat) :
    (loopSingle e g k).1.evolutionStatus = .CONTINUE ∨
      (loopSingle e g k).1.evolutionStatus = .DONE ∨
      (loopSingle e g k).1.evolutionStatus = .STOPPED := by
  induction k with
  | zero => exact Or.inl rfl
  | succ k ih =>
    by_cases h : singleCond (loopSingle e g k).1 = true
    · rw [loopSingle_succ_of_cond e g k h]
      dsimp only
      rw [(singleBody_fields e _).2.1]
      have hv := ((singleCond_iff _).1 h).1
      rcases singleNext_status e (loopSingle e g k).1 with h1 | h1 | h1 <;>
        split_ifs <;> simp [h1, hv]
    · have h2 : singleCond (loopSingle e g k).1 = false := by simpa using h
      rw [loopSingle_succ_of_not_cond e g k h2]
      exact ih

/-- The binary-star loop only ever holds CONTINUE, DONE, STOPPED or
AIS_EXPLORATORY. -/
theorem loopBinary_status (e : Env) (g : Globals) (k : Nat) :
    (loopBinary e g k).1.evolutionStatus = .CONTINUE ∨
      (loopBinary e g k).1.evolutionStatus = .DONE ∨
      (loopBinary e g k).1.evolutionStatus = .STOPPED ∨
      (loopBinary e g k).1.evolutionStatus = .AIS_EXPLORATORY := by
  induction k with
  | zero => exact Or.inl rfl
  | succ k ih =>
    by_cases h : binaryCond (loopBinary e g k).1 = true
    · rw [loopBinary_succ_of_cond e g k h]
      dsimp only
      rw [(binaryBody_fields e _).2.1]
      have hv := ((binaryCond_iff _).1 h).1
      have hr := (binaryReset_fields (loopBinary e g k).1).1
      rcases binaryNext_status e (binaryReset (loopBinary e g k).1).1 with h1 | h1 | h1
      · rw [hr, hv] at h1
        rw [if_pos h1]
        split_ifs <;> simp
      · simp [h1]
      · simp [h1]
    · have h2 : binaryCond (loopBinary e g k).1 = false := by simpa using h
      rw [loopBinary_succ_of_not_cond e g k h2]
      exact ih

/-- In a linear sweep the target of the single-star loop is the step count. -/
theorem loopSingle_linear_target (e : Env) (g : Globals) (hlinear : usingGrid e = false)
    (k : Nat) : (loopSingle e g k).1.nStars = e.SingleStarMassSteps := by
  induction k with
  | zero => simp [loopSingle, singleInit, hlinear]
  | succ k ih =>
    by_cases h : singleCond (loopSingle e g k).1 = true
    · rw [loopSingle_succ_of_cond e g k h]
      dsimp only
      rw [(singleBody_fields e _).1, (singleNext_linear e _ hlinear).1, ih]
    · have h2 : singleCond (loopSingle e g k).1 = false := by simpa using h
      rw [loopSingle_succ_of_not_cond e g k h2]
      exact ih

/-- In a linear sweep the target of the binary-star loop is nBinaries. -/
theorem loopBinary_linear_target (e : Env) (g : Globals) (hlinear : usingGrid e = false)
    (k : Nat) : (loopBinary e g k).1.nBinaries = e.nBinaries := by
  induction k with
  | zero => simp [loopBinary, binaryInit, hlinear]
  | succ k ih =>
    by_cases h : binaryCond (loopBinary e g k).1 = true
    · rw [loopBinary_succ_of_cond e g k h]
      dsimp only
      rw [(binaryBody_fields e _).1, binaryNext_linear e _ hlinear]
      dsimp only
      rw [(binaryReset_fields _).2.1, ih]
    · have h2 : binaryCond (loopBinary e g k).1 = false := by simpa using h
      rw [loopBinary_succ_of_not_cond e g k h2]
      exact ih

/-- A linear single-star sweep has left its loop after max(N, 0) iterations. -/
theorem loopSingle_linear_exit (e : Env) (g : Globals) (hlinear : usingGrid e = false)
    (fuel : Nat) (hfuel : e.SingleStarMassSteps.toNat ≤ fuel) :
    singleCond (loopSingle e g fuel).1 = false := by
  by_contra hcon
  have hc : singleCond (loopSingle e g fuel).1 = true := by simpa using hcon
  have hidx := (loopSingle_index e g fuel).2 hc
  have hlt := ((singleCond_iff _).1 hc).2
  rw [hidx, loopSingle_linear_target e g hlinear] at hlt
  omega

/-- A linear binary-star sweep has left its loop after max(N, 0) iterations. -/
theorem loopBinary_linear_exit (e : Env) (g : Globals) (hlinear : usingGrid e = false)
    (fuel : Nat) (hfuel : e.nBinaries.toNat ≤ fuel) :
    binaryCond (loopBinary e g fuel).1 = false := by
  by_contra hcon
  have hc : binaryCond (loopBinary e g fuel).1 = true := by simpa using hcon
  have hidx := (loopBinary_index e g fuel).2 hc
  have hlt := ((binaryCond_iff _).1 hc).2
  rw [hidx, loopBinary_linear_target e g hlinear] at hlt
  omega

/-- The index never passes the point at which the loop was left. -/
theorem loopSingle_index_le_exit (e : Env) (g : Globals) (n fuel : Nat)
    (hexit : singleCond (loopSingle e g n).1 = false) :
    (loopSingle e g fuel).1.index ≤ n := by
  rcases Nat.le_total fuel n with h | h
  · exact Nat.le_trans (loopSingle_index e g fuel).1 h
  · rw [loopSingle_stable_le e g n fuel hexit h]
    exact (loopSingle_index e g n).1

theorem loopBinary_index_le_exit (e : Env) (g : Globals) (n fuel : Nat)
    (hexit : binaryCond (loopBinary e g n).1 = false) :
    (loopBinary e g fuel).1.index ≤ n := by
  rcases Nat.le_total fuel n with h | h
  · exact Nat.le_trans (loopBinary_index e g fuel).1 h
  · rw [loopBinary_stable_le e g n fuel hexit h]
    exact (loopBinary_index e g n).1

/-- In a grid sweep of single stars the target is index + 1 while the status is
CONTINUE. -/
theorem loopSingle_grid_target (e : Env) (g : Globals) (hgrid : usingGrid e = true) (k : Nat)
    (hs : (loopSingle e g k).1.evolutionStatus = .CONTINUE) :
    (loopSingle e g k).1.nStars = ((loopSingle e g k).1.index : Int) + 1 := by
  induction k with
  | zero => simp [loopSingle, singleInit, hgrid]
  | succ k ih =>
    by_cases h : singleCond (loopSingle e g k).1 = true
    · have hv := ((singleCond_iff _).1 h).1
      rw [loopSingle_succ_of_cond e g k h] at hs ⊢
      dsimp only at hs ⊢
      obtain ⟨hb1, hb2, _⟩ := singleBody_fields e (loopSingle e g k).1
      obtain ⟨hn1, hn2⟩ := singleNext_grid e _ hgrid hv
      rw [hb2, hn1] at hs
      rw [hb1, hn2, singleBody_index, ih hv]
      by_cases h1 : e.ApplyNextGridRecord (loopSingle e g k).1.index = 1
      · simp [h1]
      · exfalso
        revert hs
        rw [if_neg h1]
        split_ifs <;> simp
    · have h2 : singleCond (loopSingle e g k).1 = false := by simpa using h
      rw [loopSingle_succ_of_not_cond e g k h2] at hs ⊢
      exact ih hs

/-- In a grid sweep of binaries the target is index + 1 while the status is
CONTINUE. -/
theorem loopBinary_grid_target (e : Env) (g : Globals) (hgrid : usingGrid e = true) (k : Nat)
    (hs : (loopBinary e g k).1.evolutionStatus = .CONTINUE) :
    (loopBinary e g k).1.nBinaries = ((loopBinary e g k).1.index : Int) + 1 := by
  induction k with
  | zero => simp [loopBinary, binaryInit, hgrid]
  | succ k ih =>
    by_cases h : binaryCond (loopBinary e g k).1 = true
    · have hv := ((binaryCond_iff _).1 h).1
      rw [loopBinary_succ_of_cond e g k h] at hs ⊢
      dsimp only at hs ⊢
      obtain ⟨hr1, hr2, _, hr4, _⟩ := binaryReset_fields (loopBinary e g k).1
      obtain ⟨hb1, hb2, _⟩ := binaryBody_fields e (loopBinary e g k).1
      obtain ⟨hn1, hn2⟩ := binaryNext_grid e (binaryReset (loopBinary e g k).1).1 hgrid
        (by rw [hr1, hv])
      rw [hr4] at hn1 hn2
      rw [hb1, hn2, binaryBody_index, hr2, ih hv]
      by_cases h1 : e.ApplyNextGridRecord (loopBinary e g k).1.index = 1
      · simp [h1]
      · exfalso
        rw [if_neg h1] at hn1
        have hne : (binaryNext e (binaryReset (loopBinary e g k).1).1).1.evolutionStatus ≠
            .CONTINUE := by
          rw [hn1]
          split_ifs <;> simp
        rw [hb2, if_neg hne] at hs
        exact hne hs
    · have h2 : binaryCond (loopBinary e g k).1 = false := by simpa using h
      rw [loopBinary_succ_of_not_cond e g k h2] at hs ⊢
      exact ih hs

/-! ## Linear sweeps run to their target -/

/-- While the files close, the linear single-star loop goes on up to its
target. -/
theorem loopSingle_linear_prefix (e : Env) (g : Globals) (n : Nat)
    (hlinear : usingGrid e = false) (hn : (n : Int) ≤ e.SingleStarMassSteps)
    (hclose : ∀ f i, e.CloseStandardFile f i = true) (k : Nat) (hk : k ≤ n) :
    (loopSingle e g k).1.evolutionStatus = .CONTINUE ∧
      (loopSingle e g k).1.index = k ∧ (loopSingle e g k).1.nStarsCreated = k := by
  induction k with
  | zero => simp [loopSingle, singleInit]
  | succ k ih =>
    obtain ⟨h1, h3, h4⟩ := ih (Nat.le_of_succ_le hk)
    have hc : singleCond (loopSingle e g k).1 = true := by
      rw [singleCond_iff, h1, h3, loopSingle_linear_target e g hlinear]
      exact ⟨rfl, by omega⟩
    obtain ⟨_, hb2, _, hb4, _⟩ := singleBody_fields e (loopSingle e g k).1
    rw [(singleNext_linear e _ hlinear).1] at hb2 hb4
    rw [loopSingle_succ_of_cond e g k hc]
    dsimp only
    rw [hb2, hb4, singleBody_index, h1, h3, h4]
    simp [hclose]

/-- C14: in a linear sweep with configured count N (SingleStarMassSteps for
single stars) or M (nBinaries for binaries), the loop target is that count at
every stage of the loop; whenever the sweep returns the requested count is
that count, and it does return within that many iterations; when every file
close succeeds and the sampler asks for no stop, exactly that many iterations
run, each constructing one object, and the function returns (requested = N,
created = N) with status DONE. -/
theorem linear_sweep_runs_to_target (e : Env) (g : Globals) (N M : Nat)
    (hlinear : usingGrid e = false) (hsteps : e.SingleStarMassSteps = (N : Int))
    (hbinaries : e.nBinaries = (M : Int)) :
    ((∀ k, (loopSingle e g k).1.nStars = (N : Int)) ∧
        (∀ fuel r, EvolveSingleStars e g fuel = some r → r.requested = (N : Int)) ∧
        (∀ fuel, N ≤ fuel → ∃ r, EvolveSingleStars e g fuel = some r) ∧
        ((∀ f i, e.CloseStandardFile f i = true) → ∀ fuel, N ≤ fuel →
          ∃ r, EvolveSingleStars e g fuel = some r ∧ r.requested = (N : Int) ∧
            r.created = (N : Int) ∧ r.iterations = N ∧ constructions r.trace = N ∧
            r.evolutionStatus = .DONE)) ∧
      ((∀ k, (loopBinary e g k).1.nBinaries = (M : Int)) ∧
        (∀ fuel r, EvolveBinaryStars e g fuel = some r → r.requested = (M : Int)) ∧
        (∀ fuel, M ≤ fuel → ∃ r, EvolveBinaryStars e g fuel = some r) ∧
        ((∀ f i, e.CloseStandardFile f i = true) →
          (∀ i, (e.AIS_ExploratoryPhase i && e.ShouldStopExploratoryPhase i) = false) →
          ∀ fuel, M ≤ fuel →
          ∃ r, EvolveBinaryStars e g fuel = some r ∧ r.requested = (M : Int) ∧
            r.created = (M : Int) ∧ r.iterations = M ∧ constructions r.trace = M ∧
            r.evolutionStatus = .DONE)) := by
  constructor
  · have hexit : ∀ fuel, N ≤ fuel → singleCond (loopSingle e g fuel).1 = false := by
      intro fuel hf
      exact loopSingle_linear_exit e g hlinear fuel (by rw [hsteps]; simpa using hf)
    refine ⟨fun k => by rw [loopSingle_linear_target e g hlinear, hsteps], ?_, ?_, ?_⟩
    · intro fuel r hr
      obtain ⟨_, hr2⟩ := EvolveSingleStars_some e g fuel r hr
      subst hr2
      simp [singleExit, hlinear, hsteps]
    · intro fuel hf
      exact ⟨_, EvolveSingleStars_of_exit e g fuel (hexit fuel hf)⟩
    · intro hclose fuel hf
      obtain ⟨h1, h3, h4⟩ := loopSingle_linear_prefix e g N hlinear (le_of_eq hsteps.symm)
        hclose N (Nat.le_refl N)
      have heq := loopSingle_stable_le e g N fuel (hexit N (Nat.le_refl N)) hf
      have ht := loopSingle_linear_target e g hlinear N
      refine ⟨_, EvolveSingleStars_of_exit e g fuel (hexit fuel hf), ?_, ?_, ?_, ?_, ?_⟩
      · simp [singleExit, hlinear, hsteps]
      · rw [heq]
        simp [singleExit, h4]
      · rw [heq]
        simp [singleExit, h3]
      · rw [heq, (singleExit_trace e _).2.2.2.1, (loopSingle_seeds e g N).2.2.1, h4]
      · rw [heq]
        simp [singleExit, h1, h3, ht, hsteps]
  · have hexit : ∀ fuel, M ≤ fuel → binaryCond (loopBinary e g fuel).1 = false := by
      intro fuel hf
      exact loopBinary_linear_exit e g hlinear fuel (by rw [hbinaries]; simpa using hf)
    refine ⟨fun k => by rw [loopBinary_linear_target e g hlinear, hbinaries], ?_, ?_, ?_⟩
    · intro fuel r hr
      unfold EvolveBinaryStars at hr
      dsimp only at hr
      split_ifs at hr
      have hr2 := (Option.some.inj hr).symm
      subst hr2
      simp [binaryExit, hlinear, hbinaries]
    · intro fuel hf
      exact ⟨_, EvolveBinaryStars_of_exit e g fuel (hexit fuel hf)⟩
    · intro hclose hais fuel hf
      obtain ⟨h1, h2, h3, h4⟩ := loopBinary_linear_prefix e g M hlinear
        (le_of_eq hbinaries.symm) hclose (fun i _ => hais i) M (Nat.le_refl M)
      have heq := loopBinary_stable_le e g M fuel (hexit M (Nat.le_refl M)) hf
      refine ⟨_, EvolveBinaryStars_of_exit e g fuel (hexit fuel hf), ?_, ?_, ?_, ?_, ?_⟩
      · simp [binaryExit, hlinear, hbinaries]
      · rw [heq]
        simp [binaryExit, h4]
      · rw [heq]
        simp [binaryExit, h3]
      · rw [heq, (binaryExit_trace e _).1, (loopBinary_counts e g M).1, h4]
      · rw [heq]
        simp [binaryExit, h1, h2, h3, hbinaries]

/-- Witness of C14: the linear sweep of four stars and of two binaries. -/
theorem linear_sweep_runs_to_target_witness :
    (∃ r, EvolveSingleStars linearSweep Globals.initial 4 = some r ∧
        r.requested = ((4 : Nat) : Int) ∧ r.created = ((4 : Nat) : Int) ∧ r.iterations = 4 ∧
        constructions r.trace = 4 ∧ r.evolutionStatus = .DONE) ∧
      (∃ r, EvolveBinaryStars linearSweep Globals.initial 2 = some r ∧
        r.requested = ((2 : Nat) : Int) ∧ r.created = ((2 : Nat) : Int) ∧ r.iterations = 2 ∧
        constructions r.trace = 2 ∧ r.evolutionStatus = .DONE) :=
  ⟨(linear_sweep_runs_to_target linearSweep Globals.initial 4 2 (by decide) rfl rfl).1.2.2.2
      (fun _ _ => rfl) 4 (Nat.le_refl 4),
    (linear_sweep_runs_to_target linearSweep Globals.initial 4 2 (by decide) rfl rfl).2.2.2.2
      (fun _ _ => rfl) (fun _ => rfl) 2 (Nat.le_refl 2)⟩

/-! ## The status after the loop -/

/-- C17: when a sweep returns, the loop was left with a status other than
CONTINUE or with index >= target, line 231 / 471 turns the second case into
DONE, and the status announced is DONE or STOPPED, never CONTINUE: the else
branch of lines 242-244 / 487-489 is not taken. -/
theorem final_status_is_done_or_stopped (e : Env) (g : Globals) (fuel : Nat) :
    (∀ r, EvolveSingleStars e g fuel = some r →
        ((loopSingle e g fuel).1.evolutionStatus ≠ .CONTINUE ∨
          ((loopSingle e g fuel).1.index : Int) ≥ (loopSingle e g fuel).1.nStars) ∧
        (r.evolutionStatus = .DONE ∨ r.evolutionStatus = .STOPPED) ∧
        r.evolutionStatus ≠ .CONTINUE) ∧
      (∀ r, EvolveBinaryStars e g fuel = some r →
        ((loopBinary e g fuel).1.evolutionStatus ≠ .CONTINUE ∨
          ((loopBinary e g fuel).1.index : Int) ≥ (loopBinary e g fuel).1.nBinaries) ∧
        (r.evolutionStatus = .DONE ∨ r.evolutionStatus = .STOPPED) ∧
        r.evolutionStatus ≠ .CONTINUE) := by
  constructor
  · intro r hr
    obtain ⟨hexit, hr2⟩ := EvolveSingleStars_some e g fuel r hr
    subst hr2
    have hdich : (loopSingle e g fuel).1.evolutionStatus ≠ .CONTINUE ∨
        ((loopSingle e g fuel).1.index : Int) ≥ (loopSingle e g fuel).1.nStars := by
      by_cases hs : (loopSingle e g fuel).1.evolutionStatus = .CONTINUE
      · right
        by_contra hlt
        have hc : singleCond (loopSingle e g fuel).1 = true :=
          (singleCond_iff _).2 ⟨hs, by omega⟩
        rw [hexit] at hc
        exact Bool.false_ne_true hc
      · exact Or.inl hs
    have hfin : (singleExit e (loopSingle e g fuel)).evolutionStatus = .DONE ∨
        (singleExit e (loopSingle e g fuel)).evolutionStatus = .STOPPED := by
      simp only [singleExit]
      rcases loopSingle_status e g fuel with h1 | h1 | h1
      · rcases hdich with h2 | h2
        · exact absurd h1 h2
        · simp [h1, h2]
      · simp [h1]
      · simp [h1]
    refine ⟨hdich, hfin, ?_⟩
    rcases hfin with h | h <;> rw [h] <;> simp
  · intro r hr
    have hexit : binaryCond (loopBinary e g fuel).1 = false := by
      by_contra hcon
      have hc : binaryCond (loopBinary e g fuel).1 = true := by simpa using hcon
      simp [EvolveBinaryStars, hc] at hr
    rw [EvolveBinaryStars_of_exit e g fuel hexit] at hr
    have hr2 := (Option.some.inj hr).symm
    subst hr2
    have hdich : (loopBinary e g fuel).1.evolutionStatus ≠ .CONTINUE ∨
        ((loopBinary e g fuel).1.index : Int) ≥ (loopBinary e g fuel).1.nBinaries := by
      by_cases hs : (loopBinary e g fuel).1.evolutionStatus = .CONTINUE
      · right
        by_contra hlt
        have hc : binaryCond (loopBinary e g fuel).1 = true :=
          (binaryCond_iff _).2 ⟨hs, by omega⟩
        rw [hexit] at hc
        exact Bool.false_ne_true hc
      · exact Or.inl hs
    have hfin : (binaryExit e (loopBinary e g fuel)).evolutionStatus = .DONE ∨
        (binaryExit e (loopBinary e g fuel)).evolutionStatus = .STOPPED := by
      simp only [binaryExit]
      rcases loopBinary_status e g fuel with h1 | h1 | h1 | h1
      · rcases hdich with h2 | h2
        · exact absurd h1 h2
        · simp [h1, h2]
      · simp [h1]
      · simp [h1]
      · simp [h1]
    refine ⟨hdich, hfin, ?_⟩
    rcases hfin with h | h <;> rw [h] <;> simp

/-- Witness of C17: the linear sweep of four stars and that of two binaries. -/
theorem final_status_is_done_or_stopped_witness :
    (∃ r, EvolveSingleStars linearSweep Globals.initial 4 = some r ∧
        (r.evolutionStatus = .DONE ∨ r.evolutionStatus = .STOPPED)) ∧
      (∃ r, EvolveBinaryStars closeFailSweep Globals.initial 2 = some r ∧
        (r.evolutionStatus = .DONE ∨ r.evolutionStatus = .STOPPED)) :=
  ⟨⟨singleExit linearSweep (loopSingle linearSweep Globals.initial 4), by decide,
      ((final_status_is_done_or_stopped linearSweep Globals.initial 4).1 _ (by decide)).2.1⟩,
    ⟨binaryExit closeFailSweep (loopBinary closeFailSweep Globals.initial 2), by decide,
      ((final_status_is_done_or_stopped closeFailSweep Globals.initial 2).2 _
        (by decide)).2.1⟩⟩

/-! ## Termination -/

/-- A grid sweep of single stars has left its loop one iteration after the
first read that does not return 1. -/
theorem loopSingle_grid_exit (e : Env) (g : Globals) (n : Nat) (hgrid : usingGrid e = true)
    (hlast : e.ApplyNextGridRecord n ≠ 1) :
    singleCond (loopSingle e g (n + 1)).1 = false := by
  by_contra hcon
  have hc : singleCond (loopSingle e g (n + 1)).1 = true := by simpa using hcon
  have hs := ((singleCond_iff _).1 hc).1
  by_cases h : singleCond (loopSingle e g n).1 = true
  · have hv := ((singleCond_iff _).1 h).1
    have hidx := (loopSingle_index e g n).2 h
    rw [loopSingle_succ_of_cond e g n h] at hs
    dsimp only at hs
    obtain ⟨hn1, _⟩ := singleNext_grid e _ hgrid hv
    rw [hidx, if_neg hlast] at hn1
    rw [(singleBody_fields e _).2.1, hn1] at hs
    revert hs
    split_ifs <;> simp
  · have h2 : singleCond (loopSingle e g n).1 = false := by simpa using h
    rw [loopSingle_succ_of_not_cond e g n h2] at hc
    exact h hc

/-- A grid sweep of binaries has left its loop one iteration after the first
read that does not return 1. -/
theorem loopBinary_grid_exit (e : Env) (g : Globals) (n : Nat) (hgrid : usingGrid e = true)
    (hlast : e.ApplyNextGridRecord n ≠ 1) :
    binaryCond (loopBinary e g (n + 1)).1 = false := by
  by_contra hcon
  have hc : binaryCond (loopBinary e g (n + 1)).1 = true := by simpa using hcon
  have hs := ((binaryCond_iff _).1 hc).1
  by_cases h : binaryCond (loopBinary e g n).1 = true
  · have hv := ((binaryCond_iff _).1 h).1
    have hidx := (loopBinary_index e g n).2 h
    obtain ⟨hr1, _, _, hr4, _⟩ := binaryReset_fields (loopBinary e g n).1
    rw [loopBinary_succ_of_cond e g n h] at hs
    dsimp only at hs
    obtain ⟨hn1, _⟩ := binaryNext_grid e (binaryReset (loopBinary e g n).1).1 hgrid
      (by rw [hr1, hv])
    rw [hr4, hidx, if_neg hlast] at hn1
    have hne : (binaryNext e (binaryReset (loopBinary e g n).1).1).1.evolutionStatus ≠
        .CONTINUE := by
      rw [hn1]
      split_ifs <;> simp
    rw [(binaryBody_fields e _).2.1, if_neg hne] at hs
    exact hne hs
  · have h2 : binaryCond (loopBinary e g n).1 = false := by simpa using h
    rw [loopBinary_succ_of_not_cond e g n h2] at hc
    exact h hc

/-- C18: a linear sweep with target N never runs more than max(N, 0)
iterations and returns within that many; a grid sweep whose reader returns 1
for n reads and another value on the next one never runs more than n + 1
iterations, never makes more than n + 1 grid reads, and returns within n + 1
iterations.  In grid mode the target is index + 1 whenever the status is
CONTINUE, so the loop condition holds then, and a grid sweep that returns has
left its loop with a status other than CONTINUE. -/
theorem sweeps_terminate (e : Env) (g : Globals) :
    (usingGrid e = false →
        (∀ fuel, (loopSingle e g fuel).1.index ≤ (max e.SingleStarMassSteps 0).toNat) ∧
        (∀ fuel, (max e.SingleStarMassSteps 0).toNat ≤ fuel →
          ∃ r, EvolveSingleStars e g fuel = some r ∧
            r.iterations ≤ (max e.SingleStarMassSteps 0).toNat) ∧
        (∀ fuel, (loopBinary e g fuel).1.index ≤ (max e.nBinaries 0).toNat) ∧
        (∀ fuel, (max e.nBinaries 0).toNat ≤ fuel →
          ∃ r, EvolveBinaryStars e g fuel = some r ∧
            r.iterations ≤ (max e.nBinaries 0).toNat)) ∧
      (usingGrid e = true → ∀ n, (∀ i, i < n → e.ApplyNextGridRecord i = 1) →
        e.ApplyNextGridRecord n ≠ 1 →
        (∀ fuel, (loopSingle e g fuel).1.index ≤ n + 1 ∧
          gridReads (loopSingle e g fuel).2 ≤ n + 1) ∧
        (∀ fuel, n + 1 ≤ fuel →
          ∃ r, EvolveSingleStars e g fuel = some r ∧ r.iterations ≤ n + 1 ∧
            gridReads r.trace ≤ n + 1) ∧
        (∀ fuel, (loopBinary e g fuel).1.index ≤ n + 1 ∧
          gridReads (loopBinary e g fuel).2 ≤ n + 1) ∧
        (∀ fuel, n + 1 ≤ fuel →
          ∃ r, EvolveBinaryStars e g fuel = some r ∧ r.iterations ≤ n + 1 ∧
            gridReads r.trace ≤ n + 1)) ∧
      (usingGrid e = true → ∀ fuel,
        ((loopSingle e g fuel).1.evolutionStatus = .CONTINUE →
          (loopSingle e g fuel).1.nStars = ((loopSingle e g fuel).1.index : Int) + 1 ∧
            singleCond (loopSingle e g fuel).1 = true) ∧
        ((loopBinary e g fuel).1.evolutionStatus = .CONTINUE →
          (loopBinary e g fuel).1.nBinaries = ((loopBinary e g fuel).1.index : Int) + 1 ∧
            binaryCond (loopBinary e g fuel).1 = true) ∧
        (∀ r, EvolveSingleStars e g fuel = some r →
          (loopSingle e g fuel).1.evolutionStatus ≠ .CONTINUE) ∧
        (∀ r, EvolveBinaryStars e g fuel = some r →
          (loopBinary e g fuel).1.evolutionStatus ≠ .CONTINUE)) := by
  have hmaxS : (max e.SingleStarMassSteps 0).toNat = e.SingleStarMassSteps.toNat := by omega
  have hmaxB : (max e.nBinaries 0).toNat = e.nBinaries.toNat := by omega
  refine ⟨?_, ?_, ?_⟩
  · intro hlinear
    rw [hmaxS, hmaxB]
    have hS := loopSingle_linear_exit e g hlinear _ (Nat.le_refl e.SingleStarMassSteps.toNat)
    have hB := loopBinary_linear_exit e g hlinear _ (Nat.le_refl e.nBinaries.toNat)
    refine ⟨fun fuel => loopSingle_index_le_exit e g _ fuel hS, ?_,
      fun fuel => loopBinary_index_le_exit e g _ fuel hB, ?_⟩
    · intro fuel hf
      refine ⟨_, EvolveSingleStars_of_exit e g fuel
        (loopSingle_linear_exit e g hlinear fuel hf), ?_⟩
      simp only [singleExit]
      exact loopSingle_index_le_exit e g _ fuel hS
    · intro fuel hf
      refine ⟨_, EvolveBinaryStars_of_exit e g fuel
        (loopBinary_linear_exit e g hlinear fuel hf), ?_⟩
      simp only [binaryExit]
      exact loopBinary_index_le_exit e g _ fuel hB
  · intro hgrid n _ hlast
    have hS := loopSingle_grid_exit e g n hgrid hlast
    have hB := loopBinary_grid_exit e g n hgrid hlast
    have hSi := fun fuel => loopSingle_index_le_exit e g (n + 1) fuel hS
    have hBi := fun fuel => loopBinary_index_le_exit e g (n + 1) fuel hB
    have hSr : ∀ fuel, gridReads (loopSingle e g fuel).2 ≤ n + 1 := by
      intro fuel
      rw [loopSingle_gridReads, if_pos hgrid]
      exact hSi fuel
    have hBr : ∀ fuel, gridReads (loopBinary e g fuel).2 ≤ n + 1 := by
      intro fuel
      rw [(loopBinary_counts e g fuel).2, if_pos hgrid]
      exact hBi fuel
    refine ⟨fun fuel => ⟨hSi fuel, hSr fuel⟩, ?_, fun fuel => ⟨hBi fuel, hBr fuel⟩, ?_⟩
    · intro fuel hf
      have heq := loopSingle_stable_le e g (n + 1) fuel hS hf
      refine ⟨_, EvolveSingleStars_of_exit e g fuel (by rw [heq]; exact hS), ?_, ?_⟩
      · simp only [singleExit]
        exact hSi fuel
      · rw [(singleExit_trace e _).2.2.2.2]
        exact hSr fuel
    · intro fuel hf
      have heq := loopBinary_stable_le e g (n + 1) fuel hB hf
      refine ⟨_, EvolveBinaryStars_of_exit e g fuel (by rw [heq]; exact hB), ?_, ?_⟩
      · simp only [binaryExit]
        exact hBi fuel
      · rw [(binaryExit_trace e _).2]
        exact hBr fuel
  · intro hgrid fuel
    have hS : (loopSingle e g fuel).1.evolutionStatus = .CONTINUE →
        (loopSingle e g fuel).1.nStars = ((loopSingle e g fuel).1.index : Int) + 1 ∧
          singleCond (loopSingle e g fuel).1 = true := by
      intro hs
      have ht := loopSingle_grid_target e g hgrid fuel hs
      exact ⟨ht, (singleCond_iff _).2 ⟨hs, by omega⟩⟩
    have hB : (loopBinary e g fuel).1.evolutionStatus = .CONTINUE →
        (loopBinary e g fuel).1.nBinaries = ((loopBinary e g fuel).1.index : Int) + 1 ∧
          binaryCond (loopBinary e g fuel).1 = true := by
      intro hs
      have ht := loopBinary_grid_target e g hgrid fuel hs
      exact ⟨ht, (binaryCond_iff _).2 ⟨hs, by omega⟩⟩
    refine ⟨hS, hB, ?_, ?_⟩
    · intro r hr hs
      obtain ⟨hexit, _⟩ := EvolveSingleStars_some e g fuel r hr
      rw [(hS hs).2] at hexit
      exact Bool.noConfusion hexit
    · intro r hr hs
      have hc := (hB hs).2
      simp [EvolveBinaryStars, hc] at hr

/-- Witness of C18: the linear sweep (four stars, two binaries) and the grid
sweep of three records followed by the end of the grid. -/
theorem sweeps_terminate_witness :
    (∃ r, EvolveSingleStars linearSweep Globals.initial 4 = some r ∧
        r.iterations ≤ (max linearSweep.SingleStarMassSteps 0).toNat) ∧
      (∃ r, EvolveBinaryStars (gridSweep 3 0) Globals.initial 4 = some r ∧
        r.iterations ≤ 3 + 1 ∧ gridReads r.trace ≤ 3 + 1) :=
  ⟨((sweeps_terminate linearSweep Globals.initial).1 (by decide)).2.1 4 (by decide),
    ((sweeps_terminate (gridSweep 3 0) Globals.initial).2.1 (by decide) 3
      (fun i hi => by simp [gridSweep, hi]) (by decide)).2.2.2 4 (Nat.le_refl 4)⟩

/-! ## The requested count of a grid sweep -/

/-- C15 as stated fails: in a grid sweep of binaries stopped by the sampler at
index 1 the function returns requested = -1 and created = 2 while the status
announced is DONE. -/
theorem sampler_stop_in_grid_is_incomplete :
    usingGrid gridSamplerSweep = true ∧
      (EvolveBinaryStars gridSamplerSweep Globals.initial 2).map
          (fun r => (r.requested, r.created, r.evolutionStatus)) = some (-1, 2, .DONE) ∧
      ¬ (∀ r, EvolveBinaryStars gridSamplerSweep Globals.initial 2 = some r →
        (r.requested = -1 ↔ r.evolutionStatus ≠ .DONE)) := by
  refine ⟨by decide, by decide, ?_⟩
  intro hall
  have h := hall (binaryExit gridSamplerSweep (loopBinary gridSamplerSweep Globals.initial 2))
    (by decide)
  revert h
  decide

/-- C15 amended: in a grid sweep the requested count returned is -1 exactly
when the status is not DONE at the line that computes it (233 / 473), and is
the created count otherwise.  For single stars that status is the one
announced.  For binaries the count is computed before AIS_EXPLORATORY is
replaced by DONE: it is -1 exactly when the status announced is not DONE or
the loop was left on the sampler's request, and it is the created count when
the status announced is DONE and the sampler did not stop the sweep. -/
theorem grid_requested_count (e : Env) (g : Globals) (fuel : Nat)
    (hgrid : usingGrid e = true) :
    (∀ r, EvolveSingleStars e g fuel = some r →
        (r.requested = -1 ↔ r.evolutionStatus ≠ .DONE) ∧
        (r.evolutionStatus = .DONE → r.requested = r.created)) ∧
      (∀ r, EvolveBinaryStars e g fuel = some r →
        (r.requested = -1 ↔
          (r.evolutionStatus ≠ .DONE ∨
            (loopBinary e g fuel).1.evolutionStatus = .AIS_EXPLORATORY)) ∧
        (r.evolutionStatus = .DONE →
          (loopBinary e g fuel).1.evolutionStatus ≠ .AIS_EXPLORATORY →
          r.requested = r.created)) := by
  constructor
  · intro r hr
    obtain ⟨_, hr2⟩ := EvolveSingleStars_some e g fuel r hr
    subst hr2
    simp only [singleExit, hgrid, Bool.not_true, Bool.false_eq_true, if_false]
    constructor
    · constructor
      · intro h hd
        rw [if_pos hd] at h
        omega
      · intro h
        rw [if_neg h]
    · intro hd
      rw [if_pos hd]
  · intro r hr
    have hexit : binaryCond (loopBinary e g fuel).1 = false := by
      by_contra hcon
      have hc : binaryCond (loopBinary e g fuel).1 = true := by simpa using hcon
      simp [EvolveBinaryStars, hc] at hr
    rw [EvolveBinaryStars_of_exit e g fuel hexit] at hr
    have hr2 := (Option.some.inj hr).symm
    subst hr2
    simp only [binaryExit, hgrid, if_true]
    rcases loopBinary_status e g fuel with h1 | h1 | h1 | h1
    · by_cases h2 : ((loopBinary e g fuel).1.index : Int) ≥ (loopBinary e g fuel).1.nBinaries
      · simp [h1, h2]
      · simp [h1, h2]
    · simp [h1]
    · simp [h1]
    · simp [h1]

/-- Witness of C15 amended: the grid of three records read to its end, single
stars and binaries. -/
theorem grid_requested_count_witness :
    (∃ r, EvolveSingleStars (gridSweep 3 0) Globals.initial 4 = some r ∧
        (r.requested = -1 ↔ r.evolutionStatus ≠ .DONE) ∧
        (r.evolutionStatus = .DONE → r.requested = r.created)) ∧
      (∃ r, EvolveBinaryStars gridSamplerSweep Globals.initial 2 = some r ∧
        (r.requested = -1 ↔
          (r.evolutionStatus ≠ .DONE ∨
            (loopBinary gridSamplerSweep Globals.initial 2).1.evolutionStatus =
              .AIS_EXPLORATORY))) :=
  ⟨⟨singleExit (gridSweep 3 0) (loopSingle (gridSweep 3 0) Globals.initial 4),
      EvolveSingleStars_of_exit _ _ _ (by decide),
      (grid_requested_count (gridSweep 3 0) Globals.initial 4 (by decide)).1 _
        (EvolveSingleStars_of_exit _ _ _ (by decide))⟩,
    ⟨binaryExit gridSamplerSweep (loopBinary gridSamplerSweep Globals.initial 2), by decide,
      ((grid_requested_count gridSamplerSweep Globals.initial 2 (by decide)).2 _
        (by decide)).1⟩⟩

/-! ## Changes of the status within an iteration -/

theorem otherValues_length_le_two (start a b : EVOLUTION_STATUS)
    (trail : List EVOLUTION_STATUS) (h : ∀ s ∈ trail, s = start ∨ s = a ∨ s = b) :
    (otherValues start trail).length ≤ 2 := by
  have hsub : otherValues start trail ⊆ [a, b] := by
    intro s hs
    unfold otherValues at hs
    rw [List.mem_dedup, List.mem_filter] at hs
    obtain ⟨hs1, hs2⟩ := hs
    have hne : s ≠ start := by simpa using hs2
    rcases h s hs1 with h1 | h1 | h1
    · exact absurd h1 hne
    · simp [h1]
    · simp [h1]
  have hnodup : (otherValues start trail).Nodup := List.nodup_dedup _
  exact (List.subperm_of_subset hnodup hsub).length_le

theorem otherValues_length_le_one (start a : EVOLUTION_STATUS)
    (trail : List EVOLUTION_STATUS) (h : ∀ s ∈ trail, s = start ∨ s = a) :
    (otherValues start trail).length ≤ 1 := by
  have hsub : otherValues start trail ⊆ [a] := by
    intro s hs
    unfold otherValues at hs
    rw [List.mem_dedup, List.mem_filter] at hs
    obtain ⟨hs1, hs2⟩ := hs
    have hne : s ≠ start := by simpa using hs2
    rcases h s hs1 with h1 | h1
    · exact absurd h1 hne
    · simp [h1]
  have hnodup : (otherValues start trail).Nodup := List.nodup_dedup _
  exact (List.subperm_of_subset hnodup hsub).length_le

theorem mem_statusTrail (tr : List Entry) (final s : EVOLUTION_STATUS)
    (hs : s ∈ statusTrail tr final) : s = final ∨ ∃ en ∈ tr, en.evolutionStatus = s := by
  unfold statusTrail at hs
  rw [List.mem_append, List.mem_map, List.mem_singleton] at hs
  rcases hs with ⟨en, h1, h2⟩ | h
  · exact Or.inr ⟨en, h1, h2⟩
  · exact Or.inl h

theorem singleCreate_status (e : Env) (v : SingleVars) (m : ℚ) :
    (singleCreate e v m).1.evolutionStatus = v.evolutionStatus := by
  unfold singleCreate
  split_ifs <;> rfl

/-- The values of the status within one iteration of the single-star loop: the
value at its start, the value after the grid read, and STOPPED when a close
fails. -/
theorem singleBody_trail (e : Env) (v : SingleVars) (s : EVOLUTION_STATUS)
    (hs : s ∈ statusTrail (singleBody e v).2 (singleBody e v).1.evolutionStatus) :
    (s = v.evolutionStatus ∨ s = (singleNext e v).1.evolutionStatus ∨ s = .STOPPED) ∧
      (e.CloseStandardFile .SSE_PARAMETERS v.index = true →
        e.CloseStandardFile .SSE_SWITCH_LOG v.index = true →
        s = v.evolutionStatus ∨ s = (singleNext e v).1.evolutionStatus) := by
  have hfin := (singleBody_fields e v).2.1
  rcases mem_statusTrail _ _ s hs with h | ⟨en, hen, h⟩
  · rw [h, hfin]
    constructor
    · split_ifs <;> simp
    · intro h1 h2
      simp [h1, h2]
  · rw [← h]
    rcases (mem_singleBody e v en).1 hen with ⟨_, h1⟩ | h1 | h1
    · subst h1
      simp [SingleVars.snapshot]
    · rw [(mem_singleCreate_globals e _ _ en h1).2.2]
      simp
    · obtain ⟨_, _, h2, h3⟩ := mem_singleClose_globals e _ en h1
      rw [singleCreate_status] at h2 h3
      rw [singleCreate_index, singleNext_index] at h3
      constructor
      · rcases h2 with h2 | h2 <;> simp [h2]
      · intro hp hq
        exact Or.inr (h3 hp hq)

theorem mem_binaryReset_status (v : BinaryVars) (en : Entry) (hen : en ∈ (binaryReset v).2) :
    en.evolutionStatus = v.evolutionStatus := by
  unfold binaryReset at hen
  simp only [List.mem_cons, List.mem_singleton, List.not_mem_nil, or_false] at hen
  rcases hen with h | h <;> subst h <;> simp [BinaryVars.snapshot]

theorem mem_binaryCreate_status (e : Env) (v : BinaryVars) (en : Entry)
    (hv : v.evolutionStatus = .CONTINUE) (hen : en ∈ (binaryCreate e v).2) :
    (en.evolutionStatus = .CONTINUE ∨
        en.evolutionStatus =
          (if (e.AIS_ExploratoryPhase v.index && e.ShouldStopExploratoryPhase v.index) = true
            then .AIS_EXPLORATORY else .CONTINUE) ∨
        en.evolutionStatus = .STOPPED) ∧
      (e.CloseStandardFile .BSE_DETAILED_OUTPUT v.index = true →
        e.CloseStandardFile .BSE_SWITCH_LOG v.index = true →
        en.evolutionStatus = .CONTINUE ∨
          en.evolutionStatus =
            (if (e.AIS_ExploratoryPhase v.index && e.ShouldStopExploratoryPhase v.index) = true
              then .AIS_EXPLORATORY else .CONTINUE)) := by
  unfold binaryCreate at hen
  rw [if_pos hv] at hen
  dsimp only at hen
  simp only [List.mem_append, List.mem_cons, List.mem_singleton, List.not_mem_nil,
    or_false] at hen
  rcases hen with ((h1 | h1 | h1 | h1 | h1 | h1) | h1) | h1 | h1
  · subst h1; simp [BinaryVars.snapshot, hv]
  · subst h1; simp [BinaryVars.snapshot, hv]
  · subst h1; simp [BinaryVars.snapshot, hv]
  · subst h1; simp [BinaryVars.snapshot, hv]
  · subst h1; simp [BinaryVars.snapshot, hv]
  · subst h1; simp [BinaryVars.snapshot, hv]
  · split_ifs at h1
    · simp only [List.mem_singleton] at h1
      subst h1
      simp [BinaryVars.snapshot, hv]
    · simp at h1
  · subst h1
    cases e.AIS_ExploratoryPhase v.index <;> cases e.ShouldStopExploratoryPhase v.index <;>
      simp [BinaryVars.snapshot, hv]
  · subst h1
    cases e.AIS_ExploratoryPhase v.index <;> cases e.ShouldStopExploratoryPhase v.index <;>
      cases e.CloseStandardFile .BSE_DETAILED_OUTPUT v.index <;>
      simp [BinaryVars.snapshot, hv]

theorem mem_binaryAdvance_status (v : BinaryVars) (en : Entry)
    (hen : en ∈ (binaryAdvance v).2) : en.evolutionStatus = v.evolutionStatus := by
  unfold binaryAdvance at hen
  simp only [List.mem_cons, List.mem_singleton, List.not_mem_nil, or_false] at hen
  rcases hen with h | h <;> subst h <;> simp [BinaryVars.snapshot]

/-- The values of the status within one iteration of the binary-star loop that
starts with CONTINUE: CONTINUE, the value set by the grid read or by the
sampler, and STOPPED when a close fails. -/
theorem binaryBody_trail (e : Env) (v : BinaryVars) (s : EVOLUTION_STATUS)
    (hv : v.evolutionStatus = .CONTINUE)
    (hs : s ∈ statusTrail (binaryBody e v).2 (binaryBody e v).1.evolutionStatus) :
    (s = .CONTINUE ∨
        s = (if (binaryNext e (binaryReset v).1).1.evolutionStatus = .CONTINUE then
              (if (e.AIS_ExploratoryPhase v.index && e.ShouldStopExploratoryPhase v.index) = true
                then .AIS_EXPLORATORY else .CONTINUE)
            else (binaryNext e (binaryReset v).1).1.evolutionStatus) ∨
        s = .STOPPED) ∧
      (e.CloseStandardFile .BSE_DETAILED_OUTPUT v.index = true →
        e.CloseStandardFile .BSE_SWITCH_LOG v.index = true →
        s = .CONTINUE ∨
          s = (if (binaryNext e (binaryReset v).1).1.evolutionStatus = .CONTINUE then
                (if (e.AIS_ExploratoryPhase v.index &&
                    e.ShouldStopExploratoryPhase v.index) = true
                  then .AIS_EXPLORATORY else .CONTINUE)
              else (binaryNext e (binaryReset v).1).1.evolutionStatus)) := by
  obtain ⟨hr1, _, _, hr4, _⟩ := binaryReset_fields v
  obtain ⟨_, hn2, _⟩ := binaryNext_fields e (binaryReset v).1
  have hfin := (binaryBody_fields e v).2.1
  have hfinal : ∀ t, t = (binaryBody e v).1.evolutionStatus →
      (t = .CONTINUE ∨
        t = (if (binaryNext e (binaryReset v).1).1.evolutionStatus = .CONTINUE then
              (if (e.AIS_ExploratoryPhase v.index && e.ShouldStopExploratoryPhase v.index) = true
                then .AIS_EXPLORATORY else .CONTINUE)
            else (binaryNext e (binaryReset v).1).1.evolutionStatus) ∨
        t = .STOPPED) ∧
      (e.CloseStandardFile .BSE_DETAILED_OUTPUT v.index = true →
        e.CloseStandardFile .BSE_SWITCH_LOG v.index = true →
        t = .CONTINUE ∨
          t = (if (binaryNext e (binaryReset v).1).1.evolutionStatus = .CONTINUE then
                (if (e.AIS_ExploratoryPhase v.index &&
                    e.ShouldStopExploratoryPhase v.index) = true
                  then .AIS_EXPLORATORY else .CONTINUE)
              else (binaryNext e (binaryReset v).1).1.evolutionStatus)) := by
    intro t ht
    rw [ht, hfin]
    by_cases hc : (binaryNext e (binaryReset v).1).1.evolutionStatus = .CONTINUE
    · simp only [if_pos hc]
      constructor
      · split_ifs <;> simp
      · intro h1 h2
        simp [h1, h2]
    · simp only [if_neg hc]
      simp
  rcases mem_statusTrail _ _ s hs with h | ⟨en, hen, h⟩
  · exact hfinal s h
  · rw [← h]
    rcases (mem_binaryBody e v en).1 hen with h1 | h1 | h1 | h1
    · rw [mem_binaryReset_status v en h1, hv]
      simp
    · rw [(mem_binaryNext e _ en h1).2]
      simp [BinaryVars.snapshot, hr1, hv]
    · obtain ⟨hc, _, _⟩ := mem_binaryCreate e _ en h1
      have h2 := mem_binaryCreate_status e _ en hc h1
      rw [hn2, hr4] at h2
      simp only [if_pos hc]
      exact h2
    · have h2 := mem_binaryAdvance_status _ en h1
      have h3 : (binaryCreate e (binaryNext e (binaryReset v).1).1).1.evolutionStatus =
          (binaryBody e v).1.evolutionStatus := by
        unfold binaryBody binaryAdvance
        rfl
      rw [h3] at h2
      exact hfinal _ h2

/-- C16 as stated fails.  In the only iteration of a single-star sweep over an
empty grid whose files fail to close the status goes from CONTINUE to DONE and
then to STOPPED; in the first iteration of a binary sweep whose sampler asks to
stop and whose files fail to close it goes from CONTINUE to AIS_EXPLORATORY and
then to STOPPED. -/
theorem status_set_twice_in_one_iteration :
    singleCond (loopSingle emptyGridCloseFail Globals.initial 0).1 = true ∧
      otherValues .CONTINUE
          (statusTrail (singleBody emptyGridCloseFail
              (loopSingle emptyGridCloseFail Globals.initial 0).1).2
            (loopSingle emptyGridCloseFail Globals.initial 1).1.evolutionStatus) =
        [.DONE, .STOPPED] ∧
      binaryCond (loopBinary samplerCloseFail Globals.initial 0).1 = true ∧
      otherValues .CONTINUE
          (statusTrail (binaryBody samplerCloseFail
              (loopBinary samplerCloseFail Globals.initial 0).1).2
            (loopBinary samplerCloseFail Globals.initial 1).1.evolutionStatus) =
        [.AIS_EXPLORATORY, .STOPPED] := by
  decide

/-- C16 amended: in both sweep loops the status is CONTINUE at the start of
every iteration.  Within an iteration it takes at most two values other than
CONTINUE: the one set by the grid read or by the sampler, and STOPPED; when the
closes of the iteration succeed it takes at most one.  A failed close sets
STOPPED whatever the status was: in the single-star loop in every iteration,
in the binary-star loop in every iteration that constructed a binary. -/
theorem status_changes_in_iteration (e : Env) (g : Globals) (k : Nat) :
    (singleCond (loopSingle e g k).1 = true →
        (loopSingle e g k).1.evolutionStatus = .CONTINUE ∧
        (otherValues .CONTINUE
          (statusTrail (singleBody e (loopSingle e g k).1).2
            (loopSingle e g (k + 1)).1.evolutionStatus)).length ≤ 2 ∧
        (e.CloseStandardFile .SSE_PARAMETERS k = true →
          e.CloseStandardFile .SSE_SWITCH_LOG k = true →
          (otherValues .CONTINUE
            (statusTrail (singleBody e (loopSingle e g k).1).2
              (loopSingle e g (k + 1)).1.evolutionStatus)).length ≤ 1) ∧
        (e.CloseStandardFile .SSE_PARAMETERS k = false ∨
            e.CloseStandardFile .SSE_SWITCH_LOG k = false →
          (loopSingle e g (k + 1)).1.evolutionStatus = .STOPPED)) ∧
      (binaryCond (loopBinary e g k).1 = true →
        (loopBinary e g k).1.evolutionStatus = .CONTINUE ∧
        (otherValues .CONTINUE
          (statusTrail (binaryBody e (loopBinary e g k).1).2
            (loopBinary e g (k + 1)).1.evolutionStatus)).length ≤ 2 ∧
        (e.CloseStandardFile .BSE_DETAILED_OUTPUT k = true →
          e.CloseStandardFile .BSE_SWITCH_LOG k = true →
          (otherValues .CONTINUE
            (statusTrail (binaryBody e (loopBinary e g k).1).2
              (loopBinary e g (k + 1)).1.evolutionStatus)).length ≤ 1) ∧
        (e.CloseStandardFile .BSE_DETAILED_OUTPUT k = false ∨
            e.CloseStandardFile .BSE_SWITCH_LOG k = false →
          (∃ en ∈ (binaryBody e (loopBinary e g k).1).2, en.stmt = .newBinaryStar k) →
          (loopBinary e g (k + 1)).1.evolutionStatus = .STOPPED)) := by
  constructor
  · intro hc
    have hv := ((singleCond_iff _).1 hc).1
    have hidx := (loopSingle_index e g k).2 hc
    have hstep : (loopSingle e g (k + 1)).1.evolutionStatus =
        (singleBody e (loopSingle e g k).1).1.evolutionStatus := by
      rw [loopSingle_succ_of_cond e g k hc]
    rw [hstep]
    refine ⟨hv, ?_, ?_, ?_⟩
    · refine otherValues_length_le_two _
        (singleNext e (loopSingle e g k).1).1.evolutionStatus .STOPPED _ ?_
      intro s hs
      have h := (singleBody_trail e _ s hs).1
      rw [hv] at h
      exact h
    · intro hp hq
      refine otherValues_length_le_one _
        (singleNext e (loopSingle e g k).1).1.evolutionStatus _ ?_
      intro s hs
      have h := (singleBody_trail e _ s hs).2
      rw [hidx, hv] at h
      exact h hp hq
    · intro hfail
      rw [(singleBody_fields e _).2.1, hidx]
      rcases hfail with h | h <;> simp [h]
  · intro hc
    have hv := ((binaryCond_iff _).1 hc).1
    have hidx := (loopBinary_index e g k).2 hc
    have hstep : (loopBinary e g (k + 1)).1.evolutionStatus =
        (binaryBody e (loopBinary e g k).1).1.evolutionStatus := by
      rw [loopBinary_succ_of_cond e g k hc]
    rw [hstep]
    refine ⟨hv, ?_, ?_, ?_⟩
    · have hX : ∃ X, ∀ s ∈ statusTrail (binaryBody e (loopBinary e g k).1).2
          (binaryBody e (loopBinary e g k).1).1.evolutionStatus,
          s = .CONTINUE ∨ s = X ∨ s = .STOPPED :=
        ⟨_, fun s hs => (binaryBody_trail e _ s hv hs).1⟩
      obtain ⟨X, h⟩ := hX
      exact otherValues_length_le_two _ X .STOPPED _ h
    · intro hp hq
      have hX : ∃ X, ∀ s ∈ statusTrail (binaryBody e (loopBinary e g k).1).2
          (binaryBody e (loopBinary e g k).1).1.evolutionStatus,
          s = .CONTINUE ∨ s = X :=
        ⟨_, fun s hs => (binaryBody_trail e _ s hv hs).2 (by rw [hidx]; exact hp)
          (by rw [hidx]; exact hq)⟩
      obtain ⟨X, h⟩ := hX
      exact otherValues_length_le_one _ X _ h
    · intro hfail ⟨en, hen, hst⟩
      have hcont : (binaryNext e (binaryReset (loopBinary e g k).1).1).1.evolutionStatus =
          .CONTINUE := by
        rcases (mem_binaryBody e _ en).1 hen with h1 | h1 | h1 | h1
        · rcases (mem_binaryReset _ en h1).2.1 with h2 | h2 <;> rw [h2] at hst <;>
            simp at hst
        · rw [(mem_binaryNext e _ en h1).2] at hst
          simp [BinaryVars.snapshot] at hst
        · exact (mem_binaryCreate e _ en h1).1
        · rcases (mem_binaryAdvance _ en h1).2.1 with h2 | h2 <;> rw [h2] at hst <;>
            simp at hst
      rw [(binaryBody_fields e _).2.1, if_pos hcont, hidx]
      rcases hfail with h | h <;> simp [h]

/-- Witness of C16 amended: the second iteration of the sweeps whose closes fail
in the iteration with index 1. -/
theorem status_changes_in_iteration_witness :
    (singleCond (loopSingle closeFailSweep Globals.initial 1).1 = true ∧
        (loopSingle closeFailSweep Globals.initial (1 + 1)).1.evolutionStatus = .STOPPED) ∧
      (binaryCond (loopBinary closeFailSweep Globals.initial 1).1 = true ∧
        (otherValues .CONTINUE
          (statusTrail (binaryBody closeFailSweep
              (loopBinary closeFailSweep Globals.initial 1).1).2
            (loopBinary closeFailSweep Globals.initial (1 + 1)).1.evolutionStatus)).length
          ≤ 2) :=
  ⟨⟨by decide,
      ((status_changes_in_iteration closeFailSweep Globals.initial 1).1 (by decide)).2.2.2
        (Or.inl (by decide))⟩,
    ⟨by decide,
      ((status_changes_in_iteration closeFailSweep Globals.initial 1).2 (by decide)).2.1⟩⟩

/-! ## A failed close in the iteration that exhausts the grid -/

/-- While the grid reader returns 1 and the files of those iterations close, the
single-star loop goes on, one star per record. -/
theorem loopSingle_grid_prefix_closed (e : Env) (g : Globals) (n : Nat)
    (hgrid : usingGrid e = true) (hread : ∀ i, i < n → e.ApplyNextGridRecord i = 1)
    (hclose : ∀ f i, i < n → e.CloseStandardFile f i = true) (k : Nat) (hk : k ≤ n) :
    (loopSingle e g k).1.evolutionStatus = .CONTINUE ∧
      (loopSingle e g k).1.nStars = (k : Int) + 1 ∧
      (loopSingle e g k).1.index = k ∧ (loopSingle e g k).1.nStarsCreated = k := by
  induction k with
  | zero => simp [loopSingle, singleInit, hgrid]
  | succ k ih =>
    obtain ⟨h1, h2, h3, h4⟩ := ih (Nat.le_of_succ_le hk)
    have hkn : k < n := Nat.lt_of_succ_le hk
    have hc : singleCond (loopSingle e g k).1 = true := by
      rw [singleCond_iff, h1, h2, h3]
      exact ⟨rfl, by omega⟩
    obtain ⟨hb1, hb2, _, hb4, _⟩ := singleBody_fields e (loopSingle e g k).1
    obtain ⟨hn1, hn2⟩ := singleNext_grid e (loopSingle e g k).1 hgrid h1
    rw [h3, hread k hkn] at hn1 hn2
    rw [loopSingle_succ_of_cond e g k hc]
    dsimp only
    rw [hb1, hb2, hb4, singleBody_index, hn1, hn2, h2, h3, h4]
    simp [hclose _ k hkn]

/-- Both closes of an iteration of the single-star loop are in its trace, the
first taken with the status the grid read left. -/
theorem singleBody_closes (e : Env) (v : SingleVars) :
    (∃ en ∈ (singleBody e v).2, en.index = v.index ∧
        en.stmt = .CloseStandardFile .SSE_PARAMETERS
          (e.CloseStandardFile .SSE_PARAMETERS v.index) ∧
        en.evolutionStatus = (singleNext e v).1.evolutionStatus) ∧
      (∃ en ∈ (singleBody e v).2, en.index = v.index ∧
        en.stmt = .CloseStandardFile .SSE_SWITCH_LOG
          (e.CloseStandardFile .SSE_SWITCH_LOG v.index)) := by
  have hi : (singleCreate e (singleNext e v).1 (singleNext e v).2).1.index = v.index := by
    rw [singleCreate_index, singleNext_index]
  have hs := singleCreate_status e (singleNext e v).1 (singleNext e v).2
  constructor
  · refine ⟨(singleCreate e (singleNext e v).1 (singleNext e v).2).1.snapshot
      (.CloseStandardFile .SSE_PARAMETERS (e.CloseStandardFile .SSE_PARAMETERS v.index)),
      ?_, ?_, ?_, ?_⟩
    · refine (mem_singleBody e v _).2 (Or.inr (Or.inr ?_))
      simp [singleClose, hi]
    · simp [SingleVars.snapshot, hi]
    · simp [SingleVars.snapshot]
    · simp [SingleVars.snapshot, hs]
  · obtain ⟨en, hen, h1, h2⟩ : ∃ en ∈ (singleClose e
        (singleCreate e (singleNext e v).1 (singleNext e v).2).1).2,
        en.index = v.index ∧ en.stmt = .CloseStandardFile .SSE_SWITCH_LOG
          (e.CloseStandardFile .SSE_SWITCH_LOG v.index) := by
      unfold singleClose
      dsimp only
      rw [hi]
      cases e.CloseStandardFile .SSE_PARAMETERS v.index <;>
        simp [SingleVars.snapshot, hi]
    exact ⟨en, (mem_singleBody e v en).2 (Or.inr (Or.inr hen)), h1, h2⟩

/-- Every iteration the single-star loop has run made both closes. -/
theorem loopSingle_closes (e : Env) (g : Globals) (k i : Nat)
    (hi : i < (loopSingle e g k).1.index) :
    (∃ en ∈ (loopSingle e g k).2, en.index = i ∧
        en.stmt = .CloseStandardFile .SSE_PARAMETERS
          (e.CloseStandardFile .SSE_PARAMETERS i)) ∧
      (∃ en ∈ (loopSingle e g k).2, en.index = i ∧
        en.stmt = .CloseStandardFile .SSE_SWITCH_LOG
          (e.CloseStandardFile .SSE_SWITCH_LOG i)) := by
  induction k with
  | zero => simp [loopSingle, singleInit] at hi
  | succ k ih =>
    by_cases h : singleCond (loopSingle e g k).1 = true
    · have hidx := (loopSingle_index e g k).2 h
      rw [loopSingle_succ_of_cond e g k h] at hi ⊢
      dsimp only at hi ⊢
      rw [singleBody_index, hidx] at hi
      rcases Nat.lt_or_ge i k with hlt | hge
      · obtain ⟨⟨en1, hm1, hp1⟩, ⟨en2, hm2, hp2⟩⟩ := ih (by rw [hidx]; exact hlt)
        exact ⟨⟨en1, List.mem_append.2 (Or.inl hm1), hp1⟩,
          ⟨en2, List.mem_append.2 (Or.inl hm2), hp2⟩⟩
      · have hik : i = k := by omega
        subst hik
        obtain ⟨⟨en1, hm1, hp1, hq1, _⟩, ⟨en2, hm2, hp2, hq2⟩⟩ :=
          singleBody_closes e (loopSingle e g i).1
        rw [hidx] at hp1 hq1 hp2 hq2
        exact ⟨⟨en1, List.mem_append.2 (Or.inr hm1), hp1, hq1⟩,
          ⟨en2, List.mem_append.2 (Or.inr hm2), hp2, hq2⟩⟩
    · have h2 : singleCond (loopSingle e g k).1 = false := by simpa using h
      rw [loopSingle_succ_of_not_cond e g k h2] at hi ⊢
      exact ih hi

/-- C19: in EvolveSingleStars both closes are made in every iteration that
runs.  For a grid sweep whose reader returns 1 for n reads and then 0, with the
closes of iterations 0..n-1 succeeding and a close of iteration n failing, the
first close of iteration n is made with status DONE and no star constructed in
that iteration, the status ends as STOPPED, and the function returns
(requested = -1, created = n), all n records having been read and evolved. -/
theorem close_failure_after_exhaustion (e : Env) (g : Globals) (n fuel : Nat)
    (hgrid : usingGrid e = true) (hread : ∀ i, i < n → e.ApplyNextGridRecord i = 1)
    (hend : e.ApplyNextGridRecord n = 0)
    (hclose : ∀ f i, i < n → e.CloseStandardFile f i = true)
    (hfail : e.CloseStandardFile .SSE_PARAMETERS n = false ∨
      e.CloseStandardFile .SSE_SWITCH_LOG n = false)
    (hfuel : n + 1 ≤ fuel) :
    ∃ r, EvolveSingleStars e g fuel = some r ∧ r.evolutionStatus = .STOPPED ∧
      r.requested = -1 ∧ r.created = (n : Int) ∧ constructions r.trace = n ∧
      gridReads r.trace = n + 1 ∧ r.iterations = n + 1 ∧
      (∀ i, i < r.iterations →
        (∃ en ∈ r.trace, en.index = i ∧
          en.stmt = .CloseStandardFile .SSE_PARAMETERS
            (e.CloseStandardFile .SSE_PARAMETERS i)) ∧
        (∃ en ∈ r.trace, en.index = i ∧
          en.stmt = .CloseStandardFile .SSE_SWITCH_LOG
            (e.CloseStandardFile .SSE_SWITCH_LOG i))) ∧
      (∃ en ∈ r.trace, en.index = n ∧
        en.stmt = .CloseStandardFile .SSE_PARAMETERS
          (e.CloseStandardFile .SSE_PARAMETERS n) ∧
        en.evolutionStatus = .DONE) ∧
      (∀ en ∈ r.trace, ∀ randomSeed initialMass,
        en.stmt = .newStar randomSeed initialMass → en.index < n) := by
  obtain ⟨h1, h2, h3, h4⟩ :=
    loopSingle_grid_prefix_closed e g n hgrid hread hclose n (Nat.le_refl n)
  have hc : singleCond (loopSingle e g n).1 = true := by
    rw [singleCond_iff, h1, h2, h3]
    exact ⟨rfl, by omega⟩
  obtain ⟨_, hb2, _, hb4, hb5, _⟩ := singleBody_fields e (loopSingle e g n).1
  obtain ⟨hn1, _⟩ := singleNext_grid e (loopSingle e g n).1 hgrid h1
  rw [h3, hend] at hn1
  have hdone : (singleNext e (loopSingle e g n).1).1.evolutionStatus = .DONE := by
    rw [hn1]
    simp
  have hstepEq := loopSingle_succ_of_cond e g n hc
  have hst : (loopSingle e g (n + 1)).1.evolutionStatus = .STOPPED := by
    rw [hstepEq]
    dsimp only
    rw [hb2, h3]
    rcases hfail with h | h <;> simp [h]
  have hcr : (loopSingle e g (n + 1)).1.nStarsCreated = n := by
    rw [hstepEq]
    dsimp only
    rw [hb4, hdone, h4]
    simp
  have hix : (loopSingle e g (n + 1)).1.index = n + 1 := by
    rw [hstepEq]
    dsimp only
    rw [singleBody_index, h3]
  have hexit : singleCond (loopSingle e g (n + 1)).1 = false := by
    by_contra hcon
    have hcon2 : singleCond (loopSingle e g (n + 1)).1 = true := by simpa using hcon
    rw [singleCond_iff, hst] at hcon2
    simp at hcon2
  have heq := loopSingle_stable_le e g (n + 1) fuel hexit hfuel
  obtain ⟨_, _, _, ht4, ht5⟩ := singleExit_trace e (loopSingle e g (n + 1))
  have hsub : ∀ en, en ∈ (loopSingle e g (n + 1)).2 →
      en ∈ (singleExit e (loopSingle e g (n + 1))).trace := by
    intro en hen
    simp only [singleExit]
    exact List.mem_append.2 (Or.inl hen)
  refine ⟨singleExit e (loopSingle e g (n + 1)), ?_, ?_, ?_, ?_, ?_, ?_, ?_, ?_, ?_, ?_⟩
  · rw [EvolveSingleStars_of_exit e g fuel (by rw [heq]; exact hexit), heq]
  · simp [singleExit, hst]
  · simp [singleExit, hst, hgrid]
  · simp [singleExit, hcr]
  · rw [ht4, (loopSingle_seeds e g (n + 1)).2.2.1, hcr]
  · rw [ht5, loopSingle_gridReads, if_pos hgrid, hix]
  · simp [singleExit, hix]
  · intro i hi
    have hi2 : i < (loopSingle e g (n + 1)).1.index := by simpa [singleExit] using hi
    obtain ⟨⟨en1, hm1, hp1⟩, ⟨en2, hm2, hp2⟩⟩ := loopSingle_closes e g (n + 1) i hi2
    exact ⟨⟨en1, hsub en1 hm1, hp1⟩, ⟨en2, hsub en2 hm2, hp2⟩⟩
  · obtain ⟨⟨en1, hm1, hp1, hq1, hs1⟩, _⟩ := singleBody_closes e (loopSingle e g n).1
    rw [h3] at hp1 hq1
    rw [hdone] at hs1
    refine ⟨en1, hsub en1 ?_, hp1, hq1, hs1⟩
    rw [hstepEq]
    exact List.mem_append.2 (Or.inr hm1)
  · intro en hen rs im hs
    simp only [singleExit, List.mem_append, List.mem_singleton] at hen
    rcases hen with h | h
    · obtain ⟨i, hik, hci, hidx, hb⟩ := loopSingle_origin e g (n + 1) en h
      have hei := (singleBody_seed e _ en hb).1
      rw [hidx] at hei
      rcases Nat.lt_or_ge i n with hlt | hge
      · omega
      · have hin : i = n := by omega
        subst hin
        exfalso
        rcases (mem_singleBody e _ en).1 hb with ⟨_, h5⟩ | h5 | h5
        · rw [h5] at hs
          simp [SingleVars.snapshot] at hs
        · have h6 := (mem_singleCreate e _ _ en h5).1
          rw [hdone] at h6
          exact absurd h6 (by decide)
        · rcases (mem_singleClose e _ en h5).2 with h6 | h6 | h6 | h6 <;> rw [h6] at hs <;>
            simp at hs
    · rw [h] at hs
      simp [SingleVars.snapshot] at hs

/-- Witness of C19: a grid of two records whose files fail to close in the
iteration that finds the grid exhausted. -/
theorem close_failure_after_exhaustion_witness :
    lateCloseFail.CloseStandardFile .SSE_PARAMETERS 2 = false ∧
      ∃ r, EvolveSingleStars lateCloseFail Globals.initial 3 = some r ∧
        r.evolutionStatus = .STOPPED ∧ r.requested = -1 ∧ r.created = ((2 : Nat) : Int) ∧
        constructions r.trace = 2 ∧ gridReads r.trace = 2 + 1 ∧ r.iterations = 2 + 1 ∧
        (∀ i, i < r.iterations →
          (∃ en ∈ r.trace, en.index = i ∧
            en.stmt = .CloseStandardFile .SSE_PARAMETERS
              (lateCloseFail.CloseStandardFile .SSE_PARAMETERS i)) ∧
          (∃ en ∈ r.trace, en.index = i ∧
            en.stmt = .CloseStandardFile .SSE_SWITCH_LOG
              (lateCloseFail.CloseStandardFile .SSE_SWITCH_LOG i))) ∧
        (∃ en ∈ r.trace, en.index = 2 ∧
          en.stmt = .CloseStandardFile .SSE_PARAMETERS
            (lateCloseFail.CloseStandardFile .SSE_PARAMETERS 2) ∧
          en.evolutionStatus = .DONE) ∧
        (∀ en ∈ r.trace, ∀ randomSeed initialMass,
          en.stmt = .newStar randomSeed initialMass → en.index < 2) :=
  ⟨by decide,
    close_failure_after_exhaustion lateCloseFail Globals.initial 2 3 (by decide)
      (fun i hi => by simp [lateCloseFail, gridSweep, hi]) (by decide)
      (fun f i hi => by simp [lateCloseFail, hi]) (Or.inl (by decide)) (by decide)⟩

end COMPAS
